import Mathlib

/-!
# Geometry generators and scenarios of `display_list_benchmarks.cc`

A shallow embedding of the geometry helpers and of the benchmark scenarios of
`src/display_list/display_list_benchmarks.cc`, and statements about them.

Modelling conventions, fixed for the whole file:

* `SkScalar` / `float` values are elements of a field `R`; theorems that need
  trigonometric identities take `R := ℝ` with `Real.cos`, `Real.sin`,
  `Real.pi`, theorems about the point walk take `R := ℚ`.  Rounding is not
  modelled: every statement is about exact arithmetic.
* `size_t` values are natural numbers.  Every `size_t` expression of the
  embedded functions (`sides * 2`, `sides * 3`, `2 * i - 1`, `3 * i - 2`, ...)
  is bounded by three times the length of a `std::vector<SkPoint>` that has
  already been built, so it stays far below `2 ^ 64`.  The one `size_t`
  operation that does wrap, the unary minus in `rect.offset(-canvas_size, 0)`
  of the shape scenarios, is `negSizeT`.
* `std::vector<T>` is `List T`, `push_back` appends at the end, and
  `operator[]` is `List.get?`-style indexing in `Option`: an out-of-range read
  (undefined behaviour in C++) makes the embedded function return `none`.
-/

namespace flutter.testing

/-- Index sequence of `for (size_t i = lo; i < hi; i++)`. -/
def forRange (lo hi : Nat) : List Nat := List.range' lo (hi - lo)

/-- Skia `SkPoint`: a pair of scalars. -/
structure SkPoint (R : Type) where
  fX : R
  fY : R
deriving DecidableEq

namespace SkPoint

variable {R : Type}

/-- `SkPoint::Make(x, y)`. -/
def Make (x y : R) : SkPoint R := ⟨x, y⟩

/-- `SkPoint::x()`. -/
def x (p : SkPoint R) : R := p.fX

/-- `SkPoint::y()`. -/
def y (p : SkPoint R) : R := p.fY

/-- `SkPoint::offset(dx, dy)`. -/
def offset [Add R] (p : SkPoint R) (dx dy : R) : SkPoint R := ⟨p.fX + dx, p.fY + dy⟩

end SkPoint

/-- The pieces of `<cmath>` used by the generators: `std::cosf`, `std::sinf`
and the constant `M_PI`, taken as parameters of the embedding. -/
structure FloatMath (R : Type) where
  cosf : R → R
  sinf : R → R
  M_PI : R

/-- `GetPolygonPoints(n, center, r)`, lines 291-303. -/
def GetPolygonPoints {R : Type} [Field R] (m : FloatMath R) (n : Nat) (center : SkPoint R)
    (r : R) : List (SkPoint R) :=
  let full_circle : R := 2 * m.M_PI
  (forRange 0 n).foldl (fun (points : List (SkPoint R)) (i : Nat) =>
    let angle : R := (full_circle / (n : R)) * (i : R)
    let x : R := center.x + r * m.cosf angle
    let y : R := center.y + r * m.sinf angle
    points ++ [SkPoint.Make x y]) []

/-- Skia `SkPath::Verb`. -/
inductive Verb where
  | kMove_Verb
  | kLine_Verb
  | kQuad_Verb
  | kConic_Verb
  | kCubic_Verb
  | kClose_Verb
  | kDone_Verb
deriving DecidableEq

/-- One recorded element of an `SkPath`: the verb together with the points
(and conic weight) passed to the call that recorded it. -/
inductive PathElem (R : Type) where
  | move (p : SkPoint R)
  | line (p : SkPoint R)
  | quad (c p : SkPoint R)
  | conic (c p : SkPoint R) (w : R)
  | cubic (c1 c2 p : SkPoint R)
  | close
deriving DecidableEq

/-- Skia `SkPath` as the generators use it: the sequence of recorded elements,
in call order.  Each of `moveTo`, `lineTo`, `quadTo`, `conicTo`, `cubicTo`
and `close` records one element. -/
abbrev SkPath (R : Type) := List (PathElem R)

namespace SkPath

variable {R : Type}

/-- `SkPath::moveTo(p)`. -/
def moveTo (path : SkPath R) (p : SkPoint R) : SkPath R := path ++ [PathElem.move p]

/-- `SkPath::lineTo(p)`. -/
def lineTo (path : SkPath R) (p : SkPoint R) : SkPath R := path ++ [PathElem.line p]

/-- `SkPath::quadTo(c, p)`. -/
def quadTo (path : SkPath R) (c p : SkPoint R) : SkPath R := path ++ [PathElem.quad c p]

/-- `SkPath::conicTo(c, p, w)`. -/
def conicTo (path : SkPath R) (c p : SkPoint R) (w : R) : SkPath R :=
  path ++ [PathElem.conic c p w]

/-- `SkPath::cubicTo(c1, c2, p)`. -/
def cubicTo (path : SkPath R) (c1 c2 p : SkPoint R) : SkPath R :=
  path ++ [PathElem.cubic c1 c2 p]

/-- `SkPath::close()`; the generators only call it right after a segment. -/
def close (path : SkPath R) : SkPath R := path ++ [PathElem.close]

/-- `SkPath::countVerbs()`. -/
def countVerbs (path : SkPath R) : Nat := path.length

end SkPath

section Generators

variable {R : Type} [Field R]

/-- `GetLinesPath(path, sides, center, radius)`, lines 311-319. -/
def GetLinesPath (m : FloatMath R) (path : SkPath R) (sides : Nat) (center : SkPoint R)
    (radius : R) : Option (SkPath R) := do
  let points := GetPolygonPoints m sides center radius
  let path := path.moveTo (← points[0]?)
  let path ← (forRange 1 sides).foldlM (fun (path : SkPath R) (i : Nat) => do
    pure (path.lineTo (← points[i]?))) path
  let path := path.lineTo (← points[0]?)
  pure path.close

/-- `GetQuadsPath(path, sides, center, radius)`, lines 330-341. -/
def GetQuadsPath (m : FloatMath R) (path : SkPath R) (sides : Nat) (center : SkPoint R)
    (radius : R) : Option (SkPath R) := do
  let points := GetPolygonPoints m sides center radius
  let control_points := GetPolygonPoints m (sides * 2) center (radius * 0.8)
  let path := path.moveTo (← points[0]?)
  let path ← (forRange 1 sides).foldlM (fun (path : SkPath R) (i : Nat) => do
    pure (path.quadTo (← control_points[2 * i - 1]?) (← points[i]?))) path
  let path := path.quadTo (← control_points[2 * sides - 1]?) (← points[0]?)
  pure path.close

/-- `GetConicsPath(path, sides, center, radius)`, lines 352-363. -/
def GetConicsPath (m : FloatMath R) (path : SkPath R) (sides : Nat) (center : SkPoint R)
    (radius : R) : Option (SkPath R) := do
  let points := GetPolygonPoints m sides center radius
  let control_points := GetPolygonPoints m (sides * 2) center (radius * 0.8)
  let path := path.moveTo (← points[0]?)
  let path ← (forRange 1 sides).foldlM (fun (path : SkPath R) (i : Nat) => do
    pure (path.conicTo (← control_points[2 * i - 1]?) (← points[i]?) 3.7)) path
  let path := path.conicTo (← control_points[2 * sides - 1]?) (← points[0]?) 3.7
  pure path.close

/-- `GetCubicsPath(path, sides, center, radius)`, lines 375-390. -/
def GetCubicsPath (m : FloatMath R) (path : SkPath R) (sides : Nat) (center : SkPoint R)
    (radius : R) : Option (SkPath R) := do
  let points := GetPolygonPoints m sides center radius
  let inner_control_points := GetPolygonPoints m (sides * 3) center (radius * 0.8)
  let outer_control_points := GetPolygonPoints m (sides * 3) center (radius * 1.2)
  let path := path.moveTo (← points[0]?)
  let path ← (forRange 1 sides).foldlM (fun (path : SkPath R) (i : Nat) => do
    pure (path.cubicTo (← inner_control_points[3 * i - 2]?)
      (← outer_control_points[3 * i - 1]?) (← points[i]?))) path
  let path := path.cubicTo (← inner_control_points[3 * sides - 2]?)
    (← outer_control_points[3 * sides - 1]?) (← points[0]?)
  pure path.close

/-- `MultiplyPath(path, type, center, sides, number, radius)`, lines 400-427. -/
def MultiplyPath (m : FloatMath R) (path : SkPath R) (type : Verb) (center : SkPoint R)
    (sides number : Nat) (radius : R) : Option (SkPath R) :=
  let center_points := GetPolygonPoints m number center (radius / 2.0)
  center_points.foldlM (fun (path : SkPath R) (p : SkPoint R) =>
    match type with
    | Verb.kLine_Verb => GetLinesPath m path sides p radius
    | Verb.kQuad_Verb => GetQuadsPath m path sides p radius
    | Verb.kConic_Verb => GetConicsPath m path sides p radius
    | Verb.kCubic_Verb => GetCubicsPath m path sides p radius
    | _ => pure path) path

end Generators

/-- Skia `SkISize`: integer width and height. -/
structure SkISize where
  fWidth : Int
  fHeight : Int
deriving DecidableEq

namespace SkISize

/-- `SkISize::width()`. -/
def width (s : SkISize) : Int := s.fWidth

/-- `SkISize::height()`. -/
def height (s : SkISize) : Int := s.fHeight

end SkISize

/-- `GetTestPoints(count, canvas_size)`, lines 628-648.  The loop state is the
pair `(points, current)`; the table reads `delta_x[i % delta_x.size()]` are
always in range, so `getD` never falls back to its default. -/
def GetTestPoints {R : Type} [LinearOrderedField R] (count : Nat) (canvas_size : SkISize) :
    List (SkPoint R) :=
  let delta_x : List R := [10.0, 6.3, 15.0, 3.5, 22.6, 4.7]
  let delta_y : List R := [9.3, -5.4, 8.5, -12.0, 19.2, -19.6]
  let current : SkPoint R := SkPoint.Make 0.0 0.0
  ((forRange 0 count).foldl (fun (st : List (SkPoint R) × SkPoint R) (i : Nat) =>
    let points := st.1 ++ [st.2]
    let current := st.2.offset (delta_x.getD (i % delta_x.length) 0)
      (delta_y.getD (i % delta_y.length) 0)
    let current := if current.x > (canvas_size.width : R) then
      current.offset ((-canvas_size.width : Int) : R) 25.0 else current
    let current := if current.y > (canvas_size.height : R) then
      current.offset 0.0 ((-canvas_size.height : Int) : R) else current
    (points, current)) ([], current)).1

/-! ## Vocabulary used by the statements -/

namespace PathElem

variable {R : Type}

/-- The `SkPath::Verb` of a recorded element. -/
def verb : PathElem R → Verb
  | move _ => Verb.kMove_Verb
  | line _ => Verb.kLine_Verb
  | quad _ _ => Verb.kQuad_Verb
  | conic _ _ _ => Verb.kConic_Verb
  | cubic _ _ _ => Verb.kCubic_Verb
  | close => Verb.kClose_Verb

/-- Whether the element is a segment (line, quad, conic or cubic). -/
def isSegment : PathElem R → Bool
  | line _ => true
  | quad _ _ => true
  | conic _ _ _ => true
  | cubic _ _ _ => true
  | _ => false

/-- The on-curve point an element ends at; `close` has none. -/
def endPoint : PathElem R → Option (SkPoint R)
  | move p => some p
  | line p => some p
  | quad _ p => some p
  | conic _ p _ => some p
  | cubic _ _ p => some p
  | close => none

/-- Replace a quadratic segment by the conic segment with the same control and
end point and weight `w`; every other element is kept. -/
def quadToConic (w : R) : PathElem R → PathElem R
  | quad c p => conic c p w
  | e => e

end PathElem

/-- Number of segments of a path. -/
def SkPath.countSegments {R : Type} (path : SkPath R) : Nat :=
  path.countP PathElem.isSegment

/-- The generator `MultiplyPath` runs for `type`: the `switch` of its loop
body, as a function of the path it appends to and the polygon center. -/
def generatorFor {R : Type} [Field R] (m : FloatMath R) (type : Verb) (path : SkPath R)
    (sides : Nat) (center : SkPoint R) (radius : R) : Option (SkPath R) :=
  match type with
  | Verb.kLine_Verb => GetLinesPath m path sides center radius
  | Verb.kQuad_Verb => GetQuadsPath m path sides center radius
  | Verb.kConic_Verb => GetConicsPath m path sides center radius
  | Verb.kCubic_Verb => GetCubicsPath m path sides center radius
  | _ => some path

/-! ## Closed forms used in the proofs -/

/-- The point `GetPolygonPoints` pushes in iteration `i`. -/
def polygonPoint {R : Type} [Field R] (m : FloatMath R) (n : Nat) (center : SkPoint R) (r : R)
    (i : Nat) : SkPoint R :=
  ⟨center.fX + r * m.cosf ((2 * m.M_PI / (n : R)) * (i : R)),
   center.fY + r * m.sinf ((2 * m.M_PI / (n : R)) * (i : R))⟩

/-- A closed contour: a move to `p0`, the segments `seg 1, ..., seg sides` in
this order, then a close. -/
def contour {R : Type} (sides : Nat) (p0 : SkPoint R) (seg : Nat → PathElem R) : SkPath R :=
  PathElem.move p0 :: ((List.range' 1 sides).map seg ++ [PathElem.close])

section SegmentDefs

variable {R : Type} [Field R] (m : FloatMath R) (sides : Nat) (center : SkPoint R) (radius : R)

/-- Segment `i` (for `i = 1 .. sides`) recorded by `GetLinesPath`. -/
def lineSeg (i : Nat) : PathElem R :=
  PathElem.line (polygonPoint m sides center radius (i % sides))

/-- Segment `i` (for `i = 1 .. sides`) recorded by `GetQuadsPath`. -/
def quadSeg (i : Nat) : PathElem R :=
  PathElem.quad (polygonPoint m (sides * 2) center (radius * 0.8) (2 * i - 1))
    (polygonPoint m sides center radius (i % sides))

/-- Segment `i` (for `i = 1 .. sides`) recorded by `GetConicsPath`. -/
def conicSeg (i : Nat) : PathElem R :=
  PathElem.conic (polygonPoint m (sides * 2) center (radius * 0.8) (2 * i - 1))
    (polygonPoint m sides center radius (i % sides)) 3.7

/-- Segment `i` (for `i = 1 .. sides`) recorded by `GetCubicsPath`. -/
def cubicSeg (i : Nat) : PathElem R :=
  PathElem.cubic (polygonPoint m (sides * 3) center (radius * 0.8) (3 * i - 2))
    (polygonPoint m (sides * 3) center (radius * 1.2) (3 * i - 1))
    (polygonPoint m sides center radius (i % sides))

end SegmentDefs

section ContourDefs

variable {R : Type} [Field R] (m : FloatMath R)

/-- The contour `generatorFor` appends for `type` when `1 ≤ sides`. -/
def contourFor (type : Verb) (sides : Nat) (center : SkPoint R) (radius : R) : SkPath R :=
  match type with
  | Verb.kLine_Verb =>
    contour sides (polygonPoint m sides center radius 0) (lineSeg m sides center radius)
  | Verb.kQuad_Verb =>
    contour sides (polygonPoint m sides center radius 0) (quadSeg m sides center radius)
  | Verb.kConic_Verb =>
    contour sides (polygonPoint m sides center radius 0) (conicSeg m sides center radius)
  | Verb.kCubic_Verb =>
    contour sides (polygonPoint m sides center radius 0) (cubicSeg m sides center radius)
  | _ => []

end ContourDefs

/-- One iteration of the loop of `GetTestPoints` on its state `(points, current)`. -/
def testPointsStep {R : Type} [LinearOrderedField R] (canvas_size : SkISize)
    (st : List (SkPoint R) × SkPoint R) (i : Nat) : List (SkPoint R) × SkPoint R :=
  let delta_x : List R := [10.0, 6.3, 15.0, 3.5, 22.6, 4.7]
  let delta_y : List R := [9.3, -5.4, 8.5, -12.0, 19.2, -19.6]
  let points := st.1 ++ [st.2]
  let current := st.2.offset (delta_x.getD (i % delta_x.length) 0)
    (delta_y.getD (i % delta_y.length) 0)
  let current := if current.x > (canvas_size.width : R) then
    current.offset ((-canvas_size.width : Int) : R) 25.0 else current
  let current := if current.y > (canvas_size.height : R) then
    current.offset 0.0 ((-canvas_size.height : Int) : R) else current
  (points, current)

/-- Sum of the `delta_y` entries used before phase `k` of a round of six. -/
def yPhase (k : Nat) : ℚ :=
  match k with
  | 0 => 0
  | 1 => 9.3
  | 2 => 3.9
  | 3 => 12.4
  | 4 => 0.4
  | _ => 19.6

/-- Bounds kept by the current point before iteration `n`. -/
def walkInv (w h : Int) (n : Nat) (p : SkPoint ℚ) : Prop :=
  0 ≤ p.fX ∧ p.fX ≤ (w : ℚ) ∧ yPhase (n % 6) - 19.6 ≤ p.fY ∧ p.fY ≤ (h : ℚ)

/-! ## Vocabulary for path envelopes -/

/-- All points of a recorded element, control points and end point alike. -/
def PathElem.points {R : Type} : PathElem R → List (SkPoint R)
  | PathElem.move p => [p]
  | PathElem.line p => [p]
  | PathElem.quad c p => [c, p]
  | PathElem.conic c p _ => [c, p]
  | PathElem.cubic c1 c2 p => [c1, c2, p]
  | PathElem.close => []

/-- All points of a path, in recording order. -/
def SkPath.points {R : Type} (path : SkPath R) : List (SkPoint R) :=
  path.flatMap PathElem.points

/-- The axis-aligned envelope of the path's points has zero width (all `x`
equal) or zero height (all `y` equal). -/
def SkPath.boundsDegenerate {R : Type} (path : SkPath R) : Prop :=
  (∀ p ∈ path.points, ∀ q ∈ path.points, p.fX = q.fX) ∨
  (∀ p ∈ path.points, ∀ q ∈ path.points, p.fY = q.fY)
/-! ## Test vertices -/

/-- Unsigned `a % b` of C++; a zero divisor is undefined behaviour (`none`). -/
def checkedMod (a b : Nat) : Option Nat :=
  if b = 0 then none else some (a % b)

/-- Skia `SkVertices::VertexMode`. -/
inductive VertexMode where
  | kTriangles_VertexMode
  | kTriangleStrip_VertexMode
  | kTriangleFan_VertexMode
deriving DecidableEq

/-- Skia `SkColor`: a 32-bit ARGB value. -/
abbrev SkColor := Nat

/-- `SK_ColorRED`. -/
def SK_ColorRED : SkColor := 0xFFFF0000

/-- `SK_ColorGREEN`. -/
def SK_ColorGREEN : SkColor := 0xFF00FF00

/-- `SK_ColorBLUE`. -/
def SK_ColorBLUE : SkColor := 0xFF0000FF

/-- `SK_ColorCYAN`. -/
def SK_ColorCYAN : SkColor := 0xFF00FFFF

/-- Skia `SkVertices` as the benchmarks use it: a mode, the vertex positions
and one color per vertex. -/
structure SkVertices (R : Type) where
  mode : VertexMode
  positions : List (SkPoint R)
  colors : List SkColor
deriving DecidableEq

/-- `SkVertices::MakeCopy(mode, vertexCount, positions, nullptr, colors)`: copies
`vertexCount` positions and `vertexCount` colors; reading past the end of
either array is undefined behaviour (`none`). -/
def SkVertices.MakeCopy {R : Type} (mode : VertexMode) (vertexCount : Nat)
    (positions : List (SkPoint R)) (colors : List SkColor) : Option (SkVertices R) :=
  if vertexCount ≤ positions.length ∧ vertexCount ≤ colors.length then
    some ⟨mode, positions.take vertexCount, colors.take vertexCount⟩
  else none

/-- `GetTestVertices(center, radius, vertex_count, mode, final_vertex_count)`,
lines 496-558; the result pairs the returned vertices with the value written
to `final_vertex_count`.  The loop state is the pair `(vertices, colors)`; the
three modes are all the values of the enumeration, so the `default` branch of
the `switch` is never taken. -/
def GetTestVertices {R : Type} [Field R] (m : FloatMath R) (center : SkPoint R) (radius : R)
    (vertex_count : Nat) (mode : VertexMode) : Option (SkVertices R × Nat) := do
  let outer_vertex_count := vertex_count / 2
  let outer_points := GetPolygonPoints m outer_vertex_count center radius
  let st ← match mode with
    | VertexMode.kTriangleFan_VertexMode =>
      (forRange 0 (outer_points.length + 1)).foldlM
        (fun (st : List (SkPoint R) × List SkColor) (i : Nat) => do
          let vertices := st.1 ++ [← outer_points[← checkedMod i outer_points.length]?]
          if i % 3 = 0 then
            pure (vertices, st.2 ++ [SK_ColorRED])
          else if i % 3 = 1 then
            pure (vertices, st.2 ++ [SK_ColorGREEN])
          else
            pure (vertices, st.2 ++ [SK_ColorBLUE]))
        ([center], [SK_ColorCYAN])
    | VertexMode.kTriangles_VertexMode =>
      (forRange 0 outer_vertex_count).foldlM
        (fun (st : List (SkPoint R) × List SkColor) (i : Nat) => do
          let vertices := st.1 ++ [← outer_points[← checkedMod i outer_points.length]?]
          let colors := st.2 ++ [SK_ColorRED]
          let vertices := vertices ++
            [← outer_points[← checkedMod (i + 1) outer_points.length]?]
          let colors := colors ++ [SK_ColorGREEN]
          let vertices := vertices ++ [center]
          let colors := colors ++ [SK_ColorBLUE]
          pure (vertices, colors))
        ([], [])
    | VertexMode.kTriangleStrip_VertexMode =>
      (forRange 0 (outer_vertex_count + 1)).foldlM
        (fun (st : List (SkPoint R) × List SkColor) (i : Nat) => do
          let vertices := st.1 ++ [← outer_points[← checkedMod i outer_points.length]?]
          let colors := st.2 ++ [if i % 2 ≠ 0 then SK_ColorRED else SK_ColorGREEN]
          if i % 2 = 1 then
            pure (vertices ++ [center], colors ++ [SK_ColorBLUE])
          else
            pure (vertices, colors))
        ([], [])
  let vertices := st.1
  let colors := st.2
  let final_vertex_count := vertices.length
  pure (← SkVertices.MakeCopy mode vertices.length vertices colors, final_vertex_count)

/-- The triangle with the vertices at positions `i`, `j`, `k` of `l`. -/
def triangleAt {α : Type} (l : List α) (i j k : Nat) : Option (α × α × α) := do
  pure (← l[i]?, ← l[j]?, ← l[k]?)

/-- The triangles assembled from a vertex sequence: a fan takes the first
vertex with each consecutive pair of the rest, a triangle list takes each
consecutive group of three, a strip takes each window of three consecutive
vertices. -/
def trianglesOf {α : Type} (mode : VertexMode) (l : List α) : List (α × α × α) :=
  match mode with
  | VertexMode.kTriangleFan_VertexMode =>
    (List.range (l.length - 2)).filterMap (fun k => triangleAt l 0 (k + 1) (k + 2))
  | VertexMode.kTriangles_VertexMode =>
    (List.range (l.length / 3)).filterMap (fun k => triangleAt l (3 * k) (3 * k + 1) (3 * k + 2))
  | VertexMode.kTriangleStrip_VertexMode =>
    (List.range (l.length - 2)).filterMap (fun k => triangleAt l k (k + 1) (k + 2))

section VertexForms

variable {R : Type} [Field R] (m : FloatMath R) (center : SkPoint R) (radius : R) (n : Nat)

/-- Vertices pushed by iteration `i` of the triangle-fan loop. -/
def fanVerts (i : Nat) : List (SkPoint R) := [polygonPoint m n center radius (i % n)]

/-- Colors pushed by iteration `i` of the triangle-fan loop. -/
def fanCols (i : Nat) : List SkColor :=
  [if i % 3 = 0 then SK_ColorRED else if i % 3 = 1 then SK_ColorGREEN else SK_ColorBLUE]

/-- Vertices pushed by iteration `i` of the triangles loop. -/
def triVerts (i : Nat) : List (SkPoint R) :=
  [polygonPoint m n center radius (i % n), polygonPoint m n center radius ((i + 1) % n), center]

/-- Colors pushed by iteration `i` of the triangles loop. -/
def triCols (_i : Nat) : List SkColor := [SK_ColorRED, SK_ColorGREEN, SK_ColorBLUE]

/-- Vertices pushed by iteration `i` of the triangle-strip loop. -/
def stripVerts (i : Nat) : List (SkPoint R) :=
  if i % 2 = 1 then [polygonPoint m n center radius (i % n), center]
  else [polygonPoint m n center radius (i % n)]

/-- Colors pushed by iteration `i` of the triangle-strip loop. -/
def stripCols (i : Nat) : List SkColor :=
  if i % 2 = 1 then [SK_ColorRED, SK_ColorBLUE] else [SK_ColorGREEN]

/-- The vertex at position `p` of the triangle-strip sequence. -/
def stripVertexAt (p : Nat) : SkPoint R :=
  if p % 3 = 2 then center else polygonPoint m n center radius ((2 * (p / 3) + p % 3) % n)

/-- The vertex list `GetTestVertices` builds for `mode` from `n` outer points. -/
def testVertexList (mode : VertexMode) : List (SkPoint R) :=
  match mode with
  | VertexMode.kTriangleFan_VertexMode => center :: (List.range (n + 1)).flatMap (fanVerts m center radius n)
  | VertexMode.kTriangles_VertexMode => (List.range n).flatMap (triVerts m center radius n)
  | VertexMode.kTriangleStrip_VertexMode =>
    (List.range (n + 1)).flatMap (stripVerts m center radius n)

/-- The color list `GetTestVertices` builds for `mode` from `n` outer points. -/
def testColorList (mode : VertexMode) : List SkColor :=
  match mode with
  | VertexMode.kTriangleFan_VertexMode => SK_ColorCYAN :: (List.range (n + 1)).flatMap fanCols
  | VertexMode.kTriangles_VertexMode => (List.range n).flatMap triCols
  | VertexMode.kTriangleStrip_VertexMode => (List.range (n + 1)).flatMap stripCols

end VertexForms
/-! ## Benchmark scenarios

Each `BM_*` function is embedded as the sequence of calls it makes on the
display-list builder, the built list, the canvas provider (and its surface)
and the benchmark state, in program order.  `state.range(0)` is the natural
number `range0`, the number of passes of `for (auto _ : state)` is
`iterations`, and `canvas_provider->BackendName()` is `backendName`.  The
getters `GetSurface()` and `getCanvas()` are not recorded. -/

/-- `kLinesToDraw`. -/
def kLinesToDraw : Nat := 10000

/-- `kRectsToDraw`. -/
def kRectsToDraw : Nat := 5000

/-- `kOvalsToDraw`. -/
def kOvalsToDraw : Nat := 1000

/-- `kCirclesToDraw`. -/
def kCirclesToDraw : Nat := 5000

/-- `kRRectsToDraw`. -/
def kRRectsToDraw : Nat := 5000

/-- `kArcSweepSetsToDraw`. -/
def kArcSweepSetsToDraw : Nat := 1000

/-- `kImagesToDraw`. -/
def kImagesToDraw : Nat := 500

/-- `kFixedCanvasSize`. -/
def kFixedCanvasSize : Nat := 1024

/-- Unary minus on a `size_t` value: the result is again a `size_t`, that is
`2 ^ 64 - n` for `n ≠ 0`. -/
def negSizeT (n : Nat) : Nat := (2 ^ 64 - n) % 2 ^ 64

/-- `SkPoint::set(x, y)`. -/
def SkPoint.set {R : Type} (_p : SkPoint R) (x y : R) : SkPoint R := ⟨x, y⟩

/-- Skia `SkRect`. -/
structure SkRect (R : Type) where
  fLeft : R
  fTop : R
  fRight : R
  fBottom : R
deriving DecidableEq

namespace SkRect

variable {R : Type}

/-- `SkRect::MakeLTRB(l, t, r, b)`. -/
def MakeLTRB (l t r b : R) : SkRect R := ⟨l, t, r, b⟩

/-- `SkRect::MakeXYWH(x, y, w, h)`. -/
def MakeXYWH [Add R] (x y w h : R) : SkRect R := ⟨x, y, x + w, y + h⟩

/-- `SkRect::x()`. -/
def x (r : SkRect R) : R := r.fLeft

/-- `SkRect::y()`. -/
def y (r : SkRect R) : R := r.fTop

/-- `SkRect::right()`. -/
def right (r : SkRect R) : R := r.fRight

/-- `SkRect::bottom()`. -/
def bottom (r : SkRect R) : R := r.fBottom

/-- `SkRect::offset(dx, dy)`. -/
def offset [Add R] (r : SkRect R) (dx dy : R) : SkRect R :=
  ⟨r.fLeft + dx, r.fTop + dy, r.fRight + dx, r.fBottom + dy⟩

/-- `SkRect::offsetTo(newX, newY)`. -/
def offsetTo [Add R] [Sub R] (r : SkRect R) (newX newY : R) : SkRect R :=
  ⟨newX, newY, r.fRight + (newX - r.fLeft), r.fBottom + (newY - r.fTop)⟩

end SkRect

/-- Skia `SkIRect`. -/
structure SkIRect where
  fLeft : Int
  fTop : Int
  fRight : Int
  fBottom : Int
deriving DecidableEq

/-- `SkIRect::MakeXYWH(x, y, w, h)`. -/
def SkIRect.MakeXYWH (x y w h : Int) : SkIRect := ⟨x, y, x + w, y + h⟩

/-- Skia `SkRRect::Type`. -/
inductive SkRRectType where
  | kEmpty_Type
  | kRect_Type
  | kOval_Type
  | kSimple_Type
  | kNinePatch_Type
  | kComplex_Type
deriving DecidableEq

/-- Skia `SkRRect` as `BM_DrawRRect` uses it: the rectangle and the four corner
radii passed to `setRectRadii`. -/
structure SkRRect (R : Type) where
  rect : SkRect R
  radii : List (SkPoint R)
deriving DecidableEq

/-- `SkRRect::offset(dx, dy)`. -/
def SkRRect.offset {R : Type} [Add R] (rr : SkRRect R) (dx dy : R) : SkRRect R :=
  ⟨rr.rect.offset dx dy, rr.radii⟩

/-- Skia `SkCanvas::PointMode`. -/
inductive PointMode where
  | kPoints_PointMode
  | kLines_PointMode
  | kPolygon_PointMode
deriving DecidableEq

/-- Skia `SkCanvas::SrcRectConstraint`. -/
inductive SrcRectConstraint where
  | kStrict_SrcRectConstraint
  | kFast_SrcRectConstraint
deriving DecidableEq

/-- Skia `SkFilterMode`. -/
inductive SkFilterMode where
  | kNearest
  | kLinear
deriving DecidableEq

/-- The image of an image benchmark: a fresh image made from the bitmap
(`upload_bitmap`) or a snapshot of the offscreen surface. -/
inductive ImageSource where
  | fromBitmap
  | offscreenSnapshot
deriving DecidableEq

/-- One run of the text blob built by `BM_DrawTextBlob`: the glyph count and the
position passed to `allocRun`. -/
structure GlyphRun (R : Type) where
  count : Nat
  x : R
  y : R
deriving DecidableEq

/-- A drawing call on the `DisplayListBuilder`, with its arguments. -/
inductive DrawOp (R : Type) where
  | drawLine (p0 p1 : SkPoint R)
  | drawRect (rect : SkRect R)
  | drawOval (bounds : SkRect R)
  | drawCircle (center : SkPoint R) (radius : R)
  | drawRRect (rrect : SkRRect R)
  | drawArc (bounds : SkRect R) (start sweep : R) (useCenter : Bool)
  | drawPath (path : SkPath R)
  | drawVertices (vertices : SkVertices R)
  | drawPoints (mode : PointMode) (count : Nat) (pts : List (SkPoint R))
  | drawImage (image : ImageSource) (point : SkPoint R)
  | drawImageRect (image : ImageSource) (src dst : SkRect R) (constraint : SrcRectConstraint)
  | drawImageNine (image : ImageSource) (center : SkIRect) (dst : SkRect R)
      (filter : SkFilterMode)
  | drawTextBlob (blob : List (GlyphRun R)) (x y : R)
  | drawShadow (path : SkPath R) (color : SkColor) (elevation : R)
      (transparent_occluder : Bool) (dpr : R)

/-- A call made by a benchmark scenario. -/
inductive Call (R : Type) where
  | InitializeSurface (width height : Nat)
  | MakeOffscreenSurface (width height : Nat)
  | SetComplexityN (n : Nat)
  | counter (name : String) (value : Nat)
  | record (op : DrawOp R)
  | Build
  | RenderTo
  | flushAndSubmit (syncCpu : Bool)
  | Snapshot (filename : String)

/-- The timed loop shared by all scenarios:
`for (auto _ : state) { display_list->RenderTo(canvas);
canvas_provider->GetSurface()->flushAndSubmit(true); }`. -/
def timedLoop {R : Type} (iterations : Nat) : List (Call R) :=
  (forRange 0 iterations).flatMap (fun _ => [Call.RenderTo, Call.flushAndSubmit true])
section Scenarios

variable {R : Type} [LinearOrderedField R]

/-- `BM_DrawLine`, lines 30-54. -/
def BM_DrawLine (range0 iterations : Nat) (backendName : String) : Option (List (Call R)) := do
  let length := range0
  let calls : List (Call R) := [Call.InitializeSurface length length]
  let calls ← (forRange 0 kLinesToDraw).foldlM
    (fun (calls : List (Call R)) (i : Nat) => do
      pure (calls ++ [Call.record (DrawOp.drawLine
        (SkPoint.Make (((← checkedMod i length) : Nat) : R) 0)
        (SkPoint.Make ((length - (← checkedMod i length) : Nat) : R) (length : R)))]))
    calls
  let calls := calls ++ [Call.Build]
  let calls := calls ++ timedLoop iterations
  let filename := backendName ++ "-DrawLine-" ++ toString range0 ++ ".png"
  pure (calls ++ [Call.Snapshot filename])

/-- `BM_DrawRect`, lines 60-95.  The loop state is `(calls, rect)`. -/
def BM_DrawRect (range0 iterations : Nat) (backendName : String) : Option (List (Call R)) := do
  let length := range0
  let canvas_size := length * 2
  let calls : List (Call R) := [Call.InitializeSurface canvas_size canvas_size]
  let offset : R := 0.5
  let rect : SkRect R := SkRect.MakeLTRB 0 0 (length : R) (length : R)
  let st := (forRange 0 kRectsToDraw).foldl
    (fun (st : List (Call R) × SkRect R) (_i : Nat) =>
      let calls := st.1 ++ [Call.record (DrawOp.drawRect st.2)]
      let rect := st.2.offset offset offset
      let rect := if rect.right > (canvas_size : R) then
        rect.offset ((negSizeT canvas_size : Nat) : R) 0 else rect
      let rect := if rect.bottom > (canvas_size : R) then
        rect.offset 0 ((negSizeT canvas_size : Nat) : R) else rect
      (calls, rect))
    (calls, rect)
  let calls := st.1 ++ [Call.Build]
  let calls := calls ++ timedLoop iterations
  let filename := backendName ++ "-DrawRect-" ++ toString range0 ++ ".png"
  pure (calls ++ [Call.Snapshot filename])

/-- `BM_DrawOval`, lines 101-133.  The loop state is `(calls, rect)`. -/
def BM_DrawOval (range0 iterations : Nat) (backendName : String) : Option (List (Call R)) := do
  let length := range0
  let canvas_size := length * 2
  let calls : List (Call R) := [Call.InitializeSurface canvas_size canvas_size]
  let rect : SkRect R := SkRect.MakeXYWH 0 0 ((length : R) * 1.5) (length : R)
  let offset : R := 0.5
  let st := (forRange 0 kOvalsToDraw).foldl
    (fun (st : List (Call R) × SkRect R) (_i : Nat) =>
      let calls := st.1 ++ [Call.record (DrawOp.drawOval st.2)]
      let rect := st.2.offset offset offset
      let rect := if rect.right > (canvas_size : R) then
        rect.offset ((negSizeT canvas_size : Nat) : R) 0 else rect
      let rect := if rect.bottom > (canvas_size : R) then
        rect.offset 0 ((negSizeT canvas_size : Nat) : R) else rect
      (calls, rect))
    (calls, rect)
  let calls := st.1 ++ [Call.Build]
  let calls := calls ++ timedLoop iterations
  let filename := backendName ++ "-DrawOval-" ++ toString range0 ++ ".png"
  pure (calls ++ [Call.Snapshot filename])

/-- `BM_DrawCircle`, lines 139-173.  The loop state is `(calls, center)`. -/
def BM_DrawCircle (range0 iterations : Nat) (backendName : String) :
    Option (List (Call R)) := do
  let length := range0
  let canvas_size := length * 2
  let calls : List (Call R) := [Call.InitializeSurface canvas_size canvas_size]
  let radius : R := (length : R) / 2.0
  let offset : R := 0.5
  let center : SkPoint R := SkPoint.Make radius radius
  let st := (forRange 0 kCirclesToDraw).foldl
    (fun (st : List (Call R) × SkPoint R) (_i : Nat) =>
      let calls := st.1 ++ [Call.record (DrawOp.drawCircle st.2 radius)]
      let center := st.2.offset offset offset
      let center := if center.x + radius > (canvas_size : R) then
        center.set radius center.y else center
      let center := if center.y + radius > (canvas_size : R) then
        center.set center.x radius else center
      (calls, center))
    (calls, center)
  let calls := st.1 ++ [Call.Build]
  let calls := calls ++ timedLoop iterations
  let filename := backendName ++ "-DrawCircle-" ++ toString range0 ++ ".png"
  pure (calls ++ [Call.Snapshot filename])

/-- `BM_DrawRRect`, lines 179-243.  For a type outside the three handled cases
the corner radii are left uninitialised and then read (`none`).  The loop state
is `(calls, rrect)`. -/
def BM_DrawRRect (range0 iterations : Nat) (backendName : String) (type : SkRRectType) :
    Option (List (Call R)) := do
  let length := range0
  let canvas_size := length * 2
  let calls : List (Call R) := [Call.InitializeSurface canvas_size canvas_size]
  let radii ← (match type with
    | SkRRectType.kSimple_Type =>
      some [SkPoint.Make 5.0 5.0, SkPoint.Make 5.0 5.0, SkPoint.Make 5.0 5.0,
        SkPoint.Make 5.0 5.0]
    | SkRRectType.kNinePatch_Type =>
      some [SkPoint.Make 5.0 2.0, SkPoint.Make 3.0 2.0, SkPoint.Make 3.0 4.0,
        SkPoint.Make 5.0 4.0]
    | SkRRectType.kComplex_Type =>
      some [SkPoint.Make 5.0 4.0, SkPoint.Make 4.0 5.0, SkPoint.Make 3.0 6.0,
        SkPoint.Make 2.0 7.0]
    | _ => none : Option (List (SkPoint R)))
  let offset : R := 0.5
  let multiplier : R := (length : R) / 16.0
  let set_radii ← (forRange 0 4).foldlM
    (fun (set_radii : List (SkPoint R)) (i : Nat) => do
      let r : SkPoint R ← radii[i]?
      pure (set_radii ++ [SkPoint.Make (r.x * multiplier) (r.y * multiplier)]))
    []
  let rrect : SkRRect R := ⟨SkRect.MakeLTRB 0 0 (length : R) (length : R), set_radii⟩
  let st := (forRange 0 kRRectsToDraw).foldl
    (fun (st : List (Call R) × SkRRect R) (_i : Nat) =>
      let calls := st.1 ++ [Call.record (DrawOp.drawRRect st.2)]
      let rrect := st.2.offset offset offset
      let rrect := if rrect.rect.right > (canvas_size : R) then
        rrect.offset ((negSizeT canvas_size : Nat) : R) 0 else rrect
      let rrect := if rrect.rect.bottom > (canvas_size : R) then
        rrect.offset 0 ((negSizeT canvas_size : Nat) : R) else rrect
      (calls, rrect))
    (calls, rrect)
  let calls := st.1 ++ [Call.Build]
  let calls := calls ++ timedLoop iterations
  let filename := backendName ++ "-DrawRRect-" ++ toString range0 ++ ".png"
  pure (calls ++ [Call.Snapshot filename])

/-- `BM_DrawArc`, lines 245-287.  The outer loop state is
`(calls, starting_angle, bounds)`, the inner one `(calls, starting_angle)`. -/
def BM_DrawArc (range0 iterations : Nat) (backendName : String) : Option (List (Call R)) := do
  let length := range0
  let canvas_size := length * 2
  let calls : List (Call R) := [Call.InitializeSurface canvas_size canvas_size]
  let starting_angle : R := 0.0
  let offset : R := 0.5
  let segment_sweeps : List R := [5.5, -10.0, 42.0, 71.7, 90.0, 37.5, 17.9, 32.0, 379.4]
  let bounds : SkRect R := SkRect.MakeLTRB 0 0 (length : R) (length : R)
  let st := (forRange 0 kArcSweepSetsToDraw).foldl
    (fun (st : List (Call R) × R × SkRect R) (_i : Nat) =>
      let bounds := st.2.2
      let inner := segment_sweeps.foldl
        (fun (st : List (Call R) × R) (sweep : R) =>
          (st.1 ++ [Call.record (DrawOp.drawArc bounds st.2 sweep false)],
            st.2 + (sweep + 5.0)))
        (st.1, st.2.1)
      let bounds := bounds.offset offset offset
      let bounds := if bounds.right > (canvas_size : R) then
        bounds.offset ((negSizeT canvas_size : Nat) : R) 0 else bounds
      let bounds := if bounds.bottom > (canvas_size : R) then
        bounds.offset 0 ((negSizeT canvas_size : Nat) : R) else bounds
      (inner.1, inner.2, bounds))
    (calls, starting_angle, bounds)
  let calls := st.1 ++ [Call.Build]
  let calls := calls ++ timedLoop iterations
  let filename := backendName ++ "-DrawArc-" ++ toString range0 ++ ".png"
  pure (calls ++ [Call.Snapshot filename])

end Scenarios
/-- `VerbToString`, lines 429-442. -/
def VerbToString (type : Verb) : String :=
  match type with
  | Verb.kLine_Verb => "Lines"
  | Verb.kQuad_Verb => "Quads"
  | Verb.kConic_Verb => "Conics"
  | Verb.kCubic_Verb => "Cubics"
  | _ => "Unknown"

/-- `VertexModeToString`, lines 560-570. -/
def VertexModeToString (mode : VertexMode) : String :=
  match mode with
  | VertexMode.kTriangleStrip_VertexMode => "TriangleStrip"
  | VertexMode.kTriangleFan_VertexMode => "TriangleFan"
  | VertexMode.kTriangles_VertexMode => "Triangles"

/-- `PointModeToString`, lines 650-660. -/
def PointModeToString (mode : PointMode) : String :=
  match mode with
  | PointMode.kLines_PointMode => "Lines"
  | PointMode.kPolygon_PointMode => "Polygon"
  | PointMode.kPoints_PointMode => "Points"

/-- `ConstraintToString`, lines 763-772. -/
def ConstraintToString (constraint : SrcRectConstraint) : String :=
  match constraint with
  | SrcRectConstraint.kStrict_SrcRectConstraint => "Strict"
  | SrcRectConstraint.kFast_SrcRectConstraint => "Fast"

/-- `FilterModeToString`, lines 837-846. -/
def FilterModeToString (mode : SkFilterMode) : String :=
  match mode with
  | SkFilterMode.kNearest => "Nearest"
  | SkFilterMode.kLinear => "Linear"

section ScenariosB

variable {R : Type} [LinearOrderedField R]

/-- `BM_DrawPath`, lines 451-482. -/
def BM_DrawPath (m : FloatMath R) (range0 iterations : Nat) (backendName : String)
    (type : Verb) : Option (List (Call R)) := do
  let length := kFixedCanvasSize
  let calls : List (Call R) := [Call.InitializeSurface length length]
  let path : SkPath R := []
  let label := VerbToString type
  let center : SkPoint R := SkPoint.Make ((length : R) / 2.0) ((length : R) / 2.0)
  let radius : R := (length : R) * 0.25
  let calls := calls ++ [Call.SetComplexityN range0]
  let path ← MultiplyPath m path type center 20 range0 radius
  let calls := calls ++ [Call.counter "VerbCount" path.countVerbs]
  let calls := calls ++ [Call.record (DrawOp.drawPath path)]
  let calls := calls ++ [Call.Build]
  let calls := calls ++ timedLoop iterations
  let filename := backendName ++ "-DrawPath-" ++ label ++ "-" ++ toString range0 ++ ".png"
  pure (calls ++ [Call.Snapshot filename])

/-- `BM_DrawVertices`, lines 580-620.  The loop state is
`(calls, total_vertex_count)`. -/
def BM_DrawVertices (m : FloatMath R) (range0 iterations : Nat) (backendName : String)
    (mode : VertexMode) : Option (List (Call R)) := do
  let length := kFixedCanvasSize
  let calls : List (Call R) := [Call.InitializeSurface length length]
  let center : SkPoint R := SkPoint.Make ((length : R) / 2.0) ((length : R) / 2.0)
  let radius : R := (length : R) / 4.0
  let total_vertex_count := 0
  let disc_count := range0
  let center_points := GetPolygonPoints m disc_count center (radius / 4.0)
  let st ← center_points.foldlM
    (fun (st : List (Call R) × Nat) (p : SkPoint R) => do
      let (vertices, vertex_count) ← GetTestVertices m p radius 50 mode
      let total_vertex_count := st.2 + vertex_count
      pure (st.1 ++ [Call.record (DrawOp.drawVertices vertices)], total_vertex_count))
    (calls, total_vertex_count)
  let calls := st.1 ++ [Call.counter "VertexCount" st.2]
  let calls := calls ++ [Call.SetComplexityN st.2]
  let calls := calls ++ [Call.Build]
  let calls := calls ++ timedLoop iterations
  let filename := backendName ++ "-DrawVertices-" ++ toString disc_count ++ "-" ++
    VertexModeToString mode ++ ".png"
  pure (calls ++ [Call.Snapshot filename])

/-- `BM_DrawPoints`, lines 668-695. -/
def BM_DrawPoints (range0 iterations : Nat) (backendName : String) (mode : PointMode) :
    Option (List (Call R)) := do
  let length := kFixedCanvasSize
  let calls : List (Call R) := [Call.InitializeSurface length length]
  let point_count := range0
  let calls := calls ++ [Call.SetComplexityN point_count]
  let calls := calls ++ [Call.counter "PointCount" point_count]
  let points : List (SkPoint R) := GetTestPoints point_count ⟨(length : Int), (length : Int)⟩
  let calls := calls ++ [Call.record (DrawOp.drawPoints mode points.length points)]
  let calls := calls ++ [Call.Build]
  let calls := calls ++ timedLoop iterations
  let filename := backendName ++ "-DrawPoints-" ++ PointModeToString mode ++ "-" ++
    toString point_count ++ ".png"
  pure (calls ++ [Call.Snapshot filename])

/-- `BM_DrawImage`, lines 708-761.  The loop state is `(calls, dst)`. -/
def BM_DrawImage (range0 iterations : Nat) (backendName : String) (upload_bitmap : Bool) :
    Option (List (Call R)) := do
  let bitmap_size := range0
  let canvas_size := 2 * bitmap_size
  let calls : List (Call R) := [Call.InitializeSurface canvas_size canvas_size]
  let calls := if upload_bitmap then calls
    else calls ++ [Call.MakeOffscreenSurface bitmap_size bitmap_size]
  let offset : R := 0.5
  let dst : SkPoint R := SkPoint.Make 0 0
  let st := (forRange 0 kImagesToDraw).foldl
    (fun (st : List (Call R) × SkPoint R) (_i : Nat) =>
      let image := if upload_bitmap then ImageSource.fromBitmap
        else ImageSource.offscreenSnapshot
      let calls := st.1 ++ [Call.record (DrawOp.drawImage image st.2)]
      let dst := st.2.offset offset offset
      let dst := if dst.x + (bitmap_size : R) > (canvas_size : R) then dst.set 0 dst.y else dst
      let dst := if dst.y + (bitmap_size : R) > (canvas_size : R) then dst.set dst.x 0 else dst
      (calls, dst))
    (calls, dst)
  let calls := st.1 ++ [Call.Build]
  let calls := calls ++ timedLoop iterations
  let filename := backendName ++ "-DrawImage-" ++
    (if upload_bitmap then "Upload-" else "Texture-") ++ toString bitmap_size ++ ".png"
  pure (calls ++ [Call.Snapshot filename])

/-- `BM_DrawImageRect`, lines 778-835.  The loop state is `(calls, dst)`. -/
def BM_DrawImageRect (range0 iterations : Nat) (backendName : String)
    (constraint : SrcRectConstraint) (upload_bitmap : Bool) : Option (List (Call R)) := do
  let bitmap_size := range0
  let canvas_size := 2 * bitmap_size
  let calls : List (Call R) := [Call.InitializeSurface canvas_size canvas_size]
  let calls := if upload_bitmap then calls
    else calls ++ [Call.MakeOffscreenSurface bitmap_size bitmap_size]
  let offset : R := 0.5
  let src : SkRect R := SkRect.MakeXYWH ((bitmap_size : R) / 4.0) ((bitmap_size : R) / 4.0)
    ((bitmap_size : R) / 2.0) ((bitmap_size : R) / 2.0)
  let dst : SkRect R := SkRect.MakeXYWH 0.0 0.0 ((bitmap_size : R) * 0.75)
    ((bitmap_size : R) * 0.75)
  let st := (forRange 0 kImagesToDraw).foldl
    (fun (st : List (Call R) × SkRect R) (_i : Nat) =>
      let image := if upload_bitmap then ImageSource.fromBitmap
        else ImageSource.offscreenSnapshot
      let calls := st.1 ++ [Call.record (DrawOp.drawImageRect image src st.2 constraint)]
      let dst := st.2.offset offset offset
      let dst := if dst.right > (canvas_size : R) then dst.offsetTo 0 dst.y else dst
      let dst := if dst.bottom > (canvas_size : R) then dst.offsetTo dst.x 0 else dst
      (calls, dst))
    (calls, dst)
  let calls := st.1 ++ [Call.Build]
  let calls := calls ++ timedLoop iterations
  let filename := backendName ++ "-DrawImageRect-" ++
    (if upload_bitmap then "Upload-" else "Texture-") ++ ConstraintToString constraint ++ "-" ++
    toString bitmap_size ++ ".png"
  pure (calls ++ [Call.Snapshot filename])

/-- `BM_DrawImageNine`, lines 853-910.  The loop state is `(calls, dst)`. -/
def BM_DrawImageNine (range0 iterations : Nat) (backendName : String)
    (filter : SkFilterMode) (upload_bitmap : Bool) : Option (List (Call R)) := do
  let bitmap_size := range0
  let canvas_size := 2 * bitmap_size
  let calls : List (Call R) := [Call.InitializeSurface canvas_size canvas_size]
  let center : SkIRect := SkIRect.MakeXYWH ((bitmap_size / 4 : Nat) : Int)
    ((bitmap_size / 4 : Nat) : Int) ((bitmap_size / 2 : Nat) : Int) ((bitmap_size / 2 : Nat) : Int)
  let calls := if upload_bitmap then calls
    else calls ++ [Call.MakeOffscreenSurface bitmap_size bitmap_size]
  let offset : R := 0.5
  let dst : SkRect R := SkRect.MakeXYWH 0.0 0.0 ((bitmap_size : R) * 0.75)
    ((bitmap_size : R) * 0.75)
  let st := (forRange 0 kImagesToDraw).foldl
    (fun (st : List (Call R) × SkRect R) (_i : Nat) =>
      let image := if upload_bitmap then ImageSource.fromBitmap
        else ImageSource.offscreenSnapshot
      let calls := st.1 ++ [Call.record (DrawOp.drawImageNine image center st.2 filter)]
      let dst := st.2.offset offset offset
      let dst := if dst.right > (canvas_size : R) then dst.offsetTo 0 dst.y else dst
      let dst := if dst.bottom > (canvas_size : R) then dst.offsetTo dst.x 0 else dst
      (calls, dst))
    (calls, dst)
  let calls := st.1 ++ [Call.Build]
  let calls := calls ++ timedLoop iterations
  let filename := backendName ++ "-DrawImageNine-" ++
    (if upload_bitmap then "Upload-" else "Texture-") ++ FilterModeToString filter ++ "-" ++
    toString bitmap_size ++ ".png"
  pure (calls ++ [Call.Snapshot filename])

end ScenariosB
/-- `SkRect::width()`. -/
def SkRect.width {R : Type} [Sub R] (r : SkRect R) : R := r.fRight - r.fLeft

/-- `SkRect::height()`. -/
def SkRect.height {R : Type} [Sub R] (r : SkRect R) : R := r.fBottom - r.fTop

/-- Conversion of a floating value to `size_t`: truncation toward zero, and
undefined behaviour (`none`) when the truncated value is not a `size_t`. -/
def floatToSizeT {R : Type} [LinearOrderedField R] [FloorRing R] (x : R) : Option Nat :=
  if -1 < x ∧ x < 2 ^ 64 then some (Nat.floor x) else none

/-- The `while (remaining_runs > 0)` loop of `BM_DrawTextBlob`, lines 946-957,
on the state `(remaining_runs, current_y, runs)` where `runs` are the runs
allocated so far.  The first argument bounds the number of passes; a loop that
needs more passes than that yields `none`. -/
def textBlobLoop {R : Type} [LinearOrderedField R] (x_count_max y_count_max fragment_length : Nat)
    (height : R) : Nat → Nat → Nat → List (GlyphRun R) → Option (List (GlyphRun R))
  | 0, remaining_runs, _, runs => if remaining_runs > 0 then none else some runs
  | fuel + 1, remaining_runs, current_y, runs =>
    if remaining_runs > 0 then do
      let runs_this_pass := min x_count_max remaining_runs
      let row ← checkedMod current_y y_count_max
      let runs := runs ++ [⟨runs_this_pass * fragment_length, 0, ((row + 1 : Nat) : R) * height⟩]
      textBlobLoop x_count_max y_count_max fragment_length height fuel
        (remaining_runs - runs_this_pass) (current_y + 1) runs
    else some runs

section ScenariosC

variable {R : Type} [LinearOrderedField R]

/-- `BM_DrawTextBlob`, lines 919-973.  `bounds` is `blob_fragment->bounds()`, which
depends on the font.  Each pass of the `while` loop with `x_count_max >= 1`
lowers `remaining_runs`, so `glyph_runs` passes are enough; with
`x_count_max = 0` the loop does not terminate. -/
def BM_DrawTextBlob [FloorRing R] (range0 iterations : Nat) (backendName : String)
    (bounds : SkRect R) : Option (List (Call R)) := do
  let glyph_runs := range0
  let canvas_size := kFixedCanvasSize
  let calls : List (Call R) := [Call.InitializeSurface canvas_size canvas_size]
  let string_fragment := "This text has exactly 32 glyphs."
  let fragment_length := string_fragment.length
  let calls := calls ++ [Call.SetComplexityN (glyph_runs * fragment_length)]
  let x_count_max ← if bounds.width = 0 then none
    else floatToSizeT ((canvas_size : R) / bounds.width)
  let y_count_max ← if bounds.height = 0 then none
    else floatToSizeT ((canvas_size : R) / bounds.height)
  let remaining_runs := glyph_runs
  let current_y := 0
  let blob ← textBlobLoop x_count_max y_count_max fragment_length bounds.height glyph_runs
    remaining_runs current_y []
  let calls := calls ++ [Call.record (DrawOp.drawTextBlob blob 0.0 0.0)]
  let calls := calls ++ [Call.Build]
  let calls := calls ++ timedLoop iterations
  let filename := backendName ++ "-DrawTextBlob-" ++
    toString (glyph_runs * fragment_length) ++ ".png"
  pure (calls ++ [Call.Snapshot filename])

/-- `BM_DrawShadow`, lines 983-1032.  `to_string` is `std::to_string` on
`float`. -/
def BM_DrawShadow (m : FloatMath R) (to_string : R → String) (range0 iterations : Nat)
    (backendName : String) (transparent_occluder : Bool) (type : Verb) :
    Option (List (Call R)) := do
  let length := kFixedCanvasSize
  let calls : List (Call R) := [Call.InitializeSurface length length]
  let path : SkPath R := []
  let center : SkPoint R := SkPoint.Make ((length : R) / 2.0) ((length : R) / 2.0)
  let radius : R := (length : R) * 0.25
  let path ← match type with
    | Verb.kLine_Verb => GetLinesPath m path 10 center radius
    | Verb.kQuad_Verb => GetQuadsPath m path 10 center radius
    | Verb.kConic_Verb => GetConicsPath m path 10 center radius
    | Verb.kCubic_Verb => GetCubicsPath m path 10 center radius
    | _ => some path
  let elevation : R := (range0 : R)
  let calls := calls ++ [Call.record
    (DrawOp.drawShadow path SK_ColorBLUE elevation transparent_occluder 1.0)]
  let calls := calls ++ [Call.Build]
  let calls := calls ++ timedLoop iterations
  let filename := backendName ++ "-DrawShadow-" ++ VerbToString type ++ "-" ++
    (if transparent_occluder then "Transparent-" else "Opaque-") ++ to_string elevation ++
    "-" ++ ".png"
  pure (calls ++ [Call.Snapshot filename])

end ScenariosC

/-! ## Vocabulary for call sequences -/

/-- The calls the ordering statement is about: draw-recording calls, `Build`,
`RenderTo`, `flushAndSubmit` and `Snapshot`. -/
def Call.observed {R : Type} : Call R → Bool
  | Call.record _ => true
  | Call.Build => true
  | Call.RenderTo => true
  | Call.flushAndSubmit _ => true
  | Call.Snapshot _ => true
  | _ => false

/-- Calls that may precede `Build`: surface set-up, benchmark bookkeeping and
draw-recording calls. -/
def Call.isPrologue {R : Type} : Call R → Bool
  | Call.Build => false
  | Call.RenderTo => false
  | Call.flushAndSubmit _ => false
  | Call.Snapshot _ => false
  | _ => true

/-- A call sequence consists, as far as its observed calls go, of
draw-recording calls, then one `Build`, then `k` times `RenderTo` directly
followed by `flushAndSubmit(true)`, then one `Snapshot`. -/
def wellOrdered {R : Type} (k : Nat) (trace : List (Call R)) : Prop :=
  ∃ (draws : List (DrawOp R)) (filename : String),
    trace.filter Call.observed =
      draws.map Call.record ++ [Call.Build] ++
        (List.replicate k [Call.RenderTo, Call.flushAndSubmit true]).flatten ++
        [Call.Snapshot filename]

/-- Every call of the list may precede `Build`. -/
def allPrologue {R : Type} (calls : List (Call R)) : Prop :=
  ∀ c ∈ calls, c.isPrologue = true

/-- The body of the recording loop of `BM_DrawRect` on its state
`(calls, rect)`, for a given `canvas_size`. -/
def drawRectStep {R : Type} [LinearOrderedField R] (canvas_size : Nat)
    (st : List (Call R) × SkRect R) (_i : Nat) : List (Call R) × SkRect R :=
  let offset : R := 0.5
  let calls := st.1 ++ [Call.record (DrawOp.drawRect st.2)]
  let rect := st.2.offset offset offset
  let rect := if rect.right > (canvas_size : R) then
    rect.offset ((negSizeT canvas_size : Nat) : R) 0 else rect
  let rect := if rect.bottom > (canvas_size : R) then
    rect.offset 0 ((negSizeT canvas_size : Nat) : R) else rect
  (calls, rect)

/-- The `i`-th rect of `BM_DrawRect` as long as no wrap has been triggered:
the first rect moved by `i` times `(0.5, 0.5)`. -/
def unwrappedRect {R : Type} [LinearOrderedField R] (length i : Nat) : SkRect R :=
  ⟨(i : R) / 2, (i : R) / 2, (length : R) + (i : R) / 2, (length : R) + (i : R) / 2⟩
/-! ## Builder and display list

`DisplayListBuilder` and `DisplayList` (`display_list_builder.h`) are not among
the sources; the definitions of this section follow the specification. -/

/-- Modelled from the spec: the bounds of an operation or of a list, an
axis-aligned rectangle, or `none` for the empty bounds a builder starts with
(`DisplayListBuilder` is missing from the sources). -/
abbrev Bounds (R : Type) := Option (SkRect R)

/-- Modelled from the spec: the union of two bounds, the smallest axis-aligned
rectangle containing both; empty bounds contribute nothing (the bounds
arithmetic of `DisplayListBuilder` is missing from the sources). -/
def Bounds.union {R : Type} [LinearOrder R] : Bounds R → Bounds R → Bounds R
  | none, b => b
  | some a, none => some a
  | some a, some b =>
    some ⟨min a.fLeft b.fLeft, min a.fTop b.fTop, max a.fRight b.fRight,
      max a.fBottom b.fBottom⟩

/-- Modelled from the spec: the builder owns an ordered, growable sequence of
operations and a running aggregate bounds (`DisplayListBuilder` is missing from
the sources). -/
structure DisplayListBuilder (R : Type) where
  ops : List (DrawOp R)
  bounds : Bounds R

/-- Modelled from the spec: the frozen list, an ordered sequence of operations,
the aggregate bounds and the operation count (`DisplayList` is missing from the
sources). -/
structure DisplayList (R : Type) where
  ops : List (DrawOp R)
  bounds : Bounds R
  op_count : Nat

/-- Modelled from the spec: a new builder has no operations and empty bounds
(`DisplayListBuilder` is missing from the sources). -/
def DisplayListBuilder.empty {R : Type} : DisplayListBuilder R := ⟨[], none⟩

/-- Modelled from the spec: `append(op)` adds `op` to the end of the sequence
and unions its bounds, computed by the operation's own rule `opBounds`, into
the running aggregate (`DisplayListBuilder` is missing from the sources). -/
def DisplayListBuilder.append {R : Type} [LinearOrder R] (opBounds : DrawOp R → Bounds R)
    (b : DisplayListBuilder R) (op : DrawOp R) : DisplayListBuilder R :=
  ⟨b.ops ++ [op], b.bounds.union (opBounds op)⟩

/-- Modelled from the spec: `Build` (freeze) returns a list containing exactly
the operations appended so far, in that order, with the then-current aggregate
bounds (`DisplayListBuilder::Build` is missing from the sources). -/
def DisplayListBuilder.Build {R : Type} (b : DisplayListBuilder R) : DisplayList R :=
  ⟨b.ops, b.bounds, b.ops.length⟩

/-- The number of vertices `GetTestVertices` emits in `mode` from `n` outer
points: the center and `n + 1` outer vertices for a fan, three vertices per
outer point for a triangle list, `n + 1` outer vertices and the center after
every second one for a strip. -/
def finalVertexCount (mode : VertexMode) (n : Nat) : Nat :=
  match mode with
  | VertexMode.kTriangleFan_VertexMode => n + 2
  | VertexMode.kTriangles_VertexMode => 3 * n
  | VertexMode.kTriangleStrip_VertexMode => (n + 1) + (n + 1) / 2

/-- The body of the recording loop of `BM_DrawCircle` on its state
`(calls, center)`, for side length `length`. -/
def drawCircleStep {R : Type} [LinearOrderedField R] (length : Nat)
    (st : List (Call R) × SkPoint R) (_i : Nat) : List (Call R) × SkPoint R :=
  let canvas_size := length * 2
  let radius : R := (length : R) / 2.0
  let offset : R := 0.5
  let calls := st.1 ++ [Call.record (DrawOp.drawCircle st.2 radius)]
  let center := st.2.offset offset offset
  let center := if center.x + radius > (canvas_size : R) then
    center.set radius center.y else center
  let center := if center.y + radius > (canvas_size : R) then
    center.set center.x radius else center
  (calls, center)

/-! ## Auxiliary facts about the loops -/

theorem foldl_push_eq_map {α β : Type} (f : α → β) (l : List α) (init : List β) :
    l.foldl (fun acc i => acc ++ [f i]) init = init ++ l.map f := by
  induction l generalizing init with
  | nil => simp
  | cons a l ih => simp [ih]

theorem forRange_zero (n : Nat) : forRange 0 n = List.range n := by
  simp [forRange, List.range_eq_range']

theorem GetPolygonPoints_eq_map {R : Type} [Field R] (m : FloatMath R) (n : Nat)
    (center : SkPoint R) (r : R) :
    GetPolygonPoints m n center r = (List.range n).map (polygonPoint m n center r) := by
  unfold GetPolygonPoints
  rw [forRange_zero]
  exact (foldl_push_eq_map (polygonPoint m n center r) (List.range n) []).trans
    (List.nil_append _)

theorem GetPolygonPoints_length {R : Type} [Field R] (m : FloatMath R) (n : Nat)
    (center : SkPoint R) (r : R) : (GetPolygonPoints m n center r).length = n := by
  simp [GetPolygonPoints_eq_map]

theorem GetPolygonPoints_getElem? {R : Type} [Field R] (m : FloatMath R) (n : Nat)
    (center : SkPoint R) (r : R) (i : Nat) (h : i < n) :
    (GetPolygonPoints m n center r)[i]? = some (polygonPoint m n center r i) := by
  simp [GetPolygonPoints_eq_map, List.getElem?_range h]

theorem GetPolygonPoints_getElem?_real (n : Nat) (c : SkPoint ℝ) (r : ℝ) (i : Nat)
    (h : i < n) :
    (GetPolygonPoints ⟨Real.cos, Real.sin, Real.pi⟩ n c r)[i]? =
      some ⟨c.fX + r * Real.cos ((i : ℝ) * 2 * Real.pi / (n : ℝ)),
            c.fY + r * Real.sin ((i : ℝ) * 2 * Real.pi / (n : ℝ))⟩ := by
  rw [GetPolygonPoints_getElem? _ n c r i h]
  simp only [polygonPoint]
  have e : 2 * Real.pi / (n : ℝ) * (i : ℝ) = (i : ℝ) * 2 * Real.pi / (n : ℝ) := by ring
  rw [e]

theorem GetPolygonPoints_head_real (n : Nat) (c : SkPoint ℝ) (r : ℝ) (hn : 1 ≤ n) :
    (GetPolygonPoints ⟨Real.cos, Real.sin, Real.pi⟩ n c r)[0]? = some ⟨c.fX + r, c.fY⟩ := by
  rw [GetPolygonPoints_getElem? _ n c r 0 hn]
  simp [polygonPoint]

/-! ## Polygon points -/

/-- C1: `GetPolygonPoints n c r` has exactly `n` points; for `i < n` the `i`-th
point is `(c.x + r*cos(i*2*pi/n), c.y + r*sin(i*2*pi/n))`; for `n >= 1` the first
point is `(c.x + r, c.y)`; and each next point is the previous one's angle
advanced by exactly `2*pi/n`. -/
theorem GetPolygonPoints_spec (n : Nat) (c : SkPoint ℝ) (r : ℝ) :
    (GetPolygonPoints ⟨Real.cos, Real.sin, Real.pi⟩ n c r).length = n ∧
    (∀ i : Nat, i < n →
      (GetPolygonPoints ⟨Real.cos, Real.sin, Real.pi⟩ n c r)[i]? =
        some ⟨c.fX + r * Real.cos ((i : ℝ) * 2 * Real.pi / (n : ℝ)),
              c.fY + r * Real.sin ((i : ℝ) * 2 * Real.pi / (n : ℝ))⟩) ∧
    (1 ≤ n →
      (GetPolygonPoints ⟨Real.cos, Real.sin, Real.pi⟩ n c r)[0]? = some ⟨c.fX + r, c.fY⟩) ∧
    (∀ i : Nat, i + 1 < n →
      (GetPolygonPoints ⟨Real.cos, Real.sin, Real.pi⟩ n c r)[i + 1]? =
        some ⟨c.fX + r * Real.cos ((i : ℝ) * 2 * Real.pi / (n : ℝ) + 2 * Real.pi / (n : ℝ)),
              c.fY + r * Real.sin ((i : ℝ) * 2 * Real.pi / (n : ℝ) + 2 * Real.pi / (n : ℝ))⟩) := by
  refine ⟨GetPolygonPoints_length _ n c r, GetPolygonPoints_getElem?_real n c r,
    GetPolygonPoints_head_real n c r, ?_⟩
  intro i hi
  rw [GetPolygonPoints_getElem? _ n c r (i + 1) hi]
  simp only [polygonPoint]
  have e : 2 * Real.pi / (n : ℝ) * ((i + 1 : ℕ) : ℝ) =
      (i : ℝ) * 2 * Real.pi / (n : ℝ) + 2 * Real.pi / (n : ℝ) := by
    push_cast; ring
  rw [e]

/-- Witness for C1: the square `n = 4` around the origin with radius 1. -/
theorem GetPolygonPoints_spec_witness :
    (GetPolygonPoints ⟨Real.cos, Real.sin, Real.pi⟩ 4 ⟨0, 0⟩ 1).length = 4 ∧
    (GetPolygonPoints ⟨Real.cos, Real.sin, Real.pi⟩ 4 ⟨0, 0⟩ 1)[0]? = some ⟨0 + 1, 0⟩ ∧
    (GetPolygonPoints ⟨Real.cos, Real.sin, Real.pi⟩ 4 ⟨0, 0⟩ 1)[3]? =
      some ⟨0 + 1 * Real.cos (((3 : ℕ) : ℝ) * 2 * Real.pi / ((4 : ℕ) : ℝ)),
            0 + 1 * Real.sin (((3 : ℕ) : ℝ) * 2 * Real.pi / ((4 : ℕ) : ℝ))⟩ :=
  ⟨(GetPolygonPoints_spec 4 ⟨0, 0⟩ 1).1,
   (GetPolygonPoints_spec 4 ⟨0, 0⟩ 1).2.2.1 (by decide),
   (GetPolygonPoints_spec 4 ⟨0, 0⟩ 1).2.1 3 (by decide)⟩

/-- C2: for `n >= 3` and `r > 0` every point of `GetPolygonPoints n c r` is at
Euclidean distance exactly `r` from `c`. -/
theorem GetPolygonPoints_dist (n : Nat) (c : SkPoint ℝ) (r : ℝ) (_hn : 3 ≤ n) (hr : 0 < r) :
    ∀ p ∈ GetPolygonPoints ⟨Real.cos, Real.sin, Real.pi⟩ n c r,
      Real.sqrt ((p.fX - c.fX) ^ 2 + (p.fY - c.fY) ^ 2) = r := by
  intro p hp
  rw [GetPolygonPoints_eq_map] at hp
  obtain ⟨i, -, rfl⟩ := List.mem_map.1 hp
  simp only [polygonPoint]
  have e : ∀ t : ℝ, (c.fX + r * Real.cos t - c.fX) ^ 2 + (c.fY + r * Real.sin t - c.fY) ^ 2
      = r ^ 2 := by
    intro t
    have := Real.sin_sq_add_cos_sq t
    nlinarith [Real.sin_sq_add_cos_sq t]
  rw [e, Real.sqrt_sq hr.le]

/-- Witness for C2: the triangle of radius 5 around `(1, 2)` has a point, and
that point is at distance 5 from the center. -/
theorem GetPolygonPoints_dist_witness :
    (3 ≤ 3 ∧ (0 : ℝ) < 5) ∧
    (⟨1 + 5, 2⟩ : SkPoint ℝ) ∈ GetPolygonPoints ⟨Real.cos, Real.sin, Real.pi⟩ 3 ⟨1, 2⟩ 5 ∧
    Real.sqrt (((⟨1 + 5, 2⟩ : SkPoint ℝ).fX - 1) ^ 2 + ((⟨1 + 5, 2⟩ : SkPoint ℝ).fY - 2) ^ 2)
      = 5 :=
  have hmem : (⟨1 + 5, 2⟩ : SkPoint ℝ) ∈
      GetPolygonPoints ⟨Real.cos, Real.sin, Real.pi⟩ 3 ⟨1, 2⟩ 5 :=
    List.getElem?_mem (GetPolygonPoints_head_real 3 ⟨1, 2⟩ 5 (by decide))
  ⟨⟨le_refl 3, by norm_num⟩, hmem,
   GetPolygonPoints_dist 3 ⟨1, 2⟩ 5 (le_refl 3) (by norm_num) _ hmem⟩

/-- C3: `GetPolygonPoints 4 (0,0) 10` is exactly
`[(10,0), (0,10), (-10,0), (0,-10)]`. -/
theorem GetPolygonPoints_square :
    GetPolygonPoints ⟨Real.cos, Real.sin, Real.pi⟩ 4 ⟨0, 0⟩ 10 =
      [⟨10, 0⟩, ⟨0, 10⟩, ⟨-10, 0⟩, ⟨0, -10⟩] := by
  have h1 : 2 * Real.pi / ((4 : ℕ) : ℝ) * ((1 : ℕ) : ℝ) = Real.pi / 2 := by push_cast; ring
  have h2 : 2 * Real.pi / ((4 : ℕ) : ℝ) * ((2 : ℕ) : ℝ) = Real.pi := by push_cast; ring
  have h3 : 2 * Real.pi / ((4 : ℕ) : ℝ) * ((3 : ℕ) : ℝ) = Real.pi / 2 + Real.pi := by
    push_cast; ring
  have h0 : 2 * Real.pi / ((4 : ℕ) : ℝ) * ((0 : ℕ) : ℝ) = 0 := by push_cast; ring
  rw [GetPolygonPoints_eq_map]
  simp only [List.range_succ, List.range_zero, List.nil_append, List.cons_append, List.map_cons,
    List.map_nil, polygonPoint, h0, h1, h2, h3, Real.cos_zero, Real.sin_zero,
    Real.cos_pi_div_two, Real.sin_pi_div_two, Real.cos_pi, Real.sin_pi, Real.cos_add_pi,
    Real.sin_add_pi]
  norm_num

/-! ## Shape of the generated contours -/

theorem foldlM_append_elem {R : Type} (step : SkPath R → Nat → Option (SkPath R))
    (g : Nat → PathElem R) (l : List Nat) (path : SkPath R)
    (h : ∀ i ∈ l, ∀ p : SkPath R, step p i = some (p ++ [g i])) :
    l.foldlM step path = some (path ++ l.map g) := by
  induction l generalizing path with
  | nil => simp
  | cons a l ih =>
    rw [List.foldlM_cons, h a (List.mem_cons_self a l) path]
    simp only [Option.some_bind, Option.bind_eq_bind]
    rw [ih _ (fun i hi p => h i (List.mem_cons_of_mem a hi) p)]
    simp

theorem mem_forRange {lo hi i : Nat} : i ∈ forRange lo hi ↔ lo ≤ i ∧ i < hi := by
  simp only [forRange, List.mem_range'_1]
  omega

theorem contour_assemble {R : Type} (sides : Nat) (hs : 1 ≤ sides) (path : SkPath R)
    (p0 : SkPoint R) (seg : Nat → PathElem R) :
    path ++ [PathElem.move p0] ++ (forRange 1 sides).map seg ++ [seg sides] ++ [PathElem.close]
      = path ++ contour sides p0 seg := by
  obtain ⟨k, rfl⟩ : ∃ k, sides = k + 1 := ⟨sides - 1, by omega⟩
  simp [contour, forRange, List.range'_1_concat, Nat.add_comm]

section Segments

variable {R : Type} [Field R] (m : FloatMath R) (sides : Nat) (center : SkPoint R) (radius : R)

theorem GetLinesPath_eq (path : SkPath R) (hs : 1 ≤ sides) :
    GetLinesPath m path sides center radius =
      some (path ++ contour sides (polygonPoint m sides center radius 0)
        (lineSeg m sides center radius)) := by
  unfold GetLinesPath
  simp only [GetPolygonPoints_getElem? m sides center radius 0 hs, Option.bind_eq_bind,
    Option.some_bind]
  rw [foldlM_append_elem _ (lineSeg m sides center radius)]
  · rw [← contour_assemble sides hs]
    simp [lineSeg, SkPath.moveTo, SkPath.lineTo, SkPath.close]
  · intro i hi p
    have hi' := mem_forRange.1 hi
    rw [GetPolygonPoints_getElem? m sides center radius i hi'.2]
    simp [SkPath.lineTo, lineSeg, Nat.mod_eq_of_lt hi'.2]

theorem GetQuadsPath_eq (path : SkPath R) (hs : 1 ≤ sides) :
    GetQuadsPath m path sides center radius =
      some (path ++ contour sides (polygonPoint m sides center radius 0)
        (quadSeg m sides center radius)) := by
  unfold GetQuadsPath
  simp only [GetPolygonPoints_getElem? m sides center radius 0 hs,
    GetPolygonPoints_getElem? m (sides * 2) center (radius * 0.8) (2 * sides - 1) (by omega),
    Option.bind_eq_bind, Option.some_bind]
  rw [foldlM_append_elem _ (quadSeg m sides center radius)]
  · rw [← contour_assemble sides hs]
    simp [quadSeg, SkPath.moveTo, SkPath.quadTo, SkPath.close]
  · intro i hi p
    have hi' := mem_forRange.1 hi
    rw [GetPolygonPoints_getElem? m sides center radius i hi'.2,
      GetPolygonPoints_getElem? m (sides * 2) center (radius * 0.8) (2 * i - 1) (by omega)]
    simp [SkPath.quadTo, quadSeg, Nat.mod_eq_of_lt hi'.2]

theorem GetConicsPath_eq (path : SkPath R) (hs : 1 ≤ sides) :
    GetConicsPath m path sides center radius =
      some (path ++ contour sides (polygonPoint m sides center radius 0)
        (conicSeg m sides center radius)) := by
  unfold GetConicsPath
  simp only [GetPolygonPoints_getElem? m sides center radius 0 hs,
    GetPolygonPoints_getElem? m (sides * 2) center (radius * 0.8) (2 * sides - 1) (by omega),
    Option.bind_eq_bind, Option.some_bind]
  rw [foldlM_append_elem _ (conicSeg m sides center radius)]
  · rw [← contour_assemble sides hs]
    simp [conicSeg, SkPath.moveTo, SkPath.conicTo, SkPath.close]
  · intro i hi p
    have hi' := mem_forRange.1 hi
    rw [GetPolygonPoints_getElem? m sides center radius i hi'.2,
      GetPolygonPoints_getElem? m (sides * 2) center (radius * 0.8) (2 * i - 1) (by omega)]
    simp [SkPath.conicTo, conicSeg, Nat.mod_eq_of_lt hi'.2]

theorem GetCubicsPath_eq (path : SkPath R) (hs : 1 ≤ sides) :
    GetCubicsPath m path sides center radius =
      some (path ++ contour sides (polygonPoint m sides center radius 0)
        (cubicSeg m sides center radius)) := by
  unfold GetCubicsPath
  simp only [GetPolygonPoints_getElem? m sides center radius 0 hs,
    GetPolygonPoints_getElem? m (sides * 3) center (radius * 0.8) (3 * sides - 2) (by omega),
    GetPolygonPoints_getElem? m (sides * 3) center (radius * 1.2) (3 * sides - 1) (by omega),
    Option.bind_eq_bind, Option.some_bind]
  rw [foldlM_append_elem _ (cubicSeg m sides center radius)]
  · rw [← contour_assemble sides hs]
    simp [cubicSeg, SkPath.moveTo, SkPath.cubicTo, SkPath.close]
  · intro i hi p
    have hi' := mem_forRange.1 hi
    rw [GetPolygonPoints_getElem? m sides center radius i hi'.2,
      GetPolygonPoints_getElem? m (sides * 3) center (radius * 0.8) (3 * i - 2) (by omega),
      GetPolygonPoints_getElem? m (sides * 3) center (radius * 1.2) (3 * i - 1) (by omega)]
    simp [SkPath.cubicTo, cubicSeg, Nat.mod_eq_of_lt hi'.2]

end Segments

theorem contour_getElem? {R : Type} (sides : Nat) (p0 : SkPoint R) (seg : Nat → PathElem R)
    (i : Nat) (h1 : 1 ≤ i) (h2 : i ≤ sides) : (contour sides p0 seg)[i]? = some (seg i) := by
  obtain ⟨j, rfl⟩ : ∃ j, i = j + 1 := ⟨i - 1, by omega⟩
  have hj : j < sides := by omega
  simp [contour, List.getElem?_append_left, hj, List.getElem?_range' 1 1 hj, Nat.add_comm]

theorem contour_length {R : Type} (sides : Nat) (p0 : SkPoint R) (seg : Nat → PathElem R) :
    (contour sides p0 seg).length = sides + 2 := by
  simp [contour]

theorem contour_countSegments {R : Type} (sides : Nat) (p0 : SkPoint R)
    (seg : Nat → PathElem R) (hseg : ∀ i, (seg i).isSegment = true) :
    SkPath.countSegments (contour sides p0 seg) = sides := by
  have hm : (PathElem.move p0).isSegment = false := rfl
  have hc : (PathElem.close : PathElem R).isSegment = false := rfl
  simp [SkPath.countSegments, contour, List.countP_cons, List.countP_append, hm, hc,
    List.countP_map, Function.comp_def, hseg]

theorem contour_verbs {R : Type} (sides : Nat) (p0 : SkPoint R) (seg : Nat → PathElem R)
    (v : Verb) (hseg : ∀ i, (seg i).verb = v) :
    (contour sides p0 seg).map PathElem.verb =
      Verb.kMove_Verb :: (List.replicate sides v ++ [Verb.kClose_Verb]) := by
  have hm : (PathElem.move p0).verb = Verb.kMove_Verb := rfl
  have hc : (PathElem.close : PathElem R).verb = Verb.kClose_Verb := rfl
  simp [contour, hm, hc, Function.comp_def, hseg, List.map_const']

theorem contour_endPoints {R : Type} (sides : Nat) (hs : 1 ≤ sides) (P : Nat → SkPoint R)
    (seg : Nat → PathElem R) (hseg : ∀ i, (seg i).endPoint = some (P (i % sides))) :
    (contour sides (P 0) seg).map PathElem.endPoint =
      ((List.range sides).map P ++ [P 0]).map some ++ [none] := by
  obtain ⟨k, rfl⟩ : ∃ k, sides = k + 1 := ⟨sides - 1, by omega⟩
  have h1 : (List.range' 1 k).map (fun i => some (P (i % (k + 1)))) =
      (List.range' 1 k).map (fun i => some (P i)) := by
    apply List.map_congr_left
    intro i hi
    rw [Nat.mod_eq_of_lt (by have := List.mem_range'_1.1 hi; omega)]
  have h2 : (List.range (k + 1)).map P = P 0 :: (List.range' 1 k).map P := by
    rw [List.range_eq_range', List.range'_succ, List.map_cons]
  have hm : (PathElem.move (P 0)).endPoint = some (P 0) := rfl
  have hc : (PathElem.close : PathElem R).endPoint = none := rfl
  simp [contour, hm, hc, Function.comp_def, hseg, List.range'_1_concat, h1, h2,
    Nat.add_comm 1 k]

/-! ## `MultiplyPath` as a concatenation of contours -/

theorem foldlM_eq_mapM_flatten {R α : Type} (gen : SkPath R → α → Option (SkPath R))
    (g0 : α → Option (SkPath R))
    (h : ∀ path a, gen path a = (g0 a).map (fun q => path ++ q)) (l : List α) (path : SkPath R) :
    l.foldlM gen path = (l.mapM g0).map (fun cs => path ++ cs.flatten) := by
  induction l generalizing path with
  | nil => rw [List.mapM_nil]; simp
  | cons a l ih =>
    rw [List.foldlM_cons, List.mapM_cons, h path a]
    cases ha : g0 a with
    | none => simp
    | some q =>
      simp only [Option.map_some', Option.bind_eq_bind, Option.some_bind, ih]
      cases l.mapM g0 with
      | none => simp
      | some bs => simp

theorem mapM_eq_some_map {α β : Type} (f : α → Option β) (g : α → β) (l : List α)
    (h : ∀ a ∈ l, f a = some (g a)) : l.mapM f = some (l.map g) := by
  induction l with
  | nil => rw [List.mapM_nil]; simp
  | cons a l ih =>
    rw [List.mapM_cons, h a (List.mem_cons_self a l),
      ih (fun b hb => h b (List.mem_cons_of_mem a hb))]
    simp

theorem sum_map_eq_mul {α : Type} (f : α → Nat) (n : Nat) (l : List α)
    (h : ∀ a ∈ l, f a = n) : (l.map f).sum = l.length * n := by
  induction l with
  | nil => simp
  | cons a l ih =>
    rw [List.map_cons, List.sum_cons, h a (List.mem_cons_self a l),
      ih (fun b hb => h b (List.mem_cons_of_mem a hb)), List.length_cons]
    ring

section Multiply

variable {R : Type} [Field R] (m : FloatMath R)

theorem generatorFor_eq (type : Verb) (path : SkPath R) (sides : Nat) (hs : 1 ≤ sides)
    (center : SkPoint R) (radius : R) :
    generatorFor m type path sides center radius =
      some (path ++ contourFor m type sides center radius) := by
  cases type <;>
    simp [generatorFor, contourFor, GetLinesPath_eq, GetQuadsPath_eq, GetConicsPath_eq,
      GetCubicsPath_eq, hs]

theorem generatorFor_zero (type : Verb) (path : SkPath R) (center : SkPoint R) (radius : R) :
    generatorFor m type path 0 center radius =
      (generatorFor m type [] 0 center radius).map (fun q => path ++ q) := by
  have h0 : ∀ r : R, GetPolygonPoints m 0 center r = [] := by
    intro r
    simp [GetPolygonPoints_eq_map]
  cases type <;>
    simp [generatorFor, GetLinesPath, GetQuadsPath, GetConicsPath, GetCubicsPath, h0]

theorem generatorFor_append (type : Verb) (path : SkPath R) (sides : Nat) (center : SkPoint R)
    (radius : R) :
    generatorFor m type path sides center radius =
      (generatorFor m type [] sides center radius).map (fun q => path ++ q) := by
  rcases Nat.eq_zero_or_pos sides with rfl | hs
  · exact generatorFor_zero m type path center radius
  · rw [generatorFor_eq m type path sides hs, generatorFor_eq m type [] sides hs]
    simp

theorem MultiplyPath_eq_fold (path : SkPath R) (type : Verb) (center : SkPoint R)
    (sides number : Nat) (radius : R) :
    MultiplyPath m path type center sides number radius =
      (GetPolygonPoints m number center (radius / 2.0)).foldlM
        (fun path p => generatorFor m type path sides p radius) path := by
  cases type <;> rfl

theorem MultiplyPath_eq_mapM (path : SkPath R) (type : Verb) (center : SkPoint R)
    (sides number : Nat) (radius : R) :
    MultiplyPath m path type center sides number radius =
      ((GetPolygonPoints m number center (radius / 2.0)).mapM
        (fun p => generatorFor m type [] sides p radius)).map
        (fun cs => path ++ cs.flatten) := by
  rw [MultiplyPath_eq_fold]
  exact foldlM_eq_mapM_flatten _ _
    (fun path p => generatorFor_append m type path sides p radius) _ _

theorem MultiplyPath_eq_flatten (path : SkPath R) (type : Verb) (center : SkPoint R)
    (sides number : Nat) (hs : 1 ≤ sides) (radius : R) :
    MultiplyPath m path type center sides number radius =
      some (path ++ ((GetPolygonPoints m number center (radius / 2.0)).map
        (fun p => contourFor m type sides p radius)).flatten) := by
  rw [MultiplyPath_eq_mapM, mapM_eq_some_map _ (fun p => contourFor m type sides p radius)]
  · simp
  · intro p _
    simpa using generatorFor_eq m type [] sides hs p radius

theorem contourFor_counts (type : Verb)
    (htype : type = Verb.kLine_Verb ∨ type = Verb.kQuad_Verb ∨ type = Verb.kConic_Verb ∨
      type = Verb.kCubic_Verb) (sides : Nat) (center : SkPoint R) (radius : R) :
    SkPath.countSegments (contourFor m type sides center radius) = sides ∧
    SkPath.countVerbs (contourFor m type sides center radius) = sides + 2 := by
  rcases htype with rfl | rfl | rfl | rfl <;>
    exact ⟨contour_countSegments _ _ _ (fun _ => rfl), contour_length _ _ _⟩

end Multiply

/-! ## Path claims -/

/-- C4: for each of the four segment verbs and `sides >= 1`, `MultiplyPath` on an
empty path with count `k` yields a path whose segment count and verb count are
`k` times those of the single polygon the matching generator builds on an empty
path (which has `sides` segments and `sides + 2` verbs). -/
theorem MultiplyPath_segment_count {R : Type} [Field R] (m : FloatMath R) (type : Verb)
    (sides k : Nat) (center : SkPoint R) (radius : R)
    (htype : type = Verb.kLine_Verb ∨ type = Verb.kQuad_Verb ∨ type = Verb.kConic_Verb ∨
      type = Verb.kCubic_Verb) (hs : 1 ≤ sides) :
    ∃ multi single : SkPath R,
      MultiplyPath m [] type center sides k radius = some multi ∧
      generatorFor m type [] sides center radius = some single ∧
      single.countSegments = sides ∧ single.countVerbs = sides + 2 ∧
      multi.countSegments = k * single.countSegments ∧
      multi.countVerbs = k * single.countVerbs := by
  refine ⟨_, _, MultiplyPath_eq_flatten m [] type center sides k hs radius,
    generatorFor_eq m type [] sides hs center radius, ?_, ?_, ?_, ?_⟩
  · simpa using (contourFor_counts m type htype sides center radius).1
  · simpa using (contourFor_counts m type htype sides center radius).2
  · simp only [List.nil_append, SkPath.countSegments, List.countP_flatten, List.map_map]
    rw [sum_map_eq_mul _ sides]
    · rw [GetPolygonPoints_length]
      congr 1
      exact ((contourFor_counts m type htype sides center radius).1).symm
    · intro p _
      exact (contourFor_counts m type htype sides p radius).1
  · simp only [List.nil_append, SkPath.countVerbs, List.length_flatten, List.map_map]
    rw [sum_map_eq_mul _ (sides + 2)]
    · rw [GetPolygonPoints_length]
      congr 1
      exact ((contourFor_counts m type htype sides center radius).2).symm
    · intro p _
      exact (contourFor_counts m type htype sides p radius).2

/-- Witness for C4: three quadratic pentagons. -/
theorem MultiplyPath_segment_count_witness :
    ∃ multi single : SkPath ℝ,
      MultiplyPath ⟨Real.cos, Real.sin, Real.pi⟩ [] Verb.kQuad_Verb ⟨0, 0⟩ 5 3 1 = some multi ∧
      generatorFor ⟨Real.cos, Real.sin, Real.pi⟩ Verb.kQuad_Verb [] 5 ⟨0, 0⟩ 1 = some single ∧
      single.countSegments = 5 ∧ single.countVerbs = 5 + 2 ∧
      multi.countSegments = 3 * single.countSegments ∧
      multi.countVerbs = 3 * single.countVerbs :=
  MultiplyPath_segment_count ⟨Real.cos, Real.sin, Real.pi⟩ Verb.kQuad_Verb 5 3 ⟨0, 0⟩ 1
    (by decide) (by decide)

/-- C5: for `sides >= 1` the four generators record, on an empty path, contours
with the same on-curve points in the same order: a move to `points[0]`, then
`sides` segments ending at `points[1], ..., points[sides-1], points[0]`, then a
close (which has no point); the four paths differ only in the verb of the
`sides` segments (and the control points those carry). -/
theorem generators_same_vertices {R : Type} [Field R] (m : FloatMath R) (sides : Nat)
    (center : SkPoint R) (radius : R) (hs : 1 ≤ sides) :
    ∃ lines quads conics cubics : SkPath R,
      GetLinesPath m [] sides center radius = some lines ∧
      GetQuadsPath m [] sides center radius = some quads ∧
      GetConicsPath m [] sides center radius = some conics ∧
      GetCubicsPath m [] sides center radius = some cubics ∧
      lines.map PathElem.endPoint =
        ((GetPolygonPoints m sides center radius ++
          (GetPolygonPoints m sides center radius).take 1).map some ++ [none]) ∧
      quads.map PathElem.endPoint = lines.map PathElem.endPoint ∧
      conics.map PathElem.endPoint = lines.map PathElem.endPoint ∧
      cubics.map PathElem.endPoint = lines.map PathElem.endPoint ∧
      lines.map PathElem.verb =
        Verb.kMove_Verb :: (List.replicate sides Verb.kLine_Verb ++ [Verb.kClose_Verb]) ∧
      quads.map PathElem.verb =
        Verb.kMove_Verb :: (List.replicate sides Verb.kQuad_Verb ++ [Verb.kClose_Verb]) ∧
      conics.map PathElem.verb =
        Verb.kMove_Verb :: (List.replicate sides Verb.kConic_Verb ++ [Verb.kClose_Verb]) ∧
      cubics.map PathElem.verb =
        Verb.kMove_Verb :: (List.replicate sides Verb.kCubic_Verb ++ [Verb.kClose_Verb]) := by
  have htake : (GetPolygonPoints m sides center radius).take 1 =
      [polygonPoint m sides center radius 0] := by
    obtain ⟨k, rfl⟩ : ∃ k, sides = k + 1 := ⟨sides - 1, by omega⟩
    rw [GetPolygonPoints_eq_map, List.range_eq_range', List.range'_succ]
    simp
  have hl := contour_endPoints sides hs (polygonPoint m sides center radius)
    (lineSeg m sides center radius) (fun _ => rfl)
  have hq := contour_endPoints sides hs (polygonPoint m sides center radius)
    (quadSeg m sides center radius) (fun _ => rfl)
  have hk := contour_endPoints sides hs (polygonPoint m sides center radius)
    (conicSeg m sides center radius) (fun _ => rfl)
  have hc := contour_endPoints sides hs (polygonPoint m sides center radius)
    (cubicSeg m sides center radius) (fun _ => rfl)
  refine ⟨_, _, _, _, GetLinesPath_eq m sides center radius [] hs,
    GetQuadsPath_eq m sides center radius [] hs, GetConicsPath_eq m sides center radius [] hs,
    GetCubicsPath_eq m sides center radius [] hs, ?_, ?_, ?_, ?_, ?_, ?_, ?_, ?_⟩
  · rw [List.nil_append, hl, htake, GetPolygonPoints_eq_map]
  · rw [List.nil_append, List.nil_append, hq, hl]
  · rw [List.nil_append, List.nil_append, hk, hl]
  · rw [List.nil_append, List.nil_append, hc, hl]
  · exact contour_verbs _ _ _ _ (fun _ => rfl)
  · exact contour_verbs _ _ _ _ (fun _ => rfl)
  · exact contour_verbs _ _ _ _ (fun _ => rfl)
  · exact contour_verbs _ _ _ _ (fun _ => rfl)

/-- Witness for C5: the four triangles of radius 2 around `(1, 1)`. -/
theorem generators_same_vertices_witness :
    ∃ lines quads conics cubics : SkPath ℝ,
      GetLinesPath ⟨Real.cos, Real.sin, Real.pi⟩ [] 3 ⟨1, 1⟩ 2 = some lines ∧
      GetQuadsPath ⟨Real.cos, Real.sin, Real.pi⟩ [] 3 ⟨1, 1⟩ 2 = some quads ∧
      GetConicsPath ⟨Real.cos, Real.sin, Real.pi⟩ [] 3 ⟨1, 1⟩ 2 = some conics ∧
      GetCubicsPath ⟨Real.cos, Real.sin, Real.pi⟩ [] 3 ⟨1, 1⟩ 2 = some cubics ∧
      lines.map PathElem.endPoint =
        ((GetPolygonPoints ⟨Real.cos, Real.sin, Real.pi⟩ 3 ⟨1, 1⟩ 2 ++
          (GetPolygonPoints ⟨Real.cos, Real.sin, Real.pi⟩ 3 ⟨1, 1⟩ 2).take 1).map some
            ++ [none]) ∧
      quads.map PathElem.endPoint = lines.map PathElem.endPoint ∧
      conics.map PathElem.endPoint = lines.map PathElem.endPoint ∧
      cubics.map PathElem.endPoint = lines.map PathElem.endPoint ∧
      lines.map PathElem.verb =
        Verb.kMove_Verb :: (List.replicate 3 Verb.kLine_Verb ++ [Verb.kClose_Verb]) ∧
      quads.map PathElem.verb =
        Verb.kMove_Verb :: (List.replicate 3 Verb.kQuad_Verb ++ [Verb.kClose_Verb]) ∧
      conics.map PathElem.verb =
        Verb.kMove_Verb :: (List.replicate 3 Verb.kConic_Verb ++ [Verb.kClose_Verb]) ∧
      cubics.map PathElem.verb =
        Verb.kMove_Verb :: (List.replicate 3 Verb.kCubic_Verb ++ [Verb.kClose_Verb]) :=
  generators_same_vertices ⟨Real.cos, Real.sin, Real.pi⟩ 3 ⟨1, 1⟩ 2 (by decide)

/-- C7: for `sides >= 1`, `GetConicsPath` records exactly the element sequence
of `GetQuadsPath` (same move, control points, end points, order and close)
with every quadratic segment turned into a conic segment of weight 3.7. -/
theorem GetConicsPath_eq_quads {R : Type} [Field R] (m : FloatMath R) (sides : Nat)
    (center : SkPoint R) (radius : R) (hs : 1 ≤ sides) :
    ∃ quads : SkPath R,
      GetQuadsPath m [] sides center radius = some quads ∧
      GetConicsPath m [] sides center radius =
        some (quads.map (PathElem.quadToConic 3.7)) := by
  refine ⟨_, GetQuadsPath_eq m sides center radius [] hs, ?_⟩
  rw [GetConicsPath_eq m sides center radius [] hs]
  have hm : ∀ p : SkPoint R, (PathElem.move p).quadToConic 3.7 = PathElem.move p :=
    fun _ => rfl
  have hc : (PathElem.close : PathElem R).quadToConic 3.7 = PathElem.close := rfl
  have hq : ∀ i, (quadSeg m sides center radius i).quadToConic 3.7 =
      conicSeg m sides center radius i := fun _ => rfl
  simp [contour, hm, hc, hq, Function.comp_def]

/-- Witness for C7: the hexagon of radius 10 around the origin. -/
theorem GetConicsPath_eq_quads_witness :
    ∃ quads : SkPath ℝ,
      GetQuadsPath ⟨Real.cos, Real.sin, Real.pi⟩ [] 6 ⟨0, 0⟩ 10 = some quads ∧
      GetConicsPath ⟨Real.cos, Real.sin, Real.pi⟩ [] 6 ⟨0, 0⟩ 10 =
        some (quads.map (PathElem.quadToConic 3.7)) :=
  GetConicsPath_eq_quads ⟨Real.cos, Real.sin, Real.pi⟩ 6 ⟨0, 0⟩ 10 (by decide)

theorem contour_start_endPoint {R : Type} (sides : Nat) (P : Nat → SkPoint R)
    (seg : Nat → PathElem R) (hseg : ∀ i, (seg i).endPoint = some (P (i % sides)))
    (i : Nat) (h1 : 1 ≤ i) (h2 : i ≤ sides) :
    ((contour sides (P 0) seg)[i - 1]?).bind PathElem.endPoint = some (P (i - 1)) := by
  rcases Nat.eq_or_lt_of_le h1 with h | h
  · subst h
    simp [contour, PathElem.endPoint]
  · rw [contour_getElem? sides (P 0) seg (i - 1) (by omega) (by omega)]
    simp [hseg, Nat.mod_eq_of_lt (show i - 1 < sides by omega)]

/-- C6: for every edge `i` in `1..sides` of `GetQuadsPath` (the closing edge
`i = sides` included) the element recorded for the edge is a quadratic segment
from polygon point `i-1` to polygon point `i mod sides` whose control point is
`center + 0.8*radius*(cos a, sin a)` with `a = (i - 1/2)*2*pi/sides`. -/
theorem GetQuadsPath_control_point (sides i : Nat) (c : SkPoint ℝ) (r : ℝ)
    (hi1 : 1 ≤ i) (hi2 : i ≤ sides) :
    ∃ (quads : SkPath ℝ) (p : SkPoint ℝ),
      GetQuadsPath ⟨Real.cos, Real.sin, Real.pi⟩ [] sides c r = some quads ∧
      (GetPolygonPoints ⟨Real.cos, Real.sin, Real.pi⟩ sides c r)[i % sides]? = some p ∧
      quads[i]? = some (PathElem.quad
        ⟨c.fX + 0.8 * r * Real.cos (((i : ℝ) - 1 / 2) * 2 * Real.pi / (sides : ℝ)),
         c.fY + 0.8 * r * Real.sin (((i : ℝ) - 1 / 2) * 2 * Real.pi / (sides : ℝ))⟩ p) ∧
      (quads[i - 1]?).bind PathElem.endPoint =
        (GetPolygonPoints ⟨Real.cos, Real.sin, Real.pi⟩ sides c r)[i - 1]? := by
  have hs : 1 ≤ sides := le_trans hi1 hi2
  refine ⟨_, _, GetQuadsPath_eq _ sides c r [] hs,
    GetPolygonPoints_getElem? _ sides c r (i % sides) (Nat.mod_lt _ hs), ?_, ?_⟩
  · rw [List.nil_append, contour_getElem? _ _ _ i hi1 hi2]
    have e : 2 * Real.pi / ((sides * 2 : ℕ) : ℝ) * ((2 * i - 1 : ℕ) : ℝ) =
        ((i : ℝ) - 1 / 2) * 2 * Real.pi / (sides : ℝ) := by
      rw [Nat.cast_sub (by omega)]
      push_cast
      ring
    have h8 : r * (0.8 : ℝ) = 0.8 * r := mul_comm _ _
    simp only [quadSeg, polygonPoint, e, h8]
  · rw [List.nil_append, GetPolygonPoints_getElem? _ sides c r (i - 1) (by omega)]
    exact contour_start_endPoint sides (polygonPoint ⟨Real.cos, Real.sin, Real.pi⟩ sides c r)
      (quadSeg ⟨Real.cos, Real.sin, Real.pi⟩ sides c r) (fun _ => rfl) i hi1 hi2

/-- Witness for C6: the closing edge `i = 4` of the square. -/
theorem GetQuadsPath_control_point_witness :
    ∃ (quads : SkPath ℝ) (p : SkPoint ℝ),
      GetQuadsPath ⟨Real.cos, Real.sin, Real.pi⟩ [] 4 ⟨0, 0⟩ 10 = some quads ∧
      (GetPolygonPoints ⟨Real.cos, Real.sin, Real.pi⟩ 4 ⟨0, 0⟩ 10)[4 % 4]? = some p ∧
      quads[4]? = some (PathElem.quad
        ⟨0 + 0.8 * 10 * Real.cos ((((4 : ℕ) : ℝ) - 1 / 2) * 2 * Real.pi / ((4 : ℕ) : ℝ)),
         0 + 0.8 * 10 * Real.sin ((((4 : ℕ) : ℝ) - 1 / 2) * 2 * Real.pi / ((4 : ℕ) : ℝ))⟩ p) ∧
      (quads[4 - 1]?).bind PathElem.endPoint =
        (GetPolygonPoints ⟨Real.cos, Real.sin, Real.pi⟩ 4 ⟨0, 0⟩ 10)[4 - 1]? :=
  GetQuadsPath_control_point 4 4 ⟨0, 0⟩ 10 (by decide) (by decide)

/-- C8: for every edge `i` in `1..sides` of `GetCubicsPath` (the closing edge
`i = sides` included) the element recorded for the edge is a cubic segment from
polygon point `i-1` to polygon point `i mod sides`; its first control point is
`center + 0.8*radius*(cos a, sin a)` with `a = (i - 1 + 1/3)*2*pi/sides` and its
second is `center + 1.2*radius*(cos b, sin b)` with `b = (i - 1 + 2/3)*2*pi/sides`. -/
theorem GetCubicsPath_control_points (sides i : Nat) (c : SkPoint ℝ) (r : ℝ)
    (hi1 : 1 ≤ i) (hi2 : i ≤ sides) :
    ∃ (cubics : SkPath ℝ) (p : SkPoint ℝ),
      GetCubicsPath ⟨Real.cos, Real.sin, Real.pi⟩ [] sides c r = some cubics ∧
      (GetPolygonPoints ⟨Real.cos, Real.sin, Real.pi⟩ sides c r)[i % sides]? = some p ∧
      cubics[i]? = some (PathElem.cubic
        ⟨c.fX + 0.8 * r * Real.cos (((i : ℝ) - 1 + 1 / 3) * 2 * Real.pi / (sides : ℝ)),
         c.fY + 0.8 * r * Real.sin (((i : ℝ) - 1 + 1 / 3) * 2 * Real.pi / (sides : ℝ))⟩
        ⟨c.fX + 1.2 * r * Real.cos (((i : ℝ) - 1 + 2 / 3) * 2 * Real.pi / (sides : ℝ)),
         c.fY + 1.2 * r * Real.sin (((i : ℝ) - 1 + 2 / 3) * 2 * Real.pi / (sides : ℝ))⟩ p) ∧
      (cubics[i - 1]?).bind PathElem.endPoint =
        (GetPolygonPoints ⟨Real.cos, Real.sin, Real.pi⟩ sides c r)[i - 1]? := by
  have hs : 1 ≤ sides := le_trans hi1 hi2
  refine ⟨_, _, GetCubicsPath_eq _ sides c r [] hs,
    GetPolygonPoints_getElem? _ sides c r (i % sides) (Nat.mod_lt _ hs), ?_, ?_⟩
  · rw [List.nil_append, contour_getElem? _ _ _ i hi1 hi2]
    have e1 : 2 * Real.pi / ((sides * 3 : ℕ) : ℝ) * ((3 * i - 2 : ℕ) : ℝ) =
        ((i : ℝ) - 1 + 1 / 3) * 2 * Real.pi / (sides : ℝ) := by
      rw [Nat.cast_sub (by omega)]
      push_cast
      ring
    have e2 : 2 * Real.pi / ((sides * 3 : ℕ) : ℝ) * ((3 * i - 1 : ℕ) : ℝ) =
        ((i : ℝ) - 1 + 2 / 3) * 2 * Real.pi / (sides : ℝ) := by
      rw [Nat.cast_sub (by omega)]
      push_cast
      ring
    have h8 : r * (0.8 : ℝ) = 0.8 * r := mul_comm _ _
    have h12 : r * (1.2 : ℝ) = 1.2 * r := mul_comm _ _
    simp only [cubicSeg, polygonPoint, e1, e2, h8, h12]
  · rw [List.nil_append, GetPolygonPoints_getElem? _ sides c r (i - 1) (by omega)]
    exact contour_start_endPoint sides (polygonPoint ⟨Real.cos, Real.sin, Real.pi⟩ sides c r)
      (cubicSeg ⟨Real.cos, Real.sin, Real.pi⟩ sides c r) (fun _ => rfl) i hi1 hi2

/-- Witness for C8: the first edge of the triangle. -/
theorem GetCubicsPath_control_points_witness :
    ∃ (cubics : SkPath ℝ) (p : SkPoint ℝ),
      GetCubicsPath ⟨Real.cos, Real.sin, Real.pi⟩ [] 3 ⟨0, 0⟩ 10 = some cubics ∧
      (GetPolygonPoints ⟨Real.cos, Real.sin, Real.pi⟩ 3 ⟨0, 0⟩ 10)[1 % 3]? = some p ∧
      cubics[1]? = some (PathElem.cubic
        ⟨0 + 0.8 * 10 * Real.cos ((((1 : ℕ) : ℝ) - 1 + 1 / 3) * 2 * Real.pi / ((3 : ℕ) : ℝ)),
         0 + 0.8 * 10 * Real.sin ((((1 : ℕ) : ℝ) - 1 + 1 / 3) * 2 * Real.pi / ((3 : ℕ) : ℝ))⟩
        ⟨0 + 1.2 * 10 * Real.cos ((((1 : ℕ) : ℝ) - 1 + 2 / 3) * 2 * Real.pi / ((3 : ℕ) : ℝ)),
         0 + 1.2 * 10 * Real.sin ((((1 : ℕ) : ℝ) - 1 + 2 / 3) * 2 * Real.pi / ((3 : ℕ) : ℝ))⟩
        p) ∧
      (cubics[1 - 1]?).bind PathElem.endPoint =
        (GetPolygonPoints ⟨Real.cos, Real.sin, Real.pi⟩ 3 ⟨0, 0⟩ 10)[1 - 1]? :=
  GetCubicsPath_control_points 3 1 ⟨0, 0⟩ 10 (by decide) (by decide)

/-- C9: for `k >= 1`, `MultiplyPath` on an empty path has `k` polygon centers,
the `j`-th being `center + (radius/2)*(cos(j*2*pi/k), sin(j*2*pi/k))`; its result
is the concatenation, in that order, of the contours the generator selected by
`type` builds on an empty path around each of these centers with the given
`sides` and the full `radius` (failing exactly when such a generator run
fails); for `sides >= 1` no run fails and the result is the concatenation of
exactly `k` contours. -/
theorem MultiplyPath_contours (type : Verb) (sides k : Nat) (c : SkPoint ℝ) (r : ℝ)
    (_hk : 1 ≤ k) :
    (GetPolygonPoints ⟨Real.cos, Real.sin, Real.pi⟩ k c (r / 2)).length = k ∧
    (∀ j : Nat, j < k →
      (GetPolygonPoints ⟨Real.cos, Real.sin, Real.pi⟩ k c (r / 2))[j]? =
        some ⟨c.fX + r / 2 * Real.cos ((j : ℝ) * 2 * Real.pi / (k : ℝ)),
              c.fY + r / 2 * Real.sin ((j : ℝ) * 2 * Real.pi / (k : ℝ))⟩) ∧
    MultiplyPath ⟨Real.cos, Real.sin, Real.pi⟩ [] type c sides k r =
      ((GetPolygonPoints ⟨Real.cos, Real.sin, Real.pi⟩ k c (r / 2)).mapM
        (fun p => generatorFor ⟨Real.cos, Real.sin, Real.pi⟩ type [] sides p r)).map
          List.flatten ∧
    (1 ≤ sides → ∃ contours : List (SkPath ℝ),
      contours.length = k ∧
      MultiplyPath ⟨Real.cos, Real.sin, Real.pi⟩ [] type c sides k r = some contours.flatten ∧
      ∀ j : Nat, j < k → ∃ p : SkPoint ℝ,
        (GetPolygonPoints ⟨Real.cos, Real.sin, Real.pi⟩ k c (r / 2))[j]? = some p ∧
        generatorFor ⟨Real.cos, Real.sin, Real.pi⟩ type [] sides p r = contours[j]?) := by
  have h2 : r / (2.0 : ℝ) = r / 2 := by norm_num
  refine ⟨GetPolygonPoints_length _ k c (r / 2), GetPolygonPoints_getElem?_real k c (r / 2),
    ?_, ?_⟩
  · rw [MultiplyPath_eq_mapM, h2]
    simp
  · intro hs
    refine ⟨(GetPolygonPoints ⟨Real.cos, Real.sin, Real.pi⟩ k c (r / 2)).map
      (fun p => contourFor ⟨Real.cos, Real.sin, Real.pi⟩ type sides p r), ?_, ?_, ?_⟩
    · rw [List.length_map, GetPolygonPoints_length]
    · rw [MultiplyPath_eq_flatten _ [] type c sides k hs r, h2, List.nil_append]
    · intro j hj
      refine ⟨_, GetPolygonPoints_getElem? _ k c (r / 2) j hj, ?_⟩
      rw [generatorFor_eq _ type [] sides hs, List.getElem?_map,
        GetPolygonPoints_getElem? _ k c (r / 2) j hj]
      simp

/-- Witness for C9: two cubic hexagons; the second center is at angle `pi`. -/
theorem MultiplyPath_contours_witness :
    (GetPolygonPoints ⟨Real.cos, Real.sin, Real.pi⟩ 2 ⟨0, 0⟩ ((8 : ℝ) / 2))[1]? =
        some ⟨0 + 8 / 2 * Real.cos (((1 : ℕ) : ℝ) * 2 * Real.pi / ((2 : ℕ) : ℝ)),
              0 + 8 / 2 * Real.sin (((1 : ℕ) : ℝ) * 2 * Real.pi / ((2 : ℕ) : ℝ))⟩ ∧
    ∃ contours : List (SkPath ℝ),
      contours.length = 2 ∧
      MultiplyPath ⟨Real.cos, Real.sin, Real.pi⟩ [] Verb.kCubic_Verb ⟨0, 0⟩ 6 2 8 =
        some contours.flatten ∧
      ∀ j : Nat, j < 2 → ∃ p : SkPoint ℝ,
        (GetPolygonPoints ⟨Real.cos, Real.sin, Real.pi⟩ 2 ⟨0, 0⟩ ((8 : ℝ) / 2))[j]? = some p ∧
        generatorFor ⟨Real.cos, Real.sin, Real.pi⟩ Verb.kCubic_Verb [] 6 p 8 = contours[j]? :=
  ⟨(MultiplyPath_contours Verb.kCubic_Verb 6 2 ⟨0, 0⟩ 8 (by decide)).2.1 1 (by decide),
   (MultiplyPath_contours Verb.kCubic_Verb 6 2 ⟨0, 0⟩ 8 (by decide)).2.2.2 (by decide)⟩

/-! ## The test point walk -/

theorem GetTestPoints_eq_fold {R : Type} [LinearOrderedField R] (count : Nat)
    (canvas_size : SkISize) :
    (GetTestPoints count canvas_size : List (SkPoint R)) =
      ((List.range count).foldl (testPointsStep canvas_size) ([], SkPoint.Make 0.0 0.0)).1 := by
  unfold GetTestPoints
  rw [forRange_zero]
  rfl

theorem yPhase_bounds (k : Nat) : 0 ≤ yPhase k ∧ yPhase k ≤ 19.6 := by
  unfold yPhase
  split <;> norm_num

theorem walkInv_step (w h : Int) (hw : 23 ≤ w) (hh : 45 ≤ h) (n : Nat)
    (st : List (SkPoint ℚ) × SkPoint ℚ) (hinv : walkInv w h n st.2) :
    walkInv w h (n + 1) (testPointsStep ⟨w, h⟩ st n).2 := by
  obtain ⟨pts, ⟨x, y⟩⟩ := st
  obtain ⟨hx0, hxw, hy0, hyh⟩ := hinv
  have hw' : (23 : ℚ) ≤ (w : ℚ) := by exact_mod_cast hw
  have hh' : (45 : ℚ) ≤ (h : ℚ) := by exact_mod_cast hh
  have hlt : n % 6 < 6 := Nat.mod_lt _ (by decide)
  simp only at hx0 hxw hy0 hyh
  simp only [walkInv, testPointsStep, SkPoint.offset, SkPoint.x, SkPoint.y, SkISize.width,
    SkISize.height, List.length_cons, List.length_nil, Nat.reduceAdd, Int.cast_neg]
  interval_cases hk : n % 6
  all_goals
    have hk' : (n + 1) % 6 = (n % 6 + 1) % 6 := by omega
    rw [hk', hk]
    simp only [yPhase, List.getD_cons_zero, List.getD_cons_succ] at hy0 ⊢
    norm_num at hy0 ⊢
    split_ifs <;> simp only <;> refine ⟨?_, ?_, ?_, ?_⟩ <;> linarith

theorem walk_fold_inv (w h : Int) (hw : 23 ≤ w) (hh : 45 ≤ h) (n : Nat) :
    (∀ p ∈ ((List.range n).foldl (testPointsStep ⟨w, h⟩)
        ([], (SkPoint.Make 0.0 0.0 : SkPoint ℚ))).1,
      0 ≤ p.fX ∧ p.fX ≤ (w : ℚ) ∧ -19.6 ≤ p.fY ∧ p.fY ≤ (h : ℚ)) ∧
    walkInv w h n ((List.range n).foldl (testPointsStep ⟨w, h⟩)
        ([], (SkPoint.Make 0.0 0.0 : SkPoint ℚ))).2 := by
  have hw' : (23 : ℚ) ≤ (w : ℚ) := by exact_mod_cast hw
  have hh' : (45 : ℚ) ≤ (h : ℚ) := by exact_mod_cast hh
  induction n with
  | zero =>
    refine ⟨by simp, ?_⟩
    simp only [List.range_zero, List.foldl_nil, walkInv, SkPoint.Make, Nat.zero_mod, yPhase]
    norm_num
    constructor <;> linarith
  | succ n ih =>
    rw [List.range_succ, List.foldl_append, List.foldl_cons, List.foldl_nil]
    refine ⟨?_, walkInv_step w h hw hh n _ ih.2⟩
    intro p hp
    have hp' : p ∈ ((List.range n).foldl (testPointsStep ⟨w, h⟩)
        ([], (SkPoint.Make 0.0 0.0 : SkPoint ℚ))).1 ++
        [((List.range n).foldl (testPointsStep ⟨w, h⟩)
        ([], (SkPoint.Make 0.0 0.0 : SkPoint ℚ))).2] := hp
    rcases List.mem_append.1 hp' with h1 | h1
    · exact ih.1 p h1
    · rw [List.mem_singleton] at h1
      subst h1
      obtain ⟨a, b, c, d⟩ := ih.2
      have := (yPhase_bounds (n % 6)).1
      exact ⟨a, b, by linarith, d⟩

/-- C10, shown false as stated: on a 1 x 1 canvas the second point is
`(9, 33.3)`, outside the canvas on both axes; on a 23 x 45 canvas point 12 is
`(9.2, -10)`, below `y = 0`; on a 53 x 45 canvas point 16 has `x = 53`, on the
edge `x = width`; on a 29 x 50 canvas point 6 has `y = 50`, on the edge
`y = height`.  In the last two the coordinate is the size itself in single
precision too (`49.5 + 3.5 = 53`, and `25 + 25 = 50` after the wrap of `x`), and
the wrap test `>` leaves it there. -/
theorem GetTestPoints_leaves_canvas :
    ((GetTestPoints 2 ⟨1, 1⟩ : List (SkPoint ℚ))[1]? = some ⟨9, 333 / 10⟩ ∧
      ¬ ((9 : ℚ) < ((1 : Int) : ℚ)) ∧ ¬ ((333 / 10 : ℚ) < ((1 : Int) : ℚ))) ∧
    ((GetTestPoints 13 ⟨23, 45⟩ : List (SkPoint ℚ))[12]? = some ⟨46 / 5, -10⟩ ∧
      ¬ ((0 : ℚ) ≤ -10)) ∧
    (∃ p : SkPoint ℚ, (GetTestPoints 17 ⟨53, 45⟩ : List (SkPoint ℚ))[16]? = some p ∧
      p.fX = ((53 : Int) : ℚ) ∧ ¬ (p.fX < ((53 : Int) : ℚ))) ∧
    (∃ p : SkPoint ℚ, (GetTestPoints 7 ⟨29, 50⟩ : List (SkPoint ℚ))[6]? = some p ∧
      p.fY = ((50 : Int) : ℚ) ∧ ¬ (p.fY < ((50 : Int) : ℚ))) := by
  refine ⟨⟨?_, by norm_num, by norm_num⟩, ⟨?_, by norm_num⟩,
    ⟨⟨53, 27 / 5⟩, ?_, by norm_num, by norm_num⟩,
    ⟨⟨41 / 10, 50⟩, ?_, by norm_num, by norm_num⟩⟩ <;>
    norm_num [GetTestPoints, forRange, List.range', SkPoint.offset, SkPoint.Make, SkPoint.x,
      SkPoint.y, SkISize.width, SkISize.height]

/-- C10, amended: for every count and every canvas with `width >= 23` and
`height >= 45`, every point of `GetTestPoints` has `0 <= x <= width` and
`-19.6 <= y <= height` (exact rational arithmetic). -/
theorem GetTestPoints_bounds (count : Nat) (w h : Int) (hw : 23 ≤ w) (hh : 45 ≤ h) :
    ∀ p ∈ (GetTestPoints count ⟨w, h⟩ : List (SkPoint ℚ)),
      0 ≤ p.fX ∧ p.fX ≤ (w : ℚ) ∧ -19.6 ≤ p.fY ∧ p.fY ≤ (h : ℚ) := by
  rw [GetTestPoints_eq_fold]
  exact (walk_fold_inv w h hw hh count).1

/-- Witness for the amended C10: point 12 on the 23 x 45 canvas. -/
theorem GetTestPoints_bounds_witness :
    ((23 : Int) ≤ 23 ∧ (45 : Int) ≤ 45 ∧
      (⟨46 / 5, -10⟩ : SkPoint ℚ) ∈ (GetTestPoints 13 ⟨23, 45⟩ : List (SkPoint ℚ))) ∧
    (0 ≤ (⟨46 / 5, -10⟩ : SkPoint ℚ).fX ∧ (⟨46 / 5, -10⟩ : SkPoint ℚ).fX ≤ ((23 : Int) : ℚ) ∧
      -19.6 ≤ (⟨46 / 5, -10⟩ : SkPoint ℚ).fY ∧ (⟨46 / 5, -10⟩ : SkPoint ℚ).fY ≤ ((45 : Int) : ℚ)) :=
  have hmem : (⟨46 / 5, -10⟩ : SkPoint ℚ) ∈
      (GetTestPoints 13 ⟨23, 45⟩ : List (SkPoint ℚ)) := by
    norm_num [GetTestPoints, forRange, List.range', SkPoint.offset, SkPoint.Make, SkPoint.x,
      SkPoint.y, SkISize.width, SkISize.height]
  ⟨⟨by decide, by decide, hmem⟩,
   GetTestPoints_bounds 13 23 45 (by decide) (by decide) ⟨46 / 5, -10⟩ hmem⟩

/-! ## The test point walk, step by step -/

theorem testPoints_fold_succ {R : Type} [LinearOrderedField R] (cs : SkISize) (n : Nat)
    (init : List (SkPoint R) × SkPoint R) :
    (List.range (n + 1)).foldl (testPointsStep cs) init =
      testPointsStep cs ((List.range n).foldl (testPointsStep cs) init) n := by
  rw [List.range_succ, List.foldl_append, List.foldl_cons, List.foldl_nil]

theorem testPointsStep_fst {R : Type} [LinearOrderedField R] (cs : SkISize)
    (st : List (SkPoint R) × SkPoint R) (i : Nat) :
    (testPointsStep cs st i).1 = st.1 ++ [st.2] := rfl

theorem testPoints_fold_length {R : Type} [LinearOrderedField R] (cs : SkISize) (n : Nat) :
    ((List.range n).foldl (testPointsStep cs)
      ([], (SkPoint.Make 0.0 0.0 : SkPoint R))).1.length = n := by
  induction n with
  | zero => simp
  | succ n ih => rw [testPoints_fold_succ, testPointsStep_fst, List.length_append, ih]; simp

theorem testPoints_fold_getElem? {R : Type} [LinearOrderedField R] (cs : SkISize) (n i : Nat)
    (h : i < n) :
    ((List.range n).foldl (testPointsStep cs)
      ([], (SkPoint.Make 0.0 0.0 : SkPoint R))).1[i]? =
    some ((List.range i).foldl (testPointsStep cs)
      ([], (SkPoint.Make 0.0 0.0 : SkPoint R))).2 := by
  induction n with
  | zero => omega
  | succ n ih =>
    rw [testPoints_fold_succ, testPointsStep_fst]
    rcases Nat.lt_or_ge i n with hlt | hge
    · rw [List.getElem?_append_left (by rw [testPoints_fold_length]; exact hlt)]
      exact ih hlt
    · have hi : i = n := by omega
      subst hi
      rw [List.getElem?_append_right (by rw [testPoints_fold_length])]
      simp [testPoints_fold_length]

/-- C11: `GetTestPoints` returns exactly `count` points; for `count >= 1` the
first is the origin; and the advance from point `i` to point `i+1` uses
`delta_x[i mod 6]` and `delta_y[i mod 6]`: `x` moves by `delta_x[i mod 6]`, less
the width if it wraps, `y` moves by `delta_y[i mod 6]`, plus 25 if `x` wraps,
less the height if `y` wraps, and when neither wrap is triggered point `i+1` is
point `i` plus `(delta_x[i mod 6], delta_y[i mod 6])`. -/
theorem GetTestPoints_walk {R : Type} [LinearOrderedField R] (count : Nat)
    (canvas_size : SkISize) :
    (GetTestPoints count canvas_size : List (SkPoint R)).length = count ∧
    (1 ≤ count →
      (GetTestPoints count canvas_size : List (SkPoint R))[0]? = some ⟨0, 0⟩) ∧
    ∀ i : Nat, i + 1 < count → ∃ (p q : SkPoint R) (dx dy : R),
      (GetTestPoints count canvas_size : List (SkPoint R))[i]? = some p ∧
      (GetTestPoints count canvas_size : List (SkPoint R))[i + 1]? = some q ∧
      ([10.0, 6.3, 15.0, 3.5, 22.6, 4.7] : List R)[i % 6]? = some dx ∧
      ([9.3, -5.4, 8.5, -12.0, 19.2, -19.6] : List R)[i % 6]? = some dy ∧
      (q.fX = p.fX + dx ∨ q.fX = p.fX + dx - (canvas_size.fWidth : R)) ∧
      (q.fY = p.fY + dy ∨ q.fY = p.fY + dy + 25 ∨
        q.fY = p.fY + dy - (canvas_size.fHeight : R) ∨
        q.fY = p.fY + dy + 25 - (canvas_size.fHeight : R)) ∧
      (¬ (p.fX + dx > (canvas_size.fWidth : R)) → ¬ (p.fY + dy > (canvas_size.fHeight : R)) →
        q = ⟨p.fX + dx, p.fY + dy⟩) := by
  rw [GetTestPoints_eq_fold]
  refine ⟨testPoints_fold_length canvas_size count, ?_, ?_⟩
  · intro h
    rw [testPoints_fold_getElem? canvas_size count 0 h]
    have z : (0.0 : R) = 0 := by norm_num
    simp [SkPoint.Make, z]
  · intro i hi
    have hlt : i % 6 < 6 := Nat.mod_lt _ (by decide)
    refine ⟨_, _, ([10.0, 6.3, 15.0, 3.5, 22.6, 4.7] : List R).getD (i % 6) 0,
      ([9.3, -5.4, 8.5, -12.0, 19.2, -19.6] : List R).getD (i % 6) 0,
      testPoints_fold_getElem? canvas_size count i (by omega),
      testPoints_fold_getElem? canvas_size count (i + 1) hi, ?_, ?_, ?_⟩
    · interval_cases i % 6 <;> simp
    · interval_cases i % 6 <;> simp
    · rw [testPoints_fold_succ]
      generalize ((List.range i).foldl (testPointsStep canvas_size)
        ([], (SkPoint.Make 0.0 0.0 : SkPoint R))) = st
      obtain ⟨pts, ⟨x, y⟩⟩ := st
      simp only [testPointsStep, SkPoint.offset, SkPoint.x, SkPoint.y, SkISize.width,
        SkISize.height, List.length_cons, List.length_nil, Nat.reduceAdd, Int.cast_neg]
      have z : (0.0 : R) = 0 := by norm_num
      have t : (25.0 : R) = 25 := by norm_num
      refine ⟨?_, ?_, ?_⟩
      · split_ifs <;> dsimp only <;> (try rw [z]) <;>
          first
          | (left; ring1)
          | (right; ring1)
      · split_ifs <;> dsimp only <;> (try rw [t]) <;>
          first
          | (left; ring1)
          | (right; left; ring1)
          | (right; right; left; ring1)
          | (right; right; right; ring1)
      · intro h1 h2
        rw [if_neg h1, if_neg h2]

/-- Witness for C11: the first advance on the 1024 x 1024 canvas. -/
theorem GetTestPoints_walk_witness :
    (GetTestPoints 3 ⟨1024, 1024⟩ : List (SkPoint ℚ))[0]? = some ⟨0, 0⟩ ∧
    ∃ (p q : SkPoint ℚ) (dx dy : ℚ),
      (GetTestPoints 3 ⟨1024, 1024⟩ : List (SkPoint ℚ))[0]? = some p ∧
      (GetTestPoints 3 ⟨1024, 1024⟩ : List (SkPoint ℚ))[0 + 1]? = some q ∧
      ([10.0, 6.3, 15.0, 3.5, 22.6, 4.7] : List ℚ)[0 % 6]? = some dx ∧
      ([9.3, -5.4, 8.5, -12.0, 19.2, -19.6] : List ℚ)[0 % 6]? = some dy ∧
      (q.fX = p.fX + dx ∨ q.fX = p.fX + dx - (((⟨1024, 1024⟩ : SkISize).fWidth : Int) : ℚ)) ∧
      (q.fY = p.fY + dy ∨ q.fY = p.fY + dy + 25 ∨
        q.fY = p.fY + dy - (((⟨1024, 1024⟩ : SkISize).fHeight : Int) : ℚ) ∨
        q.fY = p.fY + dy + 25 - (((⟨1024, 1024⟩ : SkISize).fHeight : Int) : ℚ)) ∧
      (¬ (p.fX + dx > (((⟨1024, 1024⟩ : SkISize).fWidth : Int) : ℚ)) →
        ¬ (p.fY + dy > (((⟨1024, 1024⟩ : SkISize).fHeight : Int) : ℚ)) →
        q = ⟨p.fX + dx, p.fY + dy⟩) :=
  ⟨(GetTestPoints_walk 3 ⟨1024, 1024⟩).2.1 (by decide),
   (GetTestPoints_walk 3 ⟨1024, 1024⟩).2.2 0 (by decide)⟩
/-! ## Degenerate inputs of the polygon generators -/

/-- C14, shown false as stated: called with `n = 0`, `GetPolygonPoints` does
not fail; it returns a defined point set, the empty list. -/
theorem GetPolygonPoints_zero_returns :
    GetPolygonPoints ⟨Real.cos, Real.sin, Real.pi⟩ 0 ⟨0, 0⟩ 1 = [] := by
  simp [GetPolygonPoints_eq_map]

/-- C14, amended: `GetPolygonPoints` is total and has no failure path: for
`n = 0` it returns the empty list and for every `n >= 1` it returns a non-empty
list of exactly `n` points. -/
theorem GetPolygonPoints_total {R : Type} [Field R] (m : FloatMath R) (n : Nat)
    (center : SkPoint R) (r : R) :
    (n = 0 → GetPolygonPoints m n center r = []) ∧
    (1 ≤ n → (GetPolygonPoints m n center r).length = n ∧
      GetPolygonPoints m n center r ≠ []) := by
  refine ⟨?_, ?_⟩
  · rintro rfl
    simp [GetPolygonPoints_eq_map]
  · intro hn
    refine ⟨GetPolygonPoints_length m n center r, ?_⟩
    intro h
    have := GetPolygonPoints_length m n center r
    rw [h] at this
    simp at this
    omega

/-- Witness for the amended C14: `n = 0` and `n = 5`. -/
theorem GetPolygonPoints_total_witness :
    GetPolygonPoints ⟨Real.cos, Real.sin, Real.pi⟩ 0 ⟨0, 0⟩ 1 = [] ∧
    ((GetPolygonPoints ⟨Real.cos, Real.sin, Real.pi⟩ 5 ⟨0, 0⟩ 1).length = 5 ∧
      GetPolygonPoints ⟨Real.cos, Real.sin, Real.pi⟩ 5 ⟨0, 0⟩ 1 ≠ []) :=
  ⟨(GetPolygonPoints_total ⟨Real.cos, Real.sin, Real.pi⟩ 0 ⟨0, 0⟩ 1).1 rfl,
   (GetPolygonPoints_total ⟨Real.cos, Real.sin, Real.pi⟩ 5 ⟨0, 0⟩ 1).2 (by decide)⟩

theorem contour_one {R : Type} (p0 : SkPoint R) (seg : Nat → PathElem R) :
    contour 1 p0 seg = [PathElem.move p0, seg 1, PathElem.close] := by
  simp [contour, List.range']

theorem polygonPoint_one_zero (c : SkPoint ℝ) (r : ℝ) :
    polygonPoint ⟨Real.cos, Real.sin, Real.pi⟩ 1 c r 0 = ⟨c.fX + r, c.fY⟩ := by
  simp [polygonPoint]

theorem polygonPoint_two_one (c : SkPoint ℝ) (r : ℝ) :
    polygonPoint ⟨Real.cos, Real.sin, Real.pi⟩ 2 c r 1 = ⟨c.fX - r, c.fY⟩ := by
  simp [polygonPoint, sub_eq_add_neg]

theorem cubics_one_points (c : SkPoint ℝ) (r : ℝ) :
    SkPath.points (contour 1 (polygonPoint ⟨Real.cos, Real.sin, Real.pi⟩ 1 c r 0)
      (cubicSeg ⟨Real.cos, Real.sin, Real.pi⟩ 1 c r)) =
    [⟨c.fX + r, c.fY⟩,
     ⟨c.fX + r * 0.8 * Real.cos (2 * Real.pi / 3), c.fY + r * 0.8 * Real.sin (2 * Real.pi / 3)⟩,
     ⟨c.fX + r * 1.2 * Real.cos (2 * Real.pi / 3 * 2),
      c.fY + r * 1.2 * Real.sin (2 * Real.pi / 3 * 2)⟩,
     ⟨c.fX + r, c.fY⟩] := by
  rw [contour_one, polygonPoint_one_zero]
  simp [SkPath.points, PathElem.points, cubicSeg, polygonPoint]

theorem sin_two_pi_div_three_pos : 0 < Real.sin (2 * Real.pi / 3) := by
  apply Real.sin_pos_of_pos_of_lt_pi
  · positivity
  · linarith [Real.pi_pos]

theorem cubics_one_degenerate_iff (c : SkPoint ℝ) (r : ℝ) :
    SkPath.boundsDegenerate (contour 1 (polygonPoint ⟨Real.cos, Real.sin, Real.pi⟩ 1 c r 0)
      (cubicSeg ⟨Real.cos, Real.sin, Real.pi⟩ 1 c r)) ↔ r = 0 := by
  unfold SkPath.boundsDegenerate
  rw [cubics_one_points]
  constructor
  · rintro (h | h)
    · have h1 := h ⟨c.fX + r, c.fY⟩ (by simp)
        ⟨c.fX + r * 0.8 * Real.cos (2 * Real.pi / 3),
          c.fY + r * 0.8 * Real.sin (2 * Real.pi / 3)⟩ (by simp)
      simp only at h1
      have hc := Real.cos_le_one (2 * Real.pi / 3)
      have hc' := Real.neg_one_le_cos (2 * Real.pi / 3)
      have h2 : r * (1 - 0.8 * Real.cos (2 * Real.pi / 3)) = 0 := by linarith
      rcases mul_eq_zero.1 h2 with h3 | h3
      · exact h3
      · exfalso
        norm_num at h3
        linarith
    · have h1 := h ⟨c.fX + r, c.fY⟩ (by simp)
        ⟨c.fX + r * 0.8 * Real.cos (2 * Real.pi / 3),
          c.fY + r * 0.8 * Real.sin (2 * Real.pi / 3)⟩ (by simp)
      simp only at h1
      have hs := sin_two_pi_div_three_pos
      have h2 : r * (0.8 * Real.sin (2 * Real.pi / 3)) = 0 := by linarith
      rcases mul_eq_zero.1 h2 with h3 | h3
      · exact h3
      · exfalso
        norm_num at h3
        linarith
  · rintro rfl
    left
    intro p hp q hq
    simp at hp hq
    rcases hp with rfl | rfl
    all_goals rcases hq with rfl | rfl
    all_goals rfl

theorem polygonPoint_one_zero_gen {R : Type} [Field R] (m : FloatMath R) (c : SkPoint R)
    (r : R) :
    polygonPoint m 1 c r 0 = ⟨c.fX + r * m.cosf 0, c.fY + r * m.sinf 0⟩ := by
  simp [polygonPoint]

theorem polygonPoint_two_one_gen {R : Type} [LinearOrderedField R] (m : FloatMath R)
    (c : SkPoint R) (r : R) :
    polygonPoint m (1 * 2) c r (2 * 1 - 1) =
      ⟨c.fX + r * m.cosf m.M_PI, c.fY + r * m.sinf m.M_PI⟩ := by
  have h : 2 * m.M_PI / 2 = m.M_PI := by
    rw [mul_comm, mul_div_assoc, div_self (two_ne_zero), mul_one]
  simp [polygonPoint, h]

theorem lines_one_points {R : Type} [Field R] (m : FloatMath R) (c : SkPoint R) (r : R) :
    SkPath.points (contour 1 (polygonPoint m 1 c r 0) (lineSeg m 1 c r)) =
      [⟨c.fX + r * m.cosf 0, c.fY + r * m.sinf 0⟩,
       ⟨c.fX + r * m.cosf 0, c.fY + r * m.sinf 0⟩] := by
  rw [contour_one, polygonPoint_one_zero_gen]
  simp [SkPath.points, PathElem.points, lineSeg, polygonPoint_one_zero_gen]

theorem quads_one_points {R : Type} [LinearOrderedField R] (m : FloatMath R) (c : SkPoint R)
    (r : R) :
    SkPath.points (contour 1 (polygonPoint m 1 c r 0) (quadSeg m 1 c r)) =
      [⟨c.fX + r * m.cosf 0, c.fY + r * m.sinf 0⟩,
       ⟨c.fX + r * 0.8 * m.cosf m.M_PI, c.fY + r * 0.8 * m.sinf m.M_PI⟩,
       ⟨c.fX + r * m.cosf 0, c.fY + r * m.sinf 0⟩] := by
  rw [contour_one, polygonPoint_one_zero_gen]
  simp only [SkPath.points, PathElem.points, quadSeg, Nat.mod_self, polygonPoint_one_zero_gen,
    polygonPoint_two_one_gen, List.flatMap_cons, List.flatMap_nil, List.append_nil,
    List.singleton_append, List.cons_append, List.nil_append]

theorem conics_one_points {R : Type} [LinearOrderedField R] (m : FloatMath R) (c : SkPoint R)
    (r : R) :
    SkPath.points (contour 1 (polygonPoint m 1 c r 0) (conicSeg m 1 c r)) =
      [⟨c.fX + r * m.cosf 0, c.fY + r * m.sinf 0⟩,
       ⟨c.fX + r * 0.8 * m.cosf m.M_PI, c.fY + r * 0.8 * m.sinf m.M_PI⟩,
       ⟨c.fX + r * m.cosf 0, c.fY + r * m.sinf 0⟩] := by
  rw [contour_one, polygonPoint_one_zero_gen]
  simp only [SkPath.points, PathElem.points, conicSeg, Nat.mod_self, polygonPoint_one_zero_gen,
    polygonPoint_two_one_gen, List.flatMap_cons, List.flatMap_nil, List.append_nil,
    List.singleton_append, List.cons_append, List.nil_append]

theorem boundsDegenerate_of_same {R : Type} (path : SkPath R) (V : SkPoint R)
    (h : path.points = [V, V]) : path.boundsDegenerate := by
  left
  intro p hp q hq
  rw [h] at hp hq
  simp at hp hq
  rw [hp, hq]

theorem boundsDegenerate_three_iff {R : Type} (path : SkPath R) (V K : SkPoint R)
    (h : path.points = [V, K, V]) :
    path.boundsDegenerate ↔ V.fX = K.fX ∨ V.fY = K.fY := by
  unfold SkPath.boundsDegenerate
  rw [h]
  constructor
  · rintro (hd | hd)
    · exact Or.inl (hd V (by simp) K (by simp))
    · exact Or.inr (hd V (by simp) K (by simp))
  · rintro (hd | hd)
    · left
      intro p hp q hq
      simp at hp hq
      rcases hp with hp | hp | hp <;> rcases hq with hq | hq | hq <;> rw [hp, hq] <;>
        first | rfl | exact hd | exact hd.symm
    · right
      intro p hp q hq
      simp at hp hq
      rcases hp with hp | hp | hp <;> rcases hq with hq | hq | hq <;> rw [hp, hq] <;>
        first | rfl | exact hd | exact hd.symm

/-- C15, shown false as stated, for `sides = 1`.  With the exact cosine and
sine, center `(0, 0)` and radius 1, the path of `GetCubicsPath` has an envelope
of non-zero width and non-zero height.  With the values single precision gives
`cosf` and `sinf` at the two angles used, `0` and `(float)M_PI` (`cosf` is
`1` and `-1`, `sinf` is `0` and `-6151831 / 2^46`, about `-8.74e-08`), center
`(3, 4)` and radius 2, the paths of `GetQuadsPath` and `GetConicsPath` have an
envelope of non-zero width and non-zero height as well: the control point is
not at the height of the vertex. -/
theorem generators_one_side_not_degenerate :
    (∃ cubics : SkPath ℝ,
      GetCubicsPath ⟨Real.cos, Real.sin, Real.pi⟩ [] 1 ⟨0, 0⟩ 1 = some cubics ∧
      ¬ cubics.boundsDegenerate) ∧
    (∃ quads conics : SkPath ℚ,
      GetQuadsPath ⟨fun a => if a = 0 then 1 else -1,
        fun a => if a = 0 then 0 else -(6151831 / 2 ^ 46), 13176795 / 4194304⟩ [] 1 ⟨3, 4⟩ 2
        = some quads ∧
      GetConicsPath ⟨fun a => if a = 0 then 1 else -1,
        fun a => if a = 0 then 0 else -(6151831 / 2 ^ 46), 13176795 / 4194304⟩ [] 1 ⟨3, 4⟩ 2
        = some conics ∧
      ¬ quads.boundsDegenerate ∧ ¬ conics.boundsDegenerate) := by
  refine ⟨⟨_, GetCubicsPath_eq _ 1 ⟨0, 0⟩ 1 [] (le_refl 1), ?_⟩,
    ⟨_, _, GetQuadsPath_eq _ 1 ⟨3, 4⟩ 2 [] (le_refl 1),
      GetConicsPath_eq _ 1 ⟨3, 4⟩ 2 [] (le_refl 1), ?_, ?_⟩⟩
  · rw [List.nil_append, cubics_one_degenerate_iff]
    norm_num
  · rw [List.nil_append, boundsDegenerate_three_iff _ _ _ (quads_one_points _ _ _)]
    norm_num
  · rw [List.nil_append, boundsDegenerate_three_iff _ _ _ (conics_one_points _ _ _)]
    norm_num

/-- C15, amended: for `sides = 1` and every center and radius all four
generators complete without error, whatever `cosf` and `sinf` return.  Every
point of the `GetLinesPath` path is the single vertex
`V = center + radius * (cosf 0, sinf 0)`, so its envelope is degenerate.  The
points of the `GetQuadsPath` and `GetConicsPath` paths are `V` and the control
point `K = center + 0.8 * radius * (cosf M_PI, sinf M_PI)`, so their envelope is
degenerate exactly when `V` and `K` share a coordinate; they do when
`sinf 0 = 0` and `sinf M_PI = 0`, as for the exact sine.  With the exact cosine
and sine the envelope of the `GetCubicsPath` path is degenerate only for
`radius = 0`. -/
theorem generators_one_side {R : Type} [LinearOrderedField R] (m : FloatMath R)
    (c : SkPoint R) (r : R) (c' : SkPoint ℝ) (r' : ℝ) :
    (∃ (V K : SkPoint R) (lines quads conics cubics : SkPath R),
      V = ⟨c.fX + r * m.cosf 0, c.fY + r * m.sinf 0⟩ ∧
      K = ⟨c.fX + r * 0.8 * m.cosf m.M_PI, c.fY + r * 0.8 * m.sinf m.M_PI⟩ ∧
      GetLinesPath m [] 1 c r = some lines ∧
      GetQuadsPath m [] 1 c r = some quads ∧
      GetConicsPath m [] 1 c r = some conics ∧
      GetCubicsPath m [] 1 c r = some cubics ∧
      lines.points = [V, V] ∧ lines.boundsDegenerate ∧
      quads.points = [V, K, V] ∧ conics.points = [V, K, V] ∧
      (quads.boundsDegenerate ↔ V.fX = K.fX ∨ V.fY = K.fY) ∧
      (conics.boundsDegenerate ↔ V.fX = K.fX ∨ V.fY = K.fY) ∧
      (m.sinf 0 = 0 → m.sinf m.M_PI = 0 →
        quads.boundsDegenerate ∧ conics.boundsDegenerate)) ∧
    (∃ cubics : SkPath ℝ,
      GetCubicsPath ⟨Real.cos, Real.sin, Real.pi⟩ [] 1 c' r' = some cubics ∧
      (cubics.boundsDegenerate ↔ r' = 0)) := by
  have hl := lines_one_points m c r
  have hq := quads_one_points m c r
  have hc := conics_one_points m c r
  refine ⟨⟨_, _, _, _, _, _, rfl, rfl, GetLinesPath_eq m 1 c r [] (le_refl 1),
    GetQuadsPath_eq m 1 c r [] (le_refl 1), GetConicsPath_eq m 1 c r [] (le_refl 1),
    GetCubicsPath_eq m 1 c r [] (le_refl 1), ?_, ?_, ?_, ?_, ?_, ?_, ?_⟩,
    ⟨_, GetCubicsPath_eq _ 1 c' r' [] (le_refl 1), ?_⟩⟩
  · rw [List.nil_append]; exact hl
  · rw [List.nil_append]; exact boundsDegenerate_of_same _ _ hl
  · rw [List.nil_append]; exact hq
  · rw [List.nil_append]; exact hc
  · rw [List.nil_append]; exact boundsDegenerate_three_iff _ _ _ hq
  · rw [List.nil_append]; exact boundsDegenerate_three_iff _ _ _ hc
  · intro h0 hpi
    rw [List.nil_append]
    refine ⟨(boundsDegenerate_three_iff _ _ _ hq).2 (Or.inr ?_),
      (boundsDegenerate_three_iff _ _ _ hc).2 (Or.inr ?_)⟩ <;>
      simp [h0, hpi]
  · rw [List.nil_append]
    exact cubics_one_degenerate_iff c' r'

/-- Witness for the amended C15: with the exact cosine and sine, center `(3, 4)`
and radius 2, the paths of `GetQuadsPath` and `GetConicsPath` have a degenerate
envelope. -/
theorem generators_one_side_witness :
    ∃ quads conics : SkPath ℝ,
      GetQuadsPath ⟨Real.cos, Real.sin, Real.pi⟩ [] 1 ⟨3, 4⟩ 2 = some quads ∧
      GetConicsPath ⟨Real.cos, Real.sin, Real.pi⟩ [] 1 ⟨3, 4⟩ 2 = some conics ∧
      quads.boundsDegenerate ∧ conics.boundsDegenerate := by
  obtain ⟨⟨V, K, lines, quads, conics, cubics, -, -, -, hq, hc, -, -, -, -, -, -, -, hd⟩, -⟩ :=
    generators_one_side ⟨Real.cos, Real.sin, Real.pi⟩ ⟨3, 4⟩ 2 ⟨0, 0⟩ 1
  exact ⟨quads, conics, hq, hc, hd Real.sin_zero Real.sin_pi⟩

/-! ## Closed form of the test vertices -/

theorem foldlM_append_pair {α β : Type} (step : List α × List β → Nat → Option (List α × List β))
    (f : Nat → List α) (g : Nat → List β) (l : List Nat) (st : List α × List β)
    (h : ∀ i ∈ l, ∀ s : List α × List β, step s i = some (s.1 ++ f i, s.2 ++ g i)) :
    l.foldlM step st = some (st.1 ++ l.flatMap f, st.2 ++ l.flatMap g) := by
  induction l generalizing st with
  | nil => simp
  | cons a l ih =>
    rw [List.foldlM_cons, h a (List.mem_cons_self a l) st]
    simp only [Option.some_bind, Option.bind_eq_bind]
    rw [ih _ (fun i hi s => h i (List.mem_cons_of_mem a hi) s)]
    simp

theorem flatMap_length_eq {α β : Type} (f : Nat → List α) (g : Nat → List β) (l : List Nat)
    (h : ∀ i, (f i).length = (g i).length) :
    (l.flatMap f).length = (l.flatMap g).length := by
  induction l with
  | nil => simp
  | cons a l ih => simp [List.flatMap_cons, ih, h a]

theorem testLists_length {R : Type} [Field R] (m : FloatMath R) (center : SkPoint R)
    (radius : R) (n : Nat) (mode : VertexMode) :
    (testVertexList m center radius n mode).length = (testColorList n mode).length := by
  cases mode
  · exact flatMap_length_eq _ _ _ (fun _ => rfl)
  · refine flatMap_length_eq _ _ _ (fun i => ?_)
    unfold stripVerts stripCols
    split_ifs <;> rfl
  · simp only [testVertexList, testColorList, List.length_cons]
    exact congrArg (fun k => k + 1) (flatMap_length_eq _ _ _ (fun _ => rfl))

theorem GetTestVertices_eq {R : Type} [Field R] (m : FloatMath R) (center : SkPoint R)
    (radius : R) (vertex_count : Nat) (mode : VertexMode) (h : 2 ≤ vertex_count) :
    GetTestVertices m center radius vertex_count mode =
      some (⟨mode, testVertexList m center radius (vertex_count / 2) mode,
        testColorList (vertex_count / 2) mode⟩,
        (testVertexList m center radius (vertex_count / 2) mode).length) := by
  have hn : 1 ≤ vertex_count / 2 := by omega
  have hn0 : vertex_count / 2 ≠ 0 := by omega
  have hget : ∀ i, (GetPolygonPoints m (vertex_count / 2) center radius)[i % (vertex_count / 2)]? =
      some (polygonPoint m (vertex_count / 2) center radius (i % (vertex_count / 2))) :=
    fun i => GetPolygonPoints_getElem? m _ center radius _ (Nat.mod_lt _ hn)
  have hlen := testLists_length m center radius (vertex_count / 2) mode
  have hcopy : SkVertices.MakeCopy mode (testVertexList m center radius (vertex_count / 2) mode).length
      (testVertexList m center radius (vertex_count / 2) mode)
      (testColorList (vertex_count / 2) mode) =
      some ⟨mode, testVertexList m center radius (vertex_count / 2) mode,
        testColorList (vertex_count / 2) mode⟩ := by
    unfold SkVertices.MakeCopy
    rw [if_pos ⟨le_refl _, hlen.le⟩, List.take_length, hlen, List.take_length]
  unfold GetTestVertices
  cases mode <;> simp only [testVertexList, testColorList] at hcopy ⊢
  · simp only [GetPolygonPoints_length, forRange_zero]
    rw [foldlM_append_pair _ (triVerts m center radius (vertex_count / 2)) triCols]
    · simp only [Option.bind_eq_bind, Option.some_bind, List.nil_append, List.singleton_append,
        hcopy, Option.pure_def]
    · intro i _ s
      simp [checkedMod, hn0, hget, triVerts, triCols]
  · simp only [GetPolygonPoints_length, forRange_zero]
    rw [foldlM_append_pair _ (stripVerts m center radius (vertex_count / 2)) stripCols]
    · simp only [Option.bind_eq_bind, Option.some_bind, List.nil_append, List.singleton_append,
        hcopy, Option.pure_def]
    · intro i _ s
      rcases Nat.mod_two_eq_zero_or_one i with h2 | h2 <;>
        simp [checkedMod, hn0, hget, stripVerts, stripCols, h2]
  · simp only [GetPolygonPoints_length, forRange_zero]
    rw [foldlM_append_pair _ (fanVerts m center radius (vertex_count / 2)) fanCols]
    · simp only [Option.bind_eq_bind, Option.some_bind, List.nil_append, List.singleton_append,
        hcopy, Option.pure_def]
    · intro i _ s
      simp only [checkedMod, hn0, if_false, Option.bind_eq_bind, Option.some_bind, hget, fanVerts,
        fanCols]
      split_ifs <;> rfl
theorem triangleAt_eq_some {α : Type} (l : List α) (i j k : Nat) (t : α × α × α)
    (h : triangleAt l i j k = some t) :
    l[i]? = some t.1 ∧ l[j]? = some t.2.1 ∧ l[k]? = some t.2.2 := by
  unfold triangleAt at h
  cases hi : l[i]? with
  | none => simp [hi] at h
  | some x =>
    cases hj : l[j]? with
    | none => simp [hi, hj] at h
    | some y =>
      cases hk : l[k]? with
      | none => simp [hi, hj, hk] at h
      | some z =>
        simp [hi, hj, hk] at h
        subst h
        exact ⟨rfl, rfl, rfl⟩

theorem succ_mod_ne (n j : Nat) (hn : 2 ≤ n) (hj : j < n) : j ≠ (j + 1) % n := by
  rcases Nat.lt_or_ge (j + 1) n with h | h
  · rw [Nat.mod_eq_of_lt h]
    omega
  · have e : j + 1 = n := by omega
    rw [e, Nat.mod_self]
    omega

section VertexFacts

variable {R : Type} [Field R] (m : FloatMath R) (center : SkPoint R) (radius : R) (n : Nat)

theorem fan_list_eq :
    testVertexList m center radius n VertexMode.kTriangleFan_VertexMode =
      center :: (List.range (n + 1)).map (fun i => polygonPoint m n center radius (i % n)) := by
  simp only [testVertexList]
  congr 1
  generalize List.range (n + 1) = l
  induction l with
  | nil => rfl
  | cons a l ih => simp [List.flatMap_cons, fanVerts, ih]

theorem tri_list_length (k : Nat) :
    ((List.range k).flatMap (triVerts m center radius n)).length = 3 * k := by
  induction k with
  | zero => simp
  | succ k ih =>
    rw [List.range_succ, List.flatMap_append, List.length_append, ih]
    simp [triVerts]
    omega

theorem tri_list_getElem? (k i : Nat) (h : i < k) :
    ((List.range k).flatMap (triVerts m center radius n))[3 * i]? =
      some (polygonPoint m n center radius (i % n)) ∧
    ((List.range k).flatMap (triVerts m center radius n))[3 * i + 1]? =
      some (polygonPoint m n center radius ((i + 1) % n)) ∧
    ((List.range k).flatMap (triVerts m center radius n))[3 * i + 2]? = some center := by
  induction k with
  | zero => omega
  | succ k ih =>
    rw [List.range_succ, List.flatMap_append]
    rcases Nat.lt_or_ge i k with hlt | hge
    · have hl := tri_list_length m center radius n k
      rw [List.getElem?_append_left (by omega), List.getElem?_append_left (by omega),
        List.getElem?_append_left (by omega)]
      exact ih hlt
    · have hi : i = k := by omega
      subst hi
      have hl := tri_list_length m center radius n i
      rw [List.getElem?_append_right (by omega), List.getElem?_append_right (by omega),
        List.getElem?_append_right (by omega), hl]
      simp [triVerts]

theorem strip_list_eq (k : Nat) :
    (List.range k).flatMap (stripVerts m center radius n) =
      (List.range (k + k / 2)).map (stripVertexAt m center radius n) := by
  induction k with
  | zero => simp
  | succ k ih =>
    rw [List.range_succ, List.flatMap_append, ih]
    rcases Nat.mod_two_eq_zero_or_one k with h2 | h2
    · have e : k + 1 + (k + 1) / 2 = (k + k / 2) + 1 := by omega
      have e3 : (k + k / 2) % 3 = 0 := by omega
      have e4 : 2 * ((k + k / 2) / 3) + 0 = k := by omega
      rw [e, List.range_succ, List.map_append]
      simp [stripVerts, stripVertexAt, h2, e3, e4]
    · have e : k + 1 + (k + 1) / 2 = (k + k / 2) + 1 + 1 := by omega
      have e3 : (k + k / 2) % 3 = 1 := by omega
      have e3' : (k + k / 2 + 1) % 3 = 2 := by omega
      have e4 : 2 * ((k + k / 2) / 3) + 1 = k := by omega
      rw [e, List.range_succ, List.range_succ, List.map_append, List.map_append]
      simp [stripVerts, stripVertexAt, h2, e3, e3', e4]

theorem testVertexList_mem (hn : 1 ≤ n) (mode : VertexMode) (p : SkPoint R)
    (hp : p ∈ testVertexList m center radius n mode) :
    p = center ∨ p ∈ GetPolygonPoints m n center radius := by
  have hO : ∀ i, polygonPoint m n center radius (i % n) ∈ GetPolygonPoints m n center radius :=
    fun i => List.getElem?_mem (GetPolygonPoints_getElem? m n center radius _ (Nat.mod_lt _ hn))
  cases mode
  · simp only [testVertexList, List.mem_flatMap, triVerts] at hp
    obtain ⟨i, -, hi⟩ := hp
    simp at hi
    rcases hi with rfl | rfl | rfl
    · exact Or.inr (hO _)
    · exact Or.inr (hO _)
    · exact Or.inl rfl
  · simp only [testVertexList, List.mem_flatMap, stripVerts] at hp
    obtain ⟨i, -, hi⟩ := hp
    split_ifs at hi
    · simp at hi
      rcases hi with rfl | rfl
      · exact Or.inr (hO _)
      · exact Or.inl rfl
    · simp at hi
      subst hi
      exact Or.inr (hO _)
  · simp only [testVertexList, List.mem_cons, List.mem_flatMap, fanVerts] at hp
    rcases hp with rfl | ⟨i, -, hi⟩
    · exact Or.inl rfl
    · simp at hi
      subst hi
      exact Or.inr (hO _)

end VertexFacts
theorem testVertexList_triangle {R : Type} [Field R] (m : FloatMath R) (center : SkPoint R)
    (radius : R) (n : Nat) (hn : 2 ≤ n) (mode : VertexMode) (t : SkPoint R × SkPoint R × SkPoint R)
    (ht : t ∈ trianglesOf mode (testVertexList m center radius n mode)) :
    ∃ j : Nat, j < n ∧ j ≠ (j + 1) % n ∧
      List.Perm [t.1, t.2.1, t.2.2]
        [center, polygonPoint m n center radius j, polygonPoint m n center radius ((j + 1) % n)] := by
  have hpos : 0 < n := by omega
  cases mode
  · -- triangle list
    simp only [trianglesOf, List.mem_filterMap, List.mem_range] at ht
    obtain ⟨k, hk, hkt⟩ := ht
    obtain ⟨h1, h2, h3⟩ := triangleAt_eq_some _ _ _ _ _ hkt
    simp only [testVertexList] at hk h1 h2 h3
    rw [tri_list_length] at hk
    have hk' : k < n := by omega
    obtain ⟨g1, g2, g3⟩ := tri_list_getElem? m center radius n n k hk'
    rw [g1] at h1
    rw [g2] at h2
    rw [g3] at h3
    injection h1 with h1
    injection h2 with h2
    injection h3 with h3
    refine ⟨k % n, Nat.mod_lt _ hpos, succ_mod_ne n _ hn (Nat.mod_lt _ hpos), ?_⟩
    rw [← h1, ← h2, ← h3, Nat.mod_add_mod]
    exact (List.perm_append_comm :
      List.Perm ([polygonPoint m n center radius (k % n),
        polygonPoint m n center radius ((k + 1) % n)] ++ [center]) _)
  · -- triangle strip
    simp only [trianglesOf, List.mem_filterMap, List.mem_range] at ht
    obtain ⟨k, hk, hkt⟩ := ht
    obtain ⟨h1, h2, h3⟩ := triangleAt_eq_some _ _ _ _ _ hkt
    simp only [testVertexList] at hk h1 h2 h3
    rw [strip_list_eq] at hk h1 h2 h3
    rw [List.length_map, List.length_range] at hk
    rw [List.getElem?_map, List.getElem?_range (by omega)] at h1 h2 h3
    simp only [Option.map_some'] at h1 h2 h3
    injection h1 with h1
    injection h2 with h2
    injection h3 with h3
    rw [← h1, ← h2, ← h3]
    have hk3 : k % 3 < 3 := Nat.mod_lt _ (by decide)
    interval_cases hr : k % 3
    · have a1 : (k + 1) % 3 = 1 := by omega
      have a2 : (k + 2) % 3 = 2 := by omega
      have a3 : (k + 1) / 3 = k / 3 := by omega
      refine ⟨(2 * (k / 3)) % n, Nat.mod_lt _ hpos, succ_mod_ne n _ hn (Nat.mod_lt _ hpos), ?_⟩
      simp only [stripVertexAt, hr, a1, a2, a3, Nat.mod_add_mod, if_true, Nat.add_zero]
      norm_num
      exact (List.perm_append_comm :
        List.Perm ([polygonPoint m n center radius (2 * (k / 3) % n),
          polygonPoint m n center radius ((2 * (k / 3) + 1) % n)] ++ [center]) _)
    · have a1 : (k + 1) % 3 = 2 := by omega
      have a2 : (k + 2) % 3 = 0 := by omega
      have a3 : (k + 2) / 3 = k / 3 + 1 := by omega
      have a4 : 2 * (k / 3 + 1) + 0 = 2 * (k / 3) + 1 + 1 := by omega
      refine ⟨(2 * (k / 3) + 1) % n, Nat.mod_lt _ hpos, succ_mod_ne n _ hn (Nat.mod_lt _ hpos), ?_⟩
      simp only [stripVertexAt, hr, a1, a2, a3, a4, Nat.mod_add_mod, if_true]
      norm_num
      exact List.Perm.swap _ _ _
    · have a1 : (k + 1) % 3 = 0 := by omega
      have a2 : (k + 2) % 3 = 1 := by omega
      have a3 : (k + 1) / 3 = k / 3 + 1 := by omega
      have a3' : (k + 2) / 3 = k / 3 + 1 := by omega
      have a4 : 2 * (k / 3 + 1) + 0 = 2 * (k / 3) + 2 := by omega
      have a5 : 2 * (k / 3 + 1) + 1 = 2 * (k / 3) + 2 + 1 := by omega
      refine ⟨(2 * (k / 3) + 2) % n, Nat.mod_lt _ hpos, succ_mod_ne n _ hn (Nat.mod_lt _ hpos), ?_⟩
      simp only [stripVertexAt, hr, a1, a2, a3, a3', a4, a5, Nat.mod_add_mod, if_true]
      norm_num
  · -- triangle fan
    simp only [trianglesOf, List.mem_filterMap, List.mem_range] at ht
    obtain ⟨k, hk, hkt⟩ := ht
    obtain ⟨h1, h2, h3⟩ := triangleAt_eq_some _ _ _ _ _ hkt
    rw [fan_list_eq] at hk h1 h2 h3
    simp only [List.length_cons, List.length_map, List.length_range] at hk
    rw [List.getElem?_cons_zero] at h1
    rw [List.getElem?_cons_succ, List.getElem?_map, List.getElem?_range (by omega)] at h2 h3
    simp only [Option.map_some'] at h2 h3
    injection h1 with h1
    injection h2 with h2
    injection h3 with h3
    refine ⟨k % n, Nat.mod_lt _ hpos, succ_mod_ne n _ hn (Nat.mod_lt _ hpos), ?_⟩
    rw [← h1, ← h2, ← h3, Nat.mod_add_mod]

/-- C13: for every mode and `vertex_count >= 4`, with `m = vertex_count / 2`,
`GetTestVertices` succeeds; every vertex it emits is `center` or one of the `m`
points of `GetPolygonPoints m center radius`; and every triangle assembled from
the vertex sequence under the mode's rule consists of `center` and the two
outer points with indices `j` and `(j + 1) mod m` for some `j < m`, two
different indices. -/
theorem GetTestVertices_triangles {R : Type} [Field R] (m : FloatMath R) (center : SkPoint R)
    (radius : R) (vertex_count : Nat) (mode : VertexMode) (h : 4 ≤ vertex_count) :
    ∃ (v : SkVertices R) (final_vertex_count : Nat),
      GetTestVertices m center radius vertex_count mode = some (v, final_vertex_count) ∧
      (∀ p ∈ v.positions,
        p = center ∨ p ∈ GetPolygonPoints m (vertex_count / 2) center radius) ∧
      ∀ t ∈ trianglesOf mode v.positions, ∃ (j : Nat) (a b : SkPoint R),
        j < vertex_count / 2 ∧ j ≠ (j + 1) % (vertex_count / 2) ∧
        (GetPolygonPoints m (vertex_count / 2) center radius)[j]? = some a ∧
        (GetPolygonPoints m (vertex_count / 2) center radius)[(j + 1) % (vertex_count / 2)]? =
          some b ∧
        List.Perm [t.1, t.2.1, t.2.2] [center, a, b] := by
  have hn : 2 ≤ vertex_count / 2 := by omega
  refine ⟨_, _, GetTestVertices_eq m center radius vertex_count mode (by omega), ?_, ?_⟩
  · exact testVertexList_mem m center radius _ (by omega) mode
  · intro t ht
    obtain ⟨j, hj, hne, hperm⟩ := testVertexList_triangle m center radius _ hn mode t ht
    exact ⟨j, _, _, hj, hne, GetPolygonPoints_getElem? m _ center radius j hj,
      GetPolygonPoints_getElem? m _ center radius _ (Nat.mod_lt _ (by omega)), hperm⟩
/-- Witness for C13: a fan for `vertex_count = 4`; its four vertices give two
triangles. -/
theorem GetTestVertices_triangles_witness :
    (∃ (v : SkVertices ℝ) (final_vertex_count : Nat),
      GetTestVertices ⟨Real.cos, Real.sin, Real.pi⟩ ⟨0, 0⟩ 1 4
        VertexMode.kTriangleFan_VertexMode = some (v, final_vertex_count) ∧
      (∀ p ∈ v.positions,
        p = ⟨0, 0⟩ ∨ p ∈ GetPolygonPoints ⟨Real.cos, Real.sin, Real.pi⟩ (4 / 2) ⟨0, 0⟩ 1) ∧
      ∀ t ∈ trianglesOf VertexMode.kTriangleFan_VertexMode v.positions,
        ∃ (j : Nat) (a b : SkPoint ℝ),
          j < 4 / 2 ∧ j ≠ (j + 1) % (4 / 2) ∧
          (GetPolygonPoints ⟨Real.cos, Real.sin, Real.pi⟩ (4 / 2) ⟨0, 0⟩ 1)[j]? = some a ∧
          (GetPolygonPoints ⟨Real.cos, Real.sin, Real.pi⟩ (4 / 2) ⟨0, 0⟩ 1)[(j + 1) % (4 / 2)]? =
            some b ∧
          List.Perm [t.1, t.2.1, t.2.2] [⟨0, 0⟩, a, b]) ∧
    (GetTestVertices ⟨Real.cos, Real.sin, Real.pi⟩ ⟨0, 0⟩ 1 4
      VertexMode.kTriangleFan_VertexMode).map
        (fun r => (r.2, (trianglesOf VertexMode.kTriangleFan_VertexMode r.1.positions).length)) =
      some (4, 2) :=
  ⟨GetTestVertices_triangles ⟨Real.cos, Real.sin, Real.pi⟩ ⟨0, 0⟩ 1 4
    VertexMode.kTriangleFan_VertexMode (by decide),
   by
    rw [GetTestVertices_eq _ _ _ _ _ (by decide), fan_list_eq]
    simp [trianglesOf, triangleAt, List.range_succ]⟩
/-! ## Order of the calls made by the benchmark scenarios -/

theorem foldl_invariant {σ α : Type} (Inv : σ → Prop) (step : σ → α → σ) (l : List α) (init : σ)
    (h0 : Inv init) (hstep : ∀ s a, Inv s → Inv (step s a)) : Inv (l.foldl step init) := by
  induction l generalizing init with
  | nil => exact h0
  | cons a l ih => exact ih _ (hstep _ _ h0)

theorem foldlM_invariant {σ α : Type} (Inv : σ → Prop) (step : σ → α → Option σ) (l : List α)
    (init : σ) (h0 : Inv init) (hstep : ∀ s a s', Inv s → step s a = some s' → Inv s')
    (s' : σ) (h : l.foldlM step init = some s') : Inv s' := by
  induction l generalizing init with
  | nil =>
    simp at h
    exact h ▸ h0
  | cons a l ih =>
    rw [List.foldlM_cons] at h
    cases hs : step init a with
    | none => simp [hs] at h
    | some s1 =>
      rw [hs] at h
      exact ih s1 (hstep _ _ _ h0 hs) h

theorem foldlM_isSome {σ α : Type} (step : σ → α → Option σ) (l : List α) (init : σ)
    (hstep : ∀ s, ∀ a ∈ l, ∃ s', step s a = some s') : ∃ s', l.foldlM step init = some s' := by
  induction l generalizing init with
  | nil => exact ⟨init, rfl⟩
  | cons a l ih =>
    obtain ⟨s1, hs1⟩ := hstep init a (List.mem_cons_self a l)
    rw [List.foldlM_cons, hs1]
    exact ih s1 (fun s b hb => hstep s b (List.mem_cons_of_mem a hb))

theorem allPrologue_append {R : Type} {P Q : List (Call R)} (hP : allPrologue P)
    (hQ : allPrologue Q) : allPrologue (P ++ Q) := by
  intro c hc
  rcases List.mem_append.1 hc with h | h
  · exact hP c h
  · exact hQ c h

theorem allPrologue_singleton {R : Type} (c : Call R) (h : c.isPrologue = true) :
    allPrologue [c] := by
  intro d hd
  rw [List.mem_singleton] at hd
  exact hd ▸ h

theorem allPrologue_filter {R : Type} (P : List (Call R)) (hP : allPrologue P) :
    ∃ draws : List (DrawOp R), P.filter Call.observed = draws.map Call.record := by
  induction P with
  | nil => exact ⟨[], rfl⟩
  | cons c P ih =>
    obtain ⟨draws, hd⟩ := ih (fun d hd => hP d (List.mem_cons_of_mem c hd))
    have hc := hP c (List.mem_cons_self c P)
    cases c with
    | record op => exact ⟨op :: draws, by simp [List.filter_cons, Call.observed, hd]⟩
    | InitializeSurface w h => exact ⟨draws, by simp [List.filter_cons, Call.observed, hd]⟩
    | MakeOffscreenSurface w h => exact ⟨draws, by simp [List.filter_cons, Call.observed, hd]⟩
    | SetComplexityN n => exact ⟨draws, by simp [List.filter_cons, Call.observed, hd]⟩
    | counter name v => exact ⟨draws, by simp [List.filter_cons, Call.observed, hd]⟩
    | Build => simp [Call.isPrologue] at hc
    | RenderTo => simp [Call.isPrologue] at hc
    | flushAndSubmit b => simp [Call.isPrologue] at hc
    | Snapshot f => simp [Call.isPrologue] at hc

theorem timedLoop_eq {R : Type} (k : Nat) :
    (timedLoop k : List (Call R)) =
      (List.replicate k [Call.RenderTo, Call.flushAndSubmit true]).flatten := by
  unfold timedLoop
  rw [forRange_zero]
  induction k with
  | zero => rfl
  | succ k ih =>
    rw [List.range_succ, List.flatMap_append, ih, List.replicate_succ']
    simp

theorem timedLoop_filter {R : Type} (k : Nat) :
    (timedLoop k : List (Call R)).filter Call.observed = timedLoop k := by
  rw [List.filter_eq_self]
  intro c hc
  unfold timedLoop at hc
  simp only [List.mem_flatMap] at hc
  obtain ⟨_, -, h⟩ := hc
  simp at h
  rcases h with rfl | rfl <;> rfl

theorem wellOrdered_of_shape {R : Type} (k : Nat) (P : List (Call R)) (filename : String)
    (hP : allPrologue P) :
    wellOrdered k (P ++ [Call.Build] ++ timedLoop k ++ [Call.Snapshot filename]) := by
  obtain ⟨draws, hd⟩ := allPrologue_filter P hP
  refine ⟨draws, filename, ?_⟩
  rw [List.filter_append, List.filter_append, List.filter_append, hd, timedLoop_filter,
    timedLoop_eq]
  rfl

section ScenarioShapes

variable {R : Type} [LinearOrderedField R]

theorem BM_DrawRect_shape (range0 k : Nat) (backendName : String) :
    ∃ P : List (Call R), allPrologue P ∧
      BM_DrawRect range0 k backendName =
        some (P ++ [Call.Build] ++ timedLoop k ++
          [Call.Snapshot (backendName ++ "-DrawRect-" ++ toString range0 ++ ".png")]) := by
  refine ⟨_, ?_, rfl⟩
  exact foldl_invariant (fun st : List (Call R) × SkRect R => allPrologue st.1) _ _ _
    (allPrologue_singleton _ rfl)
    (fun s _ hs => allPrologue_append hs (allPrologue_singleton _ rfl))

theorem BM_DrawOval_shape (range0 k : Nat) (backendName : String) :
    ∃ P : List (Call R), allPrologue P ∧
      BM_DrawOval range0 k backendName =
        some (P ++ [Call.Build] ++ timedLoop k ++
          [Call.Snapshot (backendName ++ "-DrawOval-" ++ toString range0 ++ ".png")]) := by
  refine ⟨_, ?_, rfl⟩
  exact foldl_invariant (fun st : List (Call R) × SkRect R => allPrologue st.1) _ _ _
    (allPrologue_singleton _ rfl)
    (fun s _ hs => allPrologue_append hs (allPrologue_singleton _ rfl))

theorem BM_DrawCircle_shape (range0 k : Nat) (backendName : String) :
    ∃ P : List (Call R), allPrologue P ∧
      BM_DrawCircle range0 k backendName =
        some (P ++ [Call.Build] ++ timedLoop k ++
          [Call.Snapshot (backendName ++ "-DrawCircle-" ++ toString range0 ++ ".png")]) := by
  refine ⟨_, ?_, rfl⟩
  exact foldl_invariant (fun st : List (Call R) × SkPoint R => allPrologue st.1) _ _ _
    (allPrologue_singleton _ rfl)
    (fun s _ hs => allPrologue_append hs (allPrologue_singleton _ rfl))

theorem BM_DrawArc_shape (range0 k : Nat) (backendName : String) :
    ∃ P : List (Call R), allPrologue P ∧
      BM_DrawArc range0 k backendName =
        some (P ++ [Call.Build] ++ timedLoop k ++
          [Call.Snapshot (backendName ++ "-DrawArc-" ++ toString range0 ++ ".png")]) := by
  refine ⟨_, ?_, rfl⟩
  refine foldl_invariant (fun st : List (Call R) × R × SkRect R => allPrologue st.1) _ _ _
    (allPrologue_singleton _ rfl) (fun s _ hs => ?_)
  exact foldl_invariant (fun st : List (Call R) × R => allPrologue st.1) _ _ _ hs
    (fun s _ hs => allPrologue_append hs (allPrologue_singleton _ rfl))

theorem BM_DrawPoints_shape (range0 k : Nat) (backendName : String) (mode : PointMode) :
    ∃ P : List (Call R), allPrologue P ∧
      BM_DrawPoints range0 k backendName mode =
        some (P ++ [Call.Build] ++ timedLoop k ++
          [Call.Snapshot (backendName ++ "-DrawPoints-" ++ PointModeToString mode ++ "-" ++
            toString range0 ++ ".png")]) := by
  refine ⟨_, ?_, rfl⟩
  intro c hc
  simp at hc
  rcases hc with rfl | rfl | rfl | rfl <;> rfl

theorem BM_DrawImage_shape (range0 k : Nat) (backendName : String) (upload_bitmap : Bool) :
    ∃ P : List (Call R), allPrologue P ∧
      BM_DrawImage range0 k backendName upload_bitmap =
        some (P ++ [Call.Build] ++ timedLoop k ++
          [Call.Snapshot (backendName ++ "-DrawImage-" ++
            (if upload_bitmap then "Upload-" else "Texture-") ++ toString range0 ++ ".png")]) := by
  refine ⟨_, ?_, rfl⟩
  refine foldl_invariant (fun st : List (Call R) × SkPoint R => allPrologue st.1) _ _ _ ?_
    (fun s _ hs => allPrologue_append hs (allPrologue_singleton _ rfl))
  cases upload_bitmap
  · exact allPrologue_append (allPrologue_singleton _ rfl) (allPrologue_singleton _ rfl)
  · exact allPrologue_singleton _ rfl

theorem BM_DrawImageRect_shape (range0 k : Nat) (backendName : String)
    (constraint : SrcRectConstraint) (upload_bitmap : Bool) :
    ∃ P : List (Call R), allPrologue P ∧
      BM_DrawImageRect range0 k backendName constraint upload_bitmap =
        some (P ++ [Call.Build] ++ timedLoop k ++
          [Call.Snapshot (backendName ++ "-DrawImageRect-" ++
            (if upload_bitmap then "Upload-" else "Texture-") ++
            ConstraintToString constraint ++ "-" ++ toString range0 ++ ".png")]) := by
  refine ⟨_, ?_, rfl⟩
  refine foldl_invariant (fun st : List (Call R) × SkRect R => allPrologue st.1) _ _ _ ?_
    (fun s _ hs => allPrologue_append hs (allPrologue_singleton _ rfl))
  cases upload_bitmap
  · exact allPrologue_append (allPrologue_singleton _ rfl) (allPrologue_singleton _ rfl)
  · exact allPrologue_singleton _ rfl

theorem BM_DrawImageNine_shape (range0 k : Nat) (backendName : String)
    (filter : SkFilterMode) (upload_bitmap : Bool) :
    ∃ P : List (Call R), allPrologue P ∧
      BM_DrawImageNine range0 k backendName filter upload_bitmap =
        some (P ++ [Call.Build] ++ timedLoop k ++
          [Call.Snapshot (backendName ++ "-DrawImageNine-" ++
            (if upload_bitmap then "Upload-" else "Texture-") ++
            FilterModeToString filter ++ "-" ++ toString range0 ++ ".png")]) := by
  refine ⟨_, ?_, rfl⟩
  refine foldl_invariant (fun st : List (Call R) × SkRect R => allPrologue st.1) _ _ _ ?_
    (fun s _ hs => allPrologue_append hs (allPrologue_singleton _ rfl))
  cases upload_bitmap
  · exact allPrologue_append (allPrologue_singleton _ rfl) (allPrologue_singleton _ rfl)
  · exact allPrologue_singleton _ rfl

end ScenarioShapes
theorem foldlM_some_eq_foldl {σ α : Type} (f : σ → α → σ) (l : List α) (init : σ) :
    l.foldlM (fun s a => some (f s a)) init = some (l.foldl f init) := by
  induction l generalizing init with
  | nil => rfl
  | cons a l ih => rw [List.foldlM_cons, List.foldl_cons]; exact ih _

section ScenarioShapesB

variable {R : Type} [LinearOrderedField R]

theorem BM_DrawLine_shape (range0 k : Nat) (backendName : String) (h : 1 ≤ range0) :
    ∃ P : List (Call R), allPrologue P ∧
      BM_DrawLine range0 k backendName =
        some (P ++ [Call.Build] ++ timedLoop k ++
          [Call.Snapshot (backendName ++ "-DrawLine-" ++ toString range0 ++ ".png")]) := by
  have hm : ∀ i, checkedMod i range0 = some (i % range0) := by
    intro i
    simp [checkedMod]
    omega
  unfold BM_DrawLine
  simp only [hm, Option.bind_eq_bind, Option.some_bind, Option.pure_def]
  rw [foldlM_some_eq_foldl]
  refine ⟨_, ?_, rfl⟩
  exact foldl_invariant (fun calls : List (Call R) => allPrologue calls) _ _ _
    (allPrologue_singleton _ rfl)
    (fun s _ hs => allPrologue_append hs (allPrologue_singleton _ rfl))

theorem BM_DrawRRect_shape (range0 k : Nat) (backendName : String) (type : SkRRectType)
    (h : type = SkRRectType.kSimple_Type ∨ type = SkRRectType.kNinePatch_Type ∨
      type = SkRRectType.kComplex_Type) :
    ∃ P : List (Call R), allPrologue P ∧
      BM_DrawRRect range0 k backendName type =
        some (P ++ [Call.Build] ++ timedLoop k ++
          [Call.Snapshot (backendName ++ "-DrawRRect-" ++ toString range0 ++ ".png")]) := by
  have h4 : forRange 0 4 = [0, 1, 2, 3] := rfl
  rcases h with rfl | rfl | rfl <;>
  · unfold BM_DrawRRect
    simp only [Option.bind_eq_bind, Option.some_bind, Option.pure_def, h4,
      List.foldlM_cons, List.foldlM_nil, List.getElem?_cons_zero, List.getElem?_cons_succ]
    refine ⟨_, ?_, rfl⟩
    exact foldl_invariant (fun st : List (Call R) × SkRRect R => allPrologue st.1) _ _ _
      (allPrologue_singleton _ rfl)
      (fun s _ hs => allPrologue_append hs (allPrologue_singleton _ rfl))

theorem BM_DrawPath_shape (m : FloatMath R) (range0 k : Nat) (backendName : String)
    (type : Verb) :
    ∃ P : List (Call R), allPrologue P ∧
      BM_DrawPath m range0 k backendName type =
        some (P ++ [Call.Build] ++ timedLoop k ++
          [Call.Snapshot (backendName ++ "-DrawPath-" ++ VerbToString type ++ "-" ++
            toString range0 ++ ".png")]) := by
  unfold BM_DrawPath
  simp only [MultiplyPath_eq_flatten m [] type _ 20 range0 (by decide), Option.bind_eq_bind,
    Option.some_bind, Option.pure_def]
  refine ⟨_, ?_, rfl⟩
  intro c hc
  simp at hc
  rcases hc with rfl | rfl | rfl | rfl <;> rfl

theorem BM_DrawShadow_shape (m : FloatMath R) (to_string : R → String) (range0 k : Nat)
    (backendName : String) (transparent_occluder : Bool) (type : Verb) :
    ∃ P : List (Call R), allPrologue P ∧
      BM_DrawShadow m to_string range0 k backendName transparent_occluder type =
        some (P ++ [Call.Build] ++ timedLoop k ++
          [Call.Snapshot (backendName ++ "-DrawShadow-" ++ VerbToString type ++ "-" ++
            (if transparent_occluder then "Transparent-" else "Opaque-") ++
            to_string (range0 : R) ++ "-" ++ ".png")]) := by
  unfold BM_DrawShadow
  cases type <;>
  · simp only [GetLinesPath_eq m 10 _ _ [] (by decide), GetQuadsPath_eq m 10 _ _ [] (by decide),
      GetConicsPath_eq m 10 _ _ [] (by decide), GetCubicsPath_eq m 10 _ _ [] (by decide),
      Option.bind_eq_bind, Option.some_bind, Option.pure_def]
    refine ⟨_, ?_, rfl⟩
    intro c hc
    simp at hc
    rcases hc with rfl | rfl <;> rfl

theorem BM_DrawVertices_shape (m : FloatMath R) (range0 k : Nat) (backendName : String)
    (mode : VertexMode) :
    ∃ P : List (Call R), allPrologue P ∧
      BM_DrawVertices m range0 k backendName mode =
        some (P ++ [Call.Build] ++ timedLoop k ++
          [Call.Snapshot (backendName ++ "-DrawVertices-" ++ toString range0 ++ "-" ++
            VertexModeToString mode ++ ".png")]) := by
  unfold BM_DrawVertices
  simp only [GetTestVertices_eq m _ _ 50 mode (by decide), Option.bind_eq_bind,
    Option.some_bind, Option.pure_def]
  rw [foldlM_some_eq_foldl]
  simp only [Option.some_bind]
  refine ⟨_, ?_, rfl⟩
  refine allPrologue_append (allPrologue_append ?_ (allPrologue_singleton _ rfl))
    (allPrologue_singleton _ rfl)
  exact foldl_invariant (fun st : List (Call R) × Nat => allPrologue st.1) _ _ _
    (allPrologue_singleton _ rfl)
    (fun s _ hs => allPrologue_append hs (allPrologue_singleton _ rfl))

end ScenarioShapesB
theorem textBlobLoop_some {R : Type} [LinearOrderedField R] (x_count_max y_count_max fl : Nat)
    (height : R) (hx : 1 ≤ x_count_max) (hy : 1 ≤ y_count_max) (fuel remaining cy : Nat)
    (runs : List (GlyphRun R)) (h : remaining ≤ fuel) :
    ∃ blob, textBlobLoop x_count_max y_count_max fl height fuel remaining cy runs = some blob := by
  induction fuel generalizing remaining cy runs with
  | zero =>
    have h0 : remaining = 0 := by omega
    subst h0
    exact ⟨runs, by simp [textBlobLoop]⟩
  | succ fuel ih =>
    unfold textBlobLoop
    by_cases hr : remaining > 0
    · have hm : checkedMod cy y_count_max = some (cy % y_count_max) := by
        simp [checkedMod]
        omega
      simp only [hr, if_true, hm, Option.bind_eq_bind, Option.some_bind]
      exact ih _ _ _ (by omega)
    · exact ⟨runs, by simp [hr]⟩

theorem floatToSizeT_div {R : Type} [LinearOrderedField R] [FloorRing R] (w : R) (h1 : 1 ≤ w)
    (h2 : w ≤ 1024) :
    ∃ n : Nat, 1 ≤ n ∧ floatToSizeT (((kFixedCanvasSize : Nat) : R) / w) = some n := by
  have hw : 0 < w := lt_of_lt_of_le one_pos h1
  have hc : ((kFixedCanvasSize : Nat) : R) = 1024 := by norm_num [kFixedCanvasSize]
  have hge : (1 : R) ≤ ((kFixedCanvasSize : Nat) : R) / w := by
    rw [hc, le_div_iff₀ hw]
    linarith
  have hle : ((kFixedCanvasSize : Nat) : R) / w ≤ 1024 := by
    rw [hc, div_le_iff₀ hw]
    nlinarith
  refine ⟨Nat.floor (((kFixedCanvasSize : Nat) : R) / w), ?_, ?_⟩
  · exact Nat.le_floor (by simpa using hge)
  · unfold floatToSizeT
    rw [if_pos]
    constructor
    · linarith
    · have : (1024 : R) < 2 ^ 64 := by norm_num
      linarith

theorem BM_DrawTextBlob_shape {R : Type} [LinearOrderedField R] [FloorRing R]
    (range0 k : Nat) (backendName : String) (bounds : SkRect R)
    (hw : 1 ≤ bounds.width ∧ bounds.width ≤ 1024)
    (hh : 1 ≤ bounds.height ∧ bounds.height ≤ 1024) :
    ∃ P : List (Call R), allPrologue P ∧
      BM_DrawTextBlob range0 k backendName bounds =
        some (P ++ [Call.Build] ++ timedLoop k ++
          [Call.Snapshot (backendName ++ "-DrawTextBlob-" ++
            toString (range0 * "This text has exactly 32 glyphs.".length) ++ ".png")]) := by
  obtain ⟨x, hx1, hx⟩ := floatToSizeT_div bounds.width hw.1 hw.2
  obtain ⟨y, hy1, hy⟩ := floatToSizeT_div bounds.height hh.1 hh.2
  have hw0 : bounds.width ≠ 0 := by
    have := hw.1
    intro h0
    rw [h0] at this
    linarith
  have hh0 : bounds.height ≠ 0 := by
    have := hh.1
    intro h0
    rw [h0] at this
    linarith
  obtain ⟨blob, hb⟩ := textBlobLoop_some x y "This text has exactly 32 glyphs.".length
    bounds.height hx1 hy1 range0 range0 0 [] (le_refl _)
  unfold BM_DrawTextBlob
  simp only [hw0, hh0, if_false, hx, hy, hb, Option.bind_eq_bind, Option.some_bind,
    Option.pure_def]
  refine ⟨_, ?_, rfl⟩
  intro c hc
  simp at hc
  rcases hc with rfl | rfl | rfl <;> rfl
/-- C18: every benchmark scenario that runs to completion makes its
draw-recording calls first, then exactly one `Build`, then `k` times `RenderTo`
directly followed by `flushAndSubmit(true)`, then one `Snapshot`; the scenarios
complete for every input, except that `BM_DrawLine` needs `range0 >= 1`,
`BM_DrawRRect` one of its three handled types and `BM_DrawTextBlob` text bounds
between 1 and 1024 in width and height. -/
theorem scenarios_call_order {R : Type} [LinearOrderedField R] [FloorRing R] (m : FloatMath R)
    (to_string : R → String) (range0 k : Nat) (backendName : String) :
    (1 ≤ range0 →
      ∃ t : List (Call R), BM_DrawLine range0 k backendName = some t ∧ wellOrdered k t) ∧
    (∃ t : List (Call R), BM_DrawRect range0 k backendName = some t ∧ wellOrdered k t) ∧
    (∃ t : List (Call R), BM_DrawOval range0 k backendName = some t ∧ wellOrdered k t) ∧
    (∃ t : List (Call R), BM_DrawCircle range0 k backendName = some t ∧ wellOrdered k t) ∧
    (∀ type : SkRRectType,
      type = SkRRectType.kSimple_Type ∨ type = SkRRectType.kNinePatch_Type ∨
        type = SkRRectType.kComplex_Type →
      ∃ t : List (Call R), BM_DrawRRect range0 k backendName type = some t ∧ wellOrdered k t) ∧
    (∃ t : List (Call R), BM_DrawArc range0 k backendName = some t ∧ wellOrdered k t) ∧
    (∀ type : Verb,
      ∃ t : List (Call R), BM_DrawPath m range0 k backendName type = some t ∧
        wellOrdered k t) ∧
    (∀ mode : VertexMode,
      ∃ t : List (Call R), BM_DrawVertices m range0 k backendName mode = some t ∧
        wellOrdered k t) ∧
    (∀ mode : PointMode,
      ∃ t : List (Call R), BM_DrawPoints range0 k backendName mode = some t ∧
        wellOrdered k t) ∧
    (∀ upload_bitmap : Bool,
      ∃ t : List (Call R), BM_DrawImage range0 k backendName upload_bitmap = some t ∧
        wellOrdered k t) ∧
    (∀ (constraint : SrcRectConstraint) (upload_bitmap : Bool),
      ∃ t : List (Call R),
        BM_DrawImageRect range0 k backendName constraint upload_bitmap = some t ∧
        wellOrdered k t) ∧
    (∀ (filter : SkFilterMode) (upload_bitmap : Bool),
      ∃ t : List (Call R),
        BM_DrawImageNine range0 k backendName filter upload_bitmap = some t ∧
        wellOrdered k t) ∧
    (∀ bounds : SkRect R,
      1 ≤ bounds.width ∧ bounds.width ≤ 1024 → 1 ≤ bounds.height ∧ bounds.height ≤ 1024 →
      ∃ t : List (Call R), BM_DrawTextBlob range0 k backendName bounds = some t ∧
        wellOrdered k t) ∧
    (∀ (transparent_occluder : Bool) (type : Verb),
      ∃ t : List (Call R),
        BM_DrawShadow m to_string range0 k backendName transparent_occluder type = some t ∧
        wellOrdered k t) := by
  have key : ∀ (r : Option (List (Call R))) (f : String),
      (∃ P : List (Call R), allPrologue P ∧
        r = some (P ++ [Call.Build] ++ timedLoop k ++ [Call.Snapshot f])) →
      ∃ t : List (Call R), r = some t ∧ wellOrdered k t := by
    rintro r f ⟨P, hP, rfl⟩
    exact ⟨_, rfl, wellOrdered_of_shape k P f hP⟩
  refine ⟨fun h => key _ _ (BM_DrawLine_shape range0 k backendName h),
    key _ _ (BM_DrawRect_shape range0 k backendName),
    key _ _ (BM_DrawOval_shape range0 k backendName),
    key _ _ (BM_DrawCircle_shape range0 k backendName),
    fun type h => key _ _ (BM_DrawRRect_shape range0 k backendName type h),
    key _ _ (BM_DrawArc_shape range0 k backendName),
    fun type => key _ _ (BM_DrawPath_shape m range0 k backendName type),
    fun mode => key _ _ (BM_DrawVertices_shape m range0 k backendName mode),
    fun mode => key _ _ (BM_DrawPoints_shape range0 k backendName mode),
    fun u => key _ _ (BM_DrawImage_shape range0 k backendName u),
    fun c u => key _ _ (BM_DrawImageRect_shape range0 k backendName c u),
    fun f u => key _ _ (BM_DrawImageNine_shape range0 k backendName f u),
    fun b hw hh => key _ _ (BM_DrawTextBlob_shape range0 k backendName b hw hh),
    fun tr type => key _ _ (BM_DrawShadow_shape m to_string range0 k backendName tr type)⟩

/-- Witness for C18: `BM_DrawLine`, `BM_DrawRRect` and `BM_DrawTextBlob` with
argument 16, three timed iterations and text bounds 200 x 12. -/
theorem scenarios_call_order_witness :
    (∃ t : List (Call ℝ), BM_DrawLine 16 3 "Software" = some t ∧ wellOrdered 3 t) ∧
    (∃ t : List (Call ℝ),
      BM_DrawRRect 16 3 "Software" SkRRectType.kComplex_Type = some t ∧ wellOrdered 3 t) ∧
    (∃ t : List (Call ℝ),
      BM_DrawTextBlob 16 3 "Software" ⟨0, 0, 200, 12⟩ = some t ∧ wellOrdered 3 t) :=
  ⟨(scenarios_call_order ⟨Real.cos, Real.sin, Real.pi⟩ (fun _ => "") 16 3 "Software").1
      (by decide),
   (scenarios_call_order ⟨Real.cos, Real.sin, Real.pi⟩ (fun _ => "") 16 3
      "Software").2.2.2.2.1 SkRRectType.kComplex_Type (Or.inr (Or.inr rfl)),
   (scenarios_call_order ⟨Real.cos, Real.sin, Real.pi⟩ (fun _ => "") 16 3
      "Software").2.2.2.2.2.2.2.2.2.2.2.2.1 ⟨0, 0, 200, 12⟩
      (by norm_num [SkRect.width]) (by norm_num [SkRect.height])⟩
/-! ## The rect walk of `BM_DrawRect` -/

theorem foldl_fst_append {α β σ : Type} (step : List α × σ → β → List α × σ)
    (h : ∀ s b, ∃ E, (step s b).1 = s.1 ++ E) (l : List β) (init : List α × σ) :
    ∃ E, (l.foldl step init).1 = init.1 ++ E := by
  induction l generalizing init with
  | nil => exact ⟨[], by simp⟩
  | cons b l ih =>
    obtain ⟨E1, h1⟩ := h init b
    obtain ⟨E2, h2⟩ := ih (step init b)
    exact ⟨E1 ++ E2, by rw [List.foldl_cons, h2, h1, List.append_assoc]⟩

theorem BM_DrawRect_eq {R : Type} [LinearOrderedField R] (range0 k : Nat)
    (backendName : String) :
    (BM_DrawRect range0 k backendName : Option (List (Call R))) =
      some (((forRange 0 kRectsToDraw).foldl (drawRectStep (range0 * 2))
        ([Call.InitializeSurface (range0 * 2) (range0 * 2)],
          SkRect.MakeLTRB 0 0 (range0 : R) (range0 : R))).1 ++ [Call.Build] ++ timedLoop k ++
        [Call.Snapshot (backendName ++ "-DrawRect-" ++ toString range0 ++ ".png")]) := rfl

theorem forRange_rects_split :
    forRange 0 kRectsToDraw = [0, 1, 2, 3] ++ forRange 4 kRectsToDraw := by
  have e : List.range' 0 5000 = List.range' 0 4 ++ List.range' 4 4996 := by
    rw [List.range'_append_1]
  have e4 : List.range' 0 4 = [0, 1, 2, 3] := rfl
  show List.range' 0 5000 = [0, 1, 2, 3] ++ List.range' 4 4996
  rw [e, e4]

theorem drawRect_first_steps :
    [0, 1, 2, 3].foldl (drawRectStep (1 * 2))
      ([Call.InitializeSurface (1 * 2) (1 * 2)],
        (SkRect.MakeLTRB 0 0 ((1 : Nat) : ℚ) ((1 : Nat) : ℚ))) =
    ([Call.InitializeSurface 2 2,
      Call.record (DrawOp.drawRect ⟨0, 0, 1, 1⟩),
      Call.record (DrawOp.drawRect ⟨1 / 2, 1 / 2, 3 / 2, 3 / 2⟩),
      Call.record (DrawOp.drawRect ⟨1, 1, 2, 2⟩),
      Call.record (DrawOp.drawRect
        ⟨2 ^ 64 - 1 / 2, 2 ^ 64 - 1 / 2, 2 ^ 64 + 1 / 2, 2 ^ 64 + 1 / 2⟩)],
      ⟨2 ^ 65 - 2, 2 ^ 65 - 2, 2 ^ 65 - 1, 2 ^ 65 - 1⟩) := by
  norm_num [drawRectStep, SkRect.offset, SkRect.MakeLTRB, SkRect.right, SkRect.bottom, negSizeT]

/-- C12, evaluated at side length 1: `BM_DrawRect` completes, and the fourth
rect it records (the call after the surface set-up and three rects) lies far
outside the canvas `[0, 2] x [0, 2]`: the wrap adds the `size_t` value
`-canvas_size = 2^64 - 2` instead of subtracting `canvas_size`, so every edge
of that rect is within 1 of `2^64` (in exact arithmetic the rect is
`(2^64 - 0.5, 2^64 - 0.5, 2^64 + 0.5, 2^64 + 0.5)`; in single precision every
edge rounds to `2^64`). -/
theorem BM_DrawRect_fourth_rect_off_canvas :
    ∃ (t : List (Call ℚ)) (rect : SkRect ℚ), BM_DrawRect 1 1 "Software" = some t ∧
      t[4]? = some (Call.record (DrawOp.drawRect rect)) ∧
      negSizeT (1 * 2) = 2 ^ 64 - 2 ∧
      (2 ^ 64 - 1 ≤ rect.fLeft ∧ rect.fLeft ≤ 2 ^ 64 + 1) ∧
      (2 ^ 64 - 1 ≤ rect.fTop ∧ rect.fTop ≤ 2 ^ 64 + 1) ∧
      (2 ^ 64 - 1 ≤ rect.fRight ∧ rect.fRight ≤ 2 ^ 64 + 1) ∧
      (2 ^ 64 - 1 ≤ rect.fBottom ∧ rect.fBottom ≤ 2 ^ 64 + 1) ∧
      ¬ (rect.fRight ≤ 2 * 1) ∧ ¬ (rect.fBottom ≤ 2 * 1) := by
  refine ⟨_, ⟨2 ^ 64 - 1 / 2, 2 ^ 64 - 1 / 2, 2 ^ 64 + 1 / 2, 2 ^ 64 + 1 / 2⟩,
    BM_DrawRect_eq 1 1 "Software", ?_, by norm_num [negSizeT], by norm_num, by norm_num,
    by norm_num, by norm_num, by norm_num, by norm_num⟩
  rw [forRange_rects_split, List.foldl_append, drawRect_first_steps]
  obtain ⟨E, hE⟩ := foldl_fst_append (drawRectStep (1 * 2) : List (Call ℚ) × SkRect ℚ → Nat → _)
    (fun s _ => ⟨_, rfl⟩) (forRange 4 kRectsToDraw)
    ([Call.InitializeSurface 2 2,
      Call.record (DrawOp.drawRect ⟨0, 0, 1, 1⟩),
      Call.record (DrawOp.drawRect ⟨1 / 2, 1 / 2, 3 / 2, 3 / 2⟩),
      Call.record (DrawOp.drawRect ⟨1, 1, 2, 2⟩),
      Call.record (DrawOp.drawRect
        ⟨2 ^ 64 - 1 / 2, 2 ^ 64 - 1 / 2, 2 ^ 64 + 1 / 2, 2 ^ 64 + 1 / 2⟩)],
      ⟨2 ^ 65 - 2, 2 ^ 65 - 2, 2 ^ 65 - 1, 2 ^ 65 - 1⟩)
  rw [hE]
  simp
theorem drawRect_fold_unwrapped {R : Type} [LinearOrderedField R] (L n : Nat)
    (hn : n ≤ 2 * L) :
    (List.range n).foldl (drawRectStep (L * 2))
      ([Call.InitializeSurface (L * 2) (L * 2)], SkRect.MakeLTRB 0 0 (L : R) (L : R)) =
    (Call.InitializeSurface (L * 2) (L * 2) ::
      (List.range n).map (fun i => Call.record (DrawOp.drawRect (unwrappedRect L i))),
      unwrappedRect L n) := by
  induction n with
  | zero => simp [unwrappedRect, SkRect.MakeLTRB]
  | succ n ih =>
    rw [List.range_succ, List.foldl_append, ih (by omega), List.foldl_cons, List.foldl_nil]
    have h1 : ((n : R) + 1) / 2 ≤ (L : R) := by
      have : ((n + 1 : ℕ) : R) ≤ ((2 * L : ℕ) : R) := by exact_mod_cast hn
      push_cast at this
      linarith
    have hr : ¬ ((L : R) + (n : R) / 2 + 0.5 > ((L * 2 : ℕ) : R)) := by
      push_cast
      norm_num
      linarith
    simp only [drawRectStep, unwrappedRect, SkRect.offset, SkRect.right, SkRect.bottom, hr,
      if_false, List.map_append, List.map_cons, List.map_nil, List.cons_append]
    refine Prod.ext rfl ?_
    simp only
    push_cast
    norm_num
    refine ⟨?_, ?_⟩ <;> ring

theorem forRange_rects_split_at (i : Nat) (hi : i < 5000) :
    forRange 0 kRectsToDraw = List.range i ++ ([i] ++ forRange (i + 1) kRectsToDraw) := by
  have e : List.range' 0 5000 = List.range' 0 (i + 1) ++ List.range' (i + 1) (5000 - (i + 1)) := by
    have h := List.range'_append_1 0 (i + 1) (5000 - (i + 1))
    rw [Nat.zero_add] at h
    rw [h]
    congr 1
    omega
  show List.range' 0 5000 = _
  rw [e, ← List.range_eq_range', List.range_succ, List.append_assoc]
  rfl

/-- The rects of `BM_DrawRect` before the first wrap: for every side length
`L >= 1` and every `i < 5000` with `i <= 2 * L` (no wrap has been triggered
yet), `BM_DrawRect` completes and its `i`-th recorded rect is the first rect
`(0, 0, L, L)` moved by `i` times `(0.5, 0.5)`, which lies within
`[0, 2L] x [0, 2L]`. -/
theorem BM_DrawRect_before_wrap {R : Type} [LinearOrderedField R] (L k : Nat)
    (backendName : String) (i : Nat) (_hL : 1 ≤ L) (hi : i < 5000) (hi2 : i ≤ 2 * L) :
    ∃ t : List (Call R), BM_DrawRect L k backendName = some t ∧
      t[i + 1]? = some (Call.record (DrawOp.drawRect
        ⟨(i : R) / 2, (i : R) / 2, (L : R) + (i : R) / 2, (L : R) + (i : R) / 2⟩)) ∧
      (0 : R) ≤ (i : R) / 2 ∧ (L : R) + (i : R) / 2 ≤ 2 * (L : R) := by
  refine ⟨_, BM_DrawRect_eq L k backendName, ?_, by positivity, ?_⟩
  · rw [forRange_rects_split_at i hi, List.foldl_append, drawRect_fold_unwrapped L i hi2,
      List.foldl_append, List.foldl_cons, List.foldl_nil]
    obtain ⟨E, hE⟩ := foldl_fst_append (drawRectStep (L * 2) : List (Call R) × SkRect R → Nat → _)
      (fun s _ => ⟨_, rfl⟩) (forRange (i + 1) kRectsToDraw)
      (drawRectStep (L * 2) (Call.InitializeSurface (L * 2) (L * 2) ::
        (List.range i).map (fun i => Call.record (DrawOp.drawRect (unwrappedRect L i))),
        unwrappedRect L i) i)
    rw [hE]
    have hlen : (Call.InitializeSurface (L * 2) (L * 2) ::
        (List.range i).map (fun i => (Call.record (DrawOp.drawRect (unwrappedRect L i)) :
          Call R))).length = i + 1 := by simp
    simp only [drawRectStep, List.append_assoc]
    rw [List.getElem?_append_right (by rw [hlen]), hlen]
    simp [unwrappedRect]
  · have : ((i : ℕ) : R) ≤ ((2 * L : ℕ) : R) := by exact_mod_cast hi2
    push_cast at this
    linarith

/-- An instance of the rects before the first wrap: the third rect for side length 1. -/
theorem BM_DrawRect_before_wrap_witness :
    ∃ t : List (Call ℚ), BM_DrawRect 1 1 "Software" = some t ∧
      t[2 + 1]? = some (Call.record (DrawOp.drawRect
        ⟨((2 : ℕ) : ℚ) / 2, ((2 : ℕ) : ℚ) / 2, ((1 : ℕ) : ℚ) + ((2 : ℕ) : ℚ) / 2,
          ((1 : ℕ) : ℚ) + ((2 : ℕ) : ℚ) / 2⟩)) ∧
      (0 : ℚ) ≤ ((2 : ℕ) : ℚ) / 2 ∧ ((1 : ℕ) : ℚ) + ((2 : ℕ) : ℚ) / 2 ≤ 2 * ((1 : ℕ) : ℚ) :=
  BM_DrawRect_before_wrap 1 1 "Software" 2 (by decide) (by decide) (by decide)
/-! ## Snapshot file names -/

theorem getLast?_of_shape {R : Type} (P L : List (Call R)) (c : Call R) :
    (P ++ [Call.Build] ++ L ++ [c]).getLast? = some c := by
  rw [List.getLast?_append]
  rfl

/-- C16, the code evaluated: the last call of `BM_DrawVertices` is a `Snapshot`
whose file name is `{backendName}-DrawVertices-{disc count}-{mode name}.png`,
the disc count before the mode name; for backend `Software`, 16 discs and
triangle-strip mode it is `Software-DrawVertices-16-TriangleStrip.png`. -/
theorem BM_DrawVertices_filename {R : Type} [LinearOrderedField R] (m : FloatMath R)
    (disc_count k : Nat) (backendName : String) (mode : VertexMode) :
    (∃ t : List (Call R), BM_DrawVertices m disc_count k backendName mode = some t ∧
      t.getLast? = some (Call.Snapshot (backendName ++ "-DrawVertices-" ++
        toString disc_count ++ "-" ++ VertexModeToString mode ++ ".png"))) ∧
    "Software" ++ "-DrawVertices-" ++ toString (16 : Nat) ++ "-" ++
        VertexModeToString VertexMode.kTriangleStrip_VertexMode ++ ".png" =
      "Software-DrawVertices-16-TriangleStrip.png" := by
  refine ⟨?_, by decide⟩
  obtain ⟨P, -, hP⟩ := BM_DrawVertices_shape m disc_count k backendName mode
  exact ⟨_, hP, getLast?_of_shape _ _ _⟩

/-- C17, the code evaluated: the last call of `BM_DrawShadow` is a `Snapshot`
whose file name ends in the elevation string followed by `-.png`; for backend
`Software`, line segments, a transparent occluder and the elevation printed as
`4.000000` it is `Software-DrawShadow-Lines-Transparent-4.000000-.png`. -/
theorem BM_DrawShadow_filename {R : Type} [LinearOrderedField R] (m : FloatMath R)
    (to_string : R → String) (range0 k : Nat) (backendName : String)
    (transparent_occluder : Bool) (type : Verb) :
    (∃ t : List (Call R),
      BM_DrawShadow m to_string range0 k backendName transparent_occluder type = some t ∧
      t.getLast? = some (Call.Snapshot (backendName ++ "-DrawShadow-" ++ VerbToString type ++
        "-" ++ (if transparent_occluder then "Transparent-" else "Opaque-") ++
        to_string (range0 : R) ++ "-" ++ ".png"))) ∧
    "Software" ++ "-DrawShadow-" ++ VerbToString Verb.kLine_Verb ++ "-" ++
        (if true then "Transparent-" else "Opaque-") ++ "4.000000" ++ "-" ++ ".png" =
      "Software-DrawShadow-Lines-Transparent-4.000000-.png" := by
  refine ⟨?_, by decide⟩
  obtain ⟨P, -, hP⟩ :=
    BM_DrawShadow_shape m to_string range0 k backendName transparent_occluder type
  exact ⟨_, hP, getLast?_of_shape _ _ _⟩

/-! ## Bounds kept by the builder -/

theorem builder_fold {R : Type} [LinearOrder R] (opBounds : DrawOp R → Bounds R)
    (ops : List (DrawOp R)) (b : DisplayListBuilder R) :
    (ops.foldl (DisplayListBuilder.append opBounds) b).ops = b.ops ++ ops ∧
    (ops.foldl (DisplayListBuilder.append opBounds) b).bounds =
      (ops.map opBounds).foldl Bounds.union b.bounds := by
  induction ops generalizing b with
  | nil => simp
  | cons op ops ih =>
    obtain ⟨h1, h2⟩ := ih (DisplayListBuilder.append opBounds b op)
    rw [List.foldl_cons, h1, h2]
    simp [DisplayListBuilder.append]

/-- C19: for every sequence of operations appended to a new builder and every
per-operation bounds rule, the list returned by `Build` contains exactly these
operations in order, and its aggregate bounds equal the union of the bounds of
the operations it contains, each computed from that operation alone. -/
theorem Build_bounds_consistent {R : Type} [LinearOrder R] (opBounds : DrawOp R → Bounds R)
    (ops : List (DrawOp R)) :
    (DisplayListBuilder.Build
      (ops.foldl (DisplayListBuilder.append opBounds) DisplayListBuilder.empty)).ops = ops ∧
    (DisplayListBuilder.Build
      (ops.foldl (DisplayListBuilder.append opBounds) DisplayListBuilder.empty)).bounds =
      ((DisplayListBuilder.Build
        (ops.foldl (DisplayListBuilder.append opBounds) DisplayListBuilder.empty)).ops.map
          opBounds).foldl Bounds.union none := by
  obtain ⟨h1, h2⟩ := builder_fold opBounds ops DisplayListBuilder.empty
  simp only [DisplayListBuilder.Build]
  rw [h1, h2]
  simp [DisplayListBuilder.empty]

/-! ## The path of `BM_DrawPath` -/

theorem contourFor_verbs {R : Type} [Field R] (m : FloatMath R) (type : Verb)
    (htype : type = Verb.kLine_Verb ∨ type = Verb.kQuad_Verb ∨ type = Verb.kConic_Verb ∨
      type = Verb.kCubic_Verb) (sides : Nat) (center : SkPoint R) (radius : R) :
    (contourFor m type sides center radius).map PathElem.verb =
      Verb.kMove_Verb :: (List.replicate sides type ++ [Verb.kClose_Verb]) := by
  rcases htype with rfl | rfl | rfl | rfl <;> exact contour_verbs _ _ _ _ (fun _ => rfl)

theorem flatten_contours_counts {R : Type} [Field R] (m : FloatMath R) (type : Verb)
    (htype : type = Verb.kLine_Verb ∨ type = Verb.kQuad_Verb ∨ type = Verb.kConic_Verb ∨
      type = Verb.kCubic_Verb) (sides : Nat) (radius : R) (centers : List (SkPoint R)) :
    SkPath.countSegments
      (centers.map (fun p => contourFor m type sides p radius)).flatten =
        centers.length * sides ∧
    SkPath.countVerbs
      (centers.map (fun p => contourFor m type sides p radius)).flatten =
        centers.length * (sides + 2) := by
  constructor
  · simp only [SkPath.countSegments, List.countP_flatten, List.map_map]
    exact sum_map_eq_mul _ sides _ (fun p _ => (contourFor_counts m type htype sides p radius).1)
  · simp only [SkPath.countVerbs, List.length_flatten, List.map_map]
    exact sum_map_eq_mul _ (sides + 2) _
      (fun p _ => (contourFor_counts m type htype sides p radius).2)

/-- C21: for every `N` and each of the four segment verbs, `BM_DrawPath` records
one path, the concatenation of `N` contours, each made of one move, exactly 20
segments of the requested verb and one close; the path has `20 * N` segments
and `22 * N` verbs, and `22 * N` is the value reported as `VerbCount`. -/
theorem BM_DrawPath_polygons {R : Type} [LinearOrderedField R] (m : FloatMath R) (N k : Nat)
    (backendName : String) (type : Verb)
    (htype : type = Verb.kLine_Verb ∨ type = Verb.kQuad_Verb ∨ type = Verb.kConic_Verb ∨
      type = Verb.kCubic_Verb) :
    ∃ contours : List (SkPath R),
      contours.length = N ∧
      (∀ c ∈ contours, c.map PathElem.verb =
        Verb.kMove_Verb :: (List.replicate 20 type ++ [Verb.kClose_Verb])) ∧
      SkPath.countSegments contours.flatten = 20 * N ∧
      SkPath.countVerbs contours.flatten = 22 * N ∧
      BM_DrawPath m N k backendName type =
        some ([Call.InitializeSurface 1024 1024, Call.SetComplexityN N,
          Call.counter "VerbCount" (22 * N),
          Call.record (DrawOp.drawPath contours.flatten), Call.Build] ++ timedLoop k ++
          [Call.Snapshot (backendName ++ "-DrawPath-" ++ VerbToString type ++ "-" ++
            toString N ++ ".png")]) := by
  have hc := flatten_contours_counts m type htype 20 (((kFixedCanvasSize : Nat) : R) * 0.25)
    (GetPolygonPoints m N
      (SkPoint.Make (((kFixedCanvasSize : Nat) : R) / 2.0) (((kFixedCanvasSize : Nat) : R) / 2.0))
      (((kFixedCanvasSize : Nat) : R) * 0.25 / 2.0))
  rw [GetPolygonPoints_length] at hc
  refine ⟨(GetPolygonPoints m N
      (SkPoint.Make (((kFixedCanvasSize : Nat) : R) / 2.0) (((kFixedCanvasSize : Nat) : R) / 2.0))
      (((kFixedCanvasSize : Nat) : R) * 0.25 / 2.0)).map
      (fun p => contourFor m type 20 p (((kFixedCanvasSize : Nat) : R) * 0.25)), ?_, ?_, ?_, ?_, ?_⟩
  · rw [List.length_map, GetPolygonPoints_length]
  · intro c hc'
    obtain ⟨p, -, rfl⟩ := List.mem_map.1 hc'
    exact contourFor_verbs m type htype 20 p _
  · rw [hc.1, Nat.mul_comm]
  · rw [hc.2, Nat.mul_comm]
  · unfold BM_DrawPath
    simp only [MultiplyPath_eq_flatten m [] type _ 20 N (by decide), Option.bind_eq_bind,
      Option.some_bind, Option.pure_def, List.nil_append, hc.2]
    rw [Nat.mul_comm N 22]
    rfl

/-- Witness for C21: three quadratic polygons. -/
theorem BM_DrawPath_polygons_witness :
    ∃ contours : List (SkPath ℝ),
      contours.length = 3 ∧
      (∀ c ∈ contours, c.map PathElem.verb =
        Verb.kMove_Verb :: (List.replicate 20 Verb.kQuad_Verb ++ [Verb.kClose_Verb])) ∧
      SkPath.countSegments contours.flatten = 20 * 3 ∧
      SkPath.countVerbs contours.flatten = 22 * 3 ∧
      BM_DrawPath ⟨Real.cos, Real.sin, Real.pi⟩ 3 1 "Software" Verb.kQuad_Verb =
        some ([Call.InitializeSurface 1024 1024, Call.SetComplexityN 3,
          Call.counter "VerbCount" (22 * 3),
          Call.record (DrawOp.drawPath contours.flatten), Call.Build] ++ timedLoop 1 ++
          [Call.Snapshot ("Software" ++ "-DrawPath-" ++ VerbToString Verb.kQuad_Verb ++ "-" ++
            toString 3 ++ ".png")]) :=
  BM_DrawPath_polygons ⟨Real.cos, Real.sin, Real.pi⟩ 3 1 "Software" Verb.kQuad_Verb
    (Or.inr (Or.inl rfl))
/-! ## The circle around the multiplied path -/

theorem mem_contour_elem {R : Type} (sides : Nat) (p0 : SkPoint R) (seg : Nat → PathElem R)
    (e : PathElem R) (he : e ∈ contour sides p0 seg) :
    e = PathElem.move p0 ∨ (∃ i, e = seg i) ∨ e = PathElem.close := by
  simp only [contour, List.mem_cons, List.mem_append, List.mem_map, List.mem_singleton,
    List.not_mem_nil, or_false] at he
  rcases he with h | ⟨i, -, h⟩ | h
  · exact Or.inl h
  · exact Or.inr (Or.inl ⟨i, h.symm⟩)
  · exact Or.inr (Or.inr h)

theorem contourFor_point {R : Type} [Field R] (m : FloatMath R) (type : Verb) (sides : Nat)
    (q : SkPoint R) (r : R) (e : PathElem R) (he : e ∈ contourFor m type sides q r)
    (p : SkPoint R) (hp : p ∈ e.points) :
    ∃ (n j : Nat) (ρ : R), p = polygonPoint m n q ρ j ∧
      (ρ = r ∨ ρ = r * 0.8 ∨ (type = Verb.kCubic_Verb ∧ ρ = r * 1.2)) := by
  cases type <;> simp only [contourFor, List.not_mem_nil] at he
  all_goals
    rcases mem_contour_elem _ _ _ e he with rfl | ⟨i, rfl⟩ | rfl
    · simp only [PathElem.points, List.mem_singleton] at hp
      exact ⟨_, _, _, hp, Or.inl rfl⟩
    · first
      | (simp only [lineSeg, PathElem.points, List.mem_singleton] at hp
         exact ⟨_, _, _, hp, Or.inl rfl⟩)
      | (simp only [quadSeg, PathElem.points, List.mem_cons, List.mem_singleton,
           List.not_mem_nil, or_false] at hp
         rcases hp with hp | hp
         · exact ⟨_, _, _, hp, Or.inr (Or.inl rfl)⟩
         · exact ⟨_, _, _, hp, Or.inl rfl⟩)
      | (simp only [conicSeg, PathElem.points, List.mem_cons, List.mem_singleton,
           List.not_mem_nil, or_false] at hp
         rcases hp with hp | hp
         · exact ⟨_, _, _, hp, Or.inr (Or.inl rfl)⟩
         · exact ⟨_, _, _, hp, Or.inl rfl⟩)
      | (simp only [cubicSeg, PathElem.points, List.mem_cons, List.mem_singleton,
           List.not_mem_nil, or_false] at hp
         rcases hp with hp | hp | hp
         · exact ⟨_, _, _, hp, Or.inr (Or.inl rfl)⟩
         · exact ⟨_, _, _, hp, Or.inr (Or.inr ⟨rfl, rfl⟩)⟩
         · exact ⟨_, _, _, hp, Or.inl rfl⟩)
    · simp [PathElem.points] at hp

theorem cos_mul_cos_add_sin_mul_sin_le_one (a b : ℝ) :
    Real.cos a * Real.cos b + Real.sin a * Real.sin b ≤ 1 := by
  nlinarith [sq_nonneg (Real.cos a - Real.cos b), sq_nonneg (Real.sin a - Real.sin b),
    Real.sin_sq_add_cos_sq a, Real.sin_sq_add_cos_sq b]

theorem two_step_dist (c : SkPoint ℝ) (a b s t : ℝ) (hs : 0 ≤ s) (ht : 0 ≤ t) :
    Real.sqrt ((c.fX + s * Real.cos a + t * Real.cos b - c.fX) ^ 2 +
      (c.fY + s * Real.sin a + t * Real.sin b - c.fY) ^ 2) ≤ s + t := by
  rw [Real.sqrt_le_iff]
  refine ⟨add_nonneg hs ht, ?_⟩
  have e : (c.fX + s * Real.cos a + t * Real.cos b - c.fX) ^ 2 +
      (c.fY + s * Real.sin a + t * Real.sin b - c.fY) ^ 2 =
      s ^ 2 * (Real.sin a ^ 2 + Real.cos a ^ 2) + t ^ 2 * (Real.sin b ^ 2 + Real.cos b ^ 2) +
        2 * (s * t) * (Real.cos a * Real.cos b + Real.sin a * Real.sin b) := by ring
  rw [e, Real.sin_sq_add_cos_sq, Real.sin_sq_add_cos_sq]
  nlinarith [mul_nonneg (mul_nonneg hs ht)
    (sub_nonneg.2 (cos_mul_cos_add_sin_mul_sin_le_one a b))]

theorem polygonPoint_twice_dist (c : SkPoint ℝ) (r ρ : ℝ) (k j n i : Nat) (hr : 0 ≤ r)
    (hρ : 0 ≤ ρ) :
    Real.sqrt
      (((polygonPoint ⟨Real.cos, Real.sin, Real.pi⟩ n
          (polygonPoint ⟨Real.cos, Real.sin, Real.pi⟩ k c (r / 2.0) j) ρ i).fX - c.fX) ^ 2 +
       ((polygonPoint ⟨Real.cos, Real.sin, Real.pi⟩ n
          (polygonPoint ⟨Real.cos, Real.sin, Real.pi⟩ k c (r / 2.0) j) ρ i).fY - c.fY) ^ 2) ≤
      r / 2 + ρ := by
  have h2 : r / (2.0 : ℝ) = r / 2 := by norm_num
  simp only [polygonPoint, h2]
  exact two_step_dist c _ _ (r / 2) ρ (by linarith) hρ

/-- C22: for `radius >= 0` and `sides >= 1`, every point of the path
`MultiplyPath` produces on an empty path (segment end points and control points
alike) is at distance at most `1.5 * radius` from `center` when the type is
Line, Quad or Conic, and at most `1.7 * radius` when it is Cubic. -/
theorem MultiplyPath_within_circle (type : Verb) (sides k : Nat) (c : SkPoint ℝ) (r : ℝ)
    (_htype : type = Verb.kLine_Verb ∨ type = Verb.kQuad_Verb ∨ type = Verb.kConic_Verb ∨
      type = Verb.kCubic_Verb) (hs : 1 ≤ sides) (hr : 0 ≤ r) :
    ∃ path : SkPath ℝ,
      MultiplyPath ⟨Real.cos, Real.sin, Real.pi⟩ [] type c sides k r = some path ∧
      ∀ p ∈ path.points,
        (type ≠ Verb.kCubic_Verb →
          Real.sqrt ((p.fX - c.fX) ^ 2 + (p.fY - c.fY) ^ 2) ≤ 1.5 * r) ∧
        (type = Verb.kCubic_Verb →
          Real.sqrt ((p.fX - c.fX) ^ 2 + (p.fY - c.fY) ^ 2) ≤ 1.7 * r) := by
  refine ⟨_, MultiplyPath_eq_flatten _ [] type c sides k hs r, ?_⟩
  intro p hp
  simp only [SkPath.points, List.nil_append, List.mem_flatMap, List.mem_flatten,
    List.mem_map] at hp
  obtain ⟨e, ⟨_, ⟨q, hq, rfl⟩, he⟩, hpe⟩ := hp
  obtain ⟨j, hj⟩ := List.mem_iff_getElem?.1 hq
  have hjk : j < k := by
    have := (List.getElem?_eq_some_iff.1 hj).1
    rwa [GetPolygonPoints_length] at this
  rw [GetPolygonPoints_getElem? _ k c _ j hjk] at hj
  injection hj with hj
  subst hj
  obtain ⟨n, i, ρ, rfl, hρ⟩ := contourFor_point _ type sides _ r e he p hpe
  constructor
  · intro hne
    have hρ' : 0 ≤ ρ ∧ ρ ≤ r := by
      rcases hρ with rfl | rfl | ⟨h, -⟩
      · exact ⟨hr, le_refl _⟩
      · constructor <;> nlinarith
      · exact absurd h hne
    have := polygonPoint_twice_dist c r ρ k j n i hr hρ'.1
    linarith [hρ'.2]
  · intro _
    have hρ' : 0 ≤ ρ ∧ ρ ≤ 1.2 * r := by
      rcases hρ with rfl | rfl | ⟨-, rfl⟩
      · constructor <;> nlinarith
      · constructor <;> nlinarith
      · constructor <;> nlinarith
    have := polygonPoint_twice_dist c r ρ k j n i hr hρ'.1
    linarith [hρ'.2]

/-- Witness for C22: four cubic 20-gons of radius 256 around `(512, 512)`. -/
theorem MultiplyPath_within_circle_witness :
    ∃ path : SkPath ℝ,
      MultiplyPath ⟨Real.cos, Real.sin, Real.pi⟩ [] Verb.kCubic_Verb ⟨512, 512⟩ 20 4 256 =
        some path ∧
      ∀ p ∈ path.points,
        (Verb.kCubic_Verb ≠ Verb.kCubic_Verb →
          Real.sqrt ((p.fX - 512) ^ 2 + (p.fY - 512) ^ 2) ≤ 1.5 * 256) ∧
        (Verb.kCubic_Verb = Verb.kCubic_Verb →
          Real.sqrt ((p.fX - 512) ^ 2 + (p.fY - 512) ^ 2) ≤ 1.7 * 256) :=
  MultiplyPath_within_circle Verb.kCubic_Verb 20 4 ⟨512, 512⟩ 256
    (Or.inr (Or.inr (Or.inr rfl))) (by decide) (by norm_num)
/-! ## Vertex counts -/

theorem testVertexList_length {R : Type} [Field R] (m : FloatMath R) (center : SkPoint R)
    (radius : R) (n : Nat) (mode : VertexMode) :
    (testVertexList m center radius n mode).length = finalVertexCount mode n := by
  cases mode
  · exact tri_list_length m center radius n n
  · simp only [testVertexList, finalVertexCount]
    rw [strip_list_eq, List.length_map, List.length_range]
  · rw [fan_list_eq]
    simp [finalVertexCount]

/-- C26: for every mode and `vertex_count >= 2`, with `m = vertex_count / 2`,
`GetTestVertices` succeeds, its color list has exactly as many entries as its
vertex list, and `final_vertex_count` is that common length: `m + 2` for a fan,
`3 * m` for a triangle list, `(m + 1) + (m + 1) / 2` for a strip, which is 27,
75 and 39 for `vertex_count = 50`. -/
theorem GetTestVertices_counts {R : Type} [Field R] (m : FloatMath R) (center : SkPoint R)
    (radius : R) (vertex_count : Nat) (mode : VertexMode) (h : 2 ≤ vertex_count) :
    (∃ (v : SkVertices R) (final_vertex_count : Nat),
      GetTestVertices m center radius vertex_count mode = some (v, final_vertex_count) ∧
      v.colors.length = v.positions.length ∧
      final_vertex_count = v.positions.length ∧
      final_vertex_count = finalVertexCount mode (vertex_count / 2)) ∧
    (∀ n : Nat,
      finalVertexCount VertexMode.kTriangleFan_VertexMode n = n + 2 ∧
      finalVertexCount VertexMode.kTriangles_VertexMode n = 3 * n ∧
      finalVertexCount VertexMode.kTriangleStrip_VertexMode n = (n + 1) + (n + 1) / 2) ∧
    finalVertexCount VertexMode.kTriangleFan_VertexMode (50 / 2) = 27 ∧
    finalVertexCount VertexMode.kTriangles_VertexMode (50 / 2) = 75 ∧
    finalVertexCount VertexMode.kTriangleStrip_VertexMode (50 / 2) = 39 := by
  refine ⟨⟨_, _, GetTestVertices_eq m center radius vertex_count mode h, ?_, rfl, ?_⟩,
    fun n => ⟨rfl, rfl, rfl⟩, by decide, by decide, by decide⟩
  · exact (testLists_length m center radius _ mode).symm
  · exact testVertexList_length m center radius _ mode

/-- Witness for C26: the strip for `vertex_count = 50`. -/
theorem GetTestVertices_counts_witness :
    ∃ (v : SkVertices ℝ) (final_vertex_count : Nat),
      GetTestVertices ⟨Real.cos, Real.sin, Real.pi⟩ ⟨0, 0⟩ 1 50
        VertexMode.kTriangleStrip_VertexMode = some (v, final_vertex_count) ∧
      v.colors.length = v.positions.length ∧
      final_vertex_count = v.positions.length ∧
      final_vertex_count = finalVertexCount VertexMode.kTriangleStrip_VertexMode (50 / 2) :=
  (GetTestVertices_counts ⟨Real.cos, Real.sin, Real.pi⟩ ⟨0, 0⟩ 1 50
    VertexMode.kTriangleStrip_VertexMode (by decide)).1
theorem foldl_record_count {α β : Type} (f : β → α) (g : β → Nat) (L : Nat)
    (hg : ∀ b, g b = L) (l : List β) (c0 : List α) (n0 : Nat) :
    l.foldl (fun (st : List α × Nat) (b : β) => (st.1 ++ [f b], st.2 + g b)) (c0, n0) =
      (c0 ++ l.map f, n0 + l.length * L) := by
  induction l generalizing c0 n0 with
  | nil => simp
  | cons b l ih =>
    rw [List.foldl_cons, ih, hg b]
    simp only [List.map_cons, List.length_cons, List.append_assoc, List.singleton_append]
    congr 1
    ring

theorem BM_DrawVertices_eq {R : Type} [LinearOrderedField R] (m : FloatMath R)
    (disc_count k : Nat) (backendName : String) (mode : VertexMode) :
    ∃ discs : List (SkVertices R),
      discs.length = disc_count ∧
      (∀ v ∈ discs, v.positions.length = finalVertexCount mode (50 / 2) ∧
        v.colors.length = finalVertexCount mode (50 / 2)) ∧
      BM_DrawVertices m disc_count k backendName mode =
        some ([Call.InitializeSurface 1024 1024] ++
          discs.map (fun v => Call.record (DrawOp.drawVertices v)) ++
          [Call.counter "VertexCount" (disc_count * finalVertexCount mode (50 / 2)),
            Call.SetComplexityN (disc_count * finalVertexCount mode (50 / 2)), Call.Build] ++
          timedLoop k ++
          [Call.Snapshot (backendName ++ "-DrawVertices-" ++ toString disc_count ++ "-" ++
            VertexModeToString mode ++ ".png")]) := by
  refine ⟨(GetPolygonPoints m disc_count
      (SkPoint.Make (((kFixedCanvasSize : Nat) : R) / 2.0) (((kFixedCanvasSize : Nat) : R) / 2.0))
      (((kFixedCanvasSize : Nat) : R) / 4.0 / 4.0)).map
      (fun p => (⟨mode, testVertexList m p (((kFixedCanvasSize : Nat) : R) / 4.0) (50 / 2) mode,
        testColorList (50 / 2) mode⟩ : SkVertices R)), ?_, ?_, ?_⟩
  · rw [List.length_map, GetPolygonPoints_length]
  · intro v hv
    obtain ⟨p, -, rfl⟩ := List.mem_map.1 hv
    exact ⟨testVertexList_length m p _ _ mode,
      (testLists_length m p (((kFixedCanvasSize : Nat) : R) / 4.0) (50 / 2) mode).symm.trans
        (testVertexList_length m p _ _ mode)⟩
  · unfold BM_DrawVertices
    simp only [GetTestVertices_eq m _ _ 50 mode (by decide), Option.bind_eq_bind,
      Option.some_bind, Option.pure_def, testVertexList_length]
    rw [foldlM_some_eq_foldl]
    simp only [Option.some_bind]
    rw [foldl_record_count (fun p => Call.record (DrawOp.drawVertices
        (⟨mode, testVertexList m p (((kFixedCanvasSize : Nat) : R) / 4.0) (50 / 2) mode,
          testColorList (50 / 2) mode⟩ : SkVertices R)))
      (fun _ => finalVertexCount mode (50 / 2)) (finalVertexCount mode (50 / 2)) (fun _ => rfl)]
    simp only [GetPolygonPoints_length, Nat.zero_add, List.map_map, List.append_assoc,
      List.cons_append, List.nil_append, Function.comp_def]
    rfl

/-- C23, shown false as stated: for one disc in triangle-fan mode the disc has
27 vertices and `BM_DrawVertices` reports `VertexCount` and the complexity `N`
as 27, not 50. -/
theorem BM_DrawVertices_one_fan_disc :
    ∃ v : SkVertices ℝ, v.positions.length = 27 ∧
      BM_DrawVertices ⟨Real.cos, Real.sin, Real.pi⟩ 1 1 "Software"
        VertexMode.kTriangleFan_VertexMode =
        some ([Call.InitializeSurface 1024 1024, Call.record (DrawOp.drawVertices v),
          Call.counter "VertexCount" 27, Call.SetComplexityN 27, Call.Build] ++ timedLoop 1 ++
          [Call.Snapshot "Software-DrawVertices-1-TriangleFan.png"]) ∧
      (27 : Nat) ≠ 50 * 1 := by
  obtain ⟨discs, hlen, hv, h⟩ := BM_DrawVertices_eq ⟨Real.cos, Real.sin, Real.pi⟩ 1 1 "Software"
    VertexMode.kTriangleFan_VertexMode
  obtain ⟨v, rfl⟩ := List.length_eq_one.1 hlen
  refine ⟨v, (hv v (List.mem_singleton_self v)).1, ?_, by decide⟩
  rw [h]
  rfl

/-- C23, amended: for every disc count `d` and every vertex mode, each disc
drawn by `BM_DrawVertices` has `final_vertex_count` vertices, 27 in
triangle-fan mode, 75 in triangles mode and 39 in triangle-strip mode (and as
many colors), and the `VertexCount` counter and the complexity `N` it reports
equal `d` times that number. -/
theorem BM_DrawVertices_counts {R : Type} [LinearOrderedField R] (m : FloatMath R)
    (d k : Nat) (backendName : String) (mode : VertexMode) :
    (∃ discs : List (SkVertices R),
      discs.length = d ∧
      (∀ v ∈ discs, v.positions.length = finalVertexCount mode (50 / 2) ∧
        v.colors.length = finalVertexCount mode (50 / 2)) ∧
      BM_DrawVertices m d k backendName mode =
        some ([Call.InitializeSurface 1024 1024] ++
          discs.map (fun v => Call.record (DrawOp.drawVertices v)) ++
          [Call.counter "VertexCount" (d * finalVertexCount mode (50 / 2)),
            Call.SetComplexityN (d * finalVertexCount mode (50 / 2)), Call.Build] ++
          timedLoop k ++
          [Call.Snapshot (backendName ++ "-DrawVertices-" ++ toString d ++ "-" ++
            VertexModeToString mode ++ ".png")])) ∧
    finalVertexCount VertexMode.kTriangleFan_VertexMode (50 / 2) = 27 ∧
    finalVertexCount VertexMode.kTriangles_VertexMode (50 / 2) = 75 ∧
    finalVertexCount VertexMode.kTriangleStrip_VertexMode (50 / 2) = 39 :=
  ⟨BM_DrawVertices_eq m d k backendName mode, by decide, by decide, by decide⟩

/-- Witness for the amended C23: two discs in triangles mode, 75 vertices each,
150 reported. -/
theorem BM_DrawVertices_counts_witness :
    ∃ discs : List (SkVertices ℝ),
      discs.length = 2 ∧
      (∀ v ∈ discs, v.positions.length = finalVertexCount VertexMode.kTriangles_VertexMode
          (50 / 2) ∧
        v.colors.length = finalVertexCount VertexMode.kTriangles_VertexMode (50 / 2)) ∧
      BM_DrawVertices ⟨Real.cos, Real.sin, Real.pi⟩ 2 1 "Software"
          VertexMode.kTriangles_VertexMode =
        some ([Call.InitializeSurface 1024 1024] ++
          discs.map (fun v => Call.record (DrawOp.drawVertices v)) ++
          [Call.counter "VertexCount"
              (2 * finalVertexCount VertexMode.kTriangles_VertexMode (50 / 2)),
            Call.SetComplexityN (2 * finalVertexCount VertexMode.kTriangles_VertexMode (50 / 2)),
            Call.Build] ++
          timedLoop 1 ++
          [Call.Snapshot ("Software" ++ "-DrawVertices-" ++ toString 2 ++ "-" ++
            VertexModeToString VertexMode.kTriangles_VertexMode ++ ".png")]) :=
  (BM_DrawVertices_counts ⟨Real.cos, Real.sin, Real.pi⟩ 2 1 "Software"
    VertexMode.kTriangles_VertexMode).1
/-! ## Index safety of the path generators and of the test vertices -/

theorem GetPolygonPoints_zero {R : Type} [Field R] (m : FloatMath R) (center : SkPoint R)
    (r : R) : GetPolygonPoints m 0 center r = [] := by
  simp [GetPolygonPoints_eq_map]

theorem GetPolygonPoints_getElem?_ne_none {R : Type} [Field R] (m : FloatMath R) (n : Nat)
    (center : SkPoint R) (r : R) (i : Nat) (h : i < n) :
    (GetPolygonPoints m n center r)[i]? ≠ none := by
  rw [GetPolygonPoints_getElem? m n center r i h]
  exact Option.some_ne_none _

/-- C24: for every `sides >= 1` each of the four generators runs to completion,
because every index it uses is in range: `points[0]` and `points[i]` for
`1 <= i < sides` in a list of `sides` points, `control_points[2i-1]` and
`control_points[2*sides-1]` in a list of `2*sides` points, the inner and outer
control points at `3i-2`, `3i-1`, `3*sides-2`, `3*sides-1` in lists of
`3*sides` points, and none of the subtractions underflows.  For `sides = 0` the
point list is empty, so element 0 is out of range and each generator fails at
that read. -/
theorem generators_indices_in_bounds {R : Type} [Field R] (m : FloatMath R) (sides : Nat)
    (center : SkPoint R) (radius : R) (path : SkPath R) (hs : 1 ≤ sides) :
    ((GetPolygonPoints m sides center radius).length = sides ∧
      (GetPolygonPoints m (sides * 2) center (radius * 0.8)).length = 2 * sides ∧
      (GetPolygonPoints m (sides * 3) center (radius * 0.8)).length = 3 * sides ∧
      (GetPolygonPoints m (sides * 3) center (radius * 1.2)).length = 3 * sides) ∧
    ((GetPolygonPoints m sides center radius)[0]? ≠ none ∧
      1 ≤ 2 * sides ∧
      (GetPolygonPoints m (sides * 2) center (radius * 0.8))[2 * sides - 1]? ≠ none ∧
      2 ≤ 3 * sides ∧
      (GetPolygonPoints m (sides * 3) center (radius * 0.8))[3 * sides - 2]? ≠ none ∧
      (GetPolygonPoints m (sides * 3) center (radius * 1.2))[3 * sides - 1]? ≠ none) ∧
    (∀ i ∈ forRange 1 sides,
      i < sides ∧ (GetPolygonPoints m sides center radius)[i]? ≠ none ∧
      1 ≤ 2 * i ∧ 2 * i - 1 < 2 * sides ∧
      (GetPolygonPoints m (sides * 2) center (radius * 0.8))[2 * i - 1]? ≠ none ∧
      2 ≤ 3 * i ∧ 3 * i - 2 < 3 * sides ∧ 3 * i - 1 < 3 * sides ∧
      (GetPolygonPoints m (sides * 3) center (radius * 0.8))[3 * i - 2]? ≠ none ∧
      (GetPolygonPoints m (sides * 3) center (radius * 1.2))[3 * i - 1]? ≠ none) ∧
    ((GetLinesPath m path sides center radius).isSome = true ∧
      (GetQuadsPath m path sides center radius).isSome = true ∧
      (GetConicsPath m path sides center radius).isSome = true ∧
      (GetCubicsPath m path sides center radius).isSome = true) ∧
    ((GetPolygonPoints m 0 center radius = [] ∧
      (GetPolygonPoints m 0 center radius)[0]? = none) ∧
      GetLinesPath m path 0 center radius = none ∧
      GetQuadsPath m path 0 center radius = none ∧
      GetConicsPath m path 0 center radius = none ∧
      GetCubicsPath m path 0 center radius = none) := by
  refine ⟨⟨?_, ?_, ?_, ?_⟩, ⟨?_, by omega, ?_, by omega, ?_, ?_⟩, ?_, ⟨?_, ?_, ?_, ?_⟩,
    ⟨?_, ?_⟩, ?_, ?_, ?_, ?_⟩
  · exact GetPolygonPoints_length m _ _ _
  · rw [GetPolygonPoints_length, Nat.mul_comm]
  · rw [GetPolygonPoints_length, Nat.mul_comm]
  · rw [GetPolygonPoints_length, Nat.mul_comm]
  · exact GetPolygonPoints_getElem?_ne_none m _ _ _ _ (by omega)
  · exact GetPolygonPoints_getElem?_ne_none m _ _ _ _ (by omega)
  · exact GetPolygonPoints_getElem?_ne_none m _ _ _ _ (by omega)
  · exact GetPolygonPoints_getElem?_ne_none m _ _ _ _ (by omega)
  · intro i hi
    have hi' := mem_forRange.1 hi
    exact ⟨hi'.2, GetPolygonPoints_getElem?_ne_none m _ _ _ _ hi'.2, by omega, by omega,
      GetPolygonPoints_getElem?_ne_none m _ _ _ _ (by omega), by omega, by omega, by omega,
      GetPolygonPoints_getElem?_ne_none m _ _ _ _ (by omega),
      GetPolygonPoints_getElem?_ne_none m _ _ _ _ (by omega)⟩
  · rw [GetLinesPath_eq m sides center radius path hs]; rfl
  · rw [GetQuadsPath_eq m sides center radius path hs]; rfl
  · rw [GetConicsPath_eq m sides center radius path hs]; rfl
  · rw [GetCubicsPath_eq m sides center radius path hs]; rfl
  · exact GetPolygonPoints_zero m center radius
  · rw [GetPolygonPoints_zero]; rfl
  · simp [GetLinesPath, GetPolygonPoints_zero]
  · simp [GetQuadsPath, GetPolygonPoints_zero]
  · simp [GetConicsPath, GetPolygonPoints_zero]
  · simp [GetCubicsPath, GetPolygonPoints_zero]

/-- Witness for C24: the cubic generator with `sides = 3` on the empty path. -/
theorem generators_indices_in_bounds_witness :
    1 ≤ 3 ∧
    (GetCubicsPath (⟨Real.cos, Real.sin, Real.pi⟩ : FloatMath ℝ) [] 3 ⟨0, 0⟩ 1).isSome = true ∧
    GetCubicsPath (⟨Real.cos, Real.sin, Real.pi⟩ : FloatMath ℝ) [] 0 ⟨0, 0⟩ 1 = none :=
  ⟨by decide,
    (generators_indices_in_bounds ⟨Real.cos, Real.sin, Real.pi⟩ 3 ⟨0, 0⟩ 1 []
      (by decide)).2.2.2.1.2.2.2,
    (generators_indices_in_bounds ⟨Real.cos, Real.sin, Real.pi⟩ 3 ⟨0, 0⟩ 1 []
      (by decide)).2.2.2.2.2.2.2.2⟩

/-- C25: with `m = vertex_count / 2`, for every `vertex_count >= 2` the point
list has `m >= 1` entries, every index `i % m` read from it is in range and
`GetTestVertices` runs to completion in all three modes; triangles mode runs to
completion for every `vertex_count`, and for `vertex_count < 2` it emits no
vertices; in triangle-fan and triangle-strip modes a `vertex_count` below 2
leaves the point list empty, the first loop pass evaluates `0 % 0`, and the
function fails there. -/
theorem GetTestVertices_index_safety {R : Type} [Field R] (m : FloatMath R)
    (center : SkPoint R) (radius : R) (vertex_count : Nat) :
    (2 ≤ vertex_count →
      (GetPolygonPoints m (vertex_count / 2) center radius).length = vertex_count / 2 ∧
      1 ≤ vertex_count / 2 ∧
      (∀ i : Nat, ∃ j : Nat,
        checkedMod i (GetPolygonPoints m (vertex_count / 2) center radius).length = some j ∧
        j < (GetPolygonPoints m (vertex_count / 2) center radius).length ∧
        (GetPolygonPoints m (vertex_count / 2) center radius)[j]? ≠ none) ∧
      ∀ mode : VertexMode,
        (GetTestVertices m center radius vertex_count mode).isSome = true) ∧
    (GetTestVertices m center radius vertex_count VertexMode.kTriangles_VertexMode).isSome
      = true ∧
    (vertex_count < 2 →
      GetTestVertices m center radius vertex_count VertexMode.kTriangles_VertexMode =
        some (⟨VertexMode.kTriangles_VertexMode, [], []⟩, 0) ∧
      GetPolygonPoints m (vertex_count / 2) center radius = [] ∧
      checkedMod 0 (GetPolygonPoints m (vertex_count / 2) center radius).length = none ∧
      GetTestVertices m center radius vertex_count VertexMode.kTriangleFan_VertexMode = none ∧
      GetTestVertices m center radius vertex_count VertexMode.kTriangleStrip_VertexMode
        = none) := by
  have hsmall : vertex_count < 2 →
      GetTestVertices m center radius vertex_count VertexMode.kTriangles_VertexMode =
        some (⟨VertexMode.kTriangles_VertexMode, [], []⟩, 0) ∧
      GetPolygonPoints m (vertex_count / 2) center radius = [] ∧
      checkedMod 0 (GetPolygonPoints m (vertex_count / 2) center radius).length = none ∧
      GetTestVertices m center radius vertex_count VertexMode.kTriangleFan_VertexMode = none ∧
      GetTestVertices m center radius vertex_count VertexMode.kTriangleStrip_VertexMode
        = none := by
    intro h
    have h0 : vertex_count / 2 = 0 := by omega
    rw [h0, GetPolygonPoints_zero]
    refine ⟨?_, rfl, rfl, ?_, ?_⟩
    · simp [GetTestVertices, h0, GetPolygonPoints_zero, forRange, SkVertices.MakeCopy]
    · simp [GetTestVertices, h0, GetPolygonPoints_zero, forRange, checkedMod]
    · simp [GetTestVertices, h0, GetPolygonPoints_zero, forRange, checkedMod]
  refine ⟨fun h => ⟨GetPolygonPoints_length m _ _ _, by omega, fun i => ?_, fun mode => ?_⟩,
    ?_, hsmall⟩
  · have hn : 0 < vertex_count / 2 := by omega
    refine ⟨i % (vertex_count / 2), ?_, ?_, ?_⟩
    · rw [GetPolygonPoints_length, checkedMod, if_neg (by omega)]
    · rw [GetPolygonPoints_length]
      exact Nat.mod_lt _ hn
    · exact GetPolygonPoints_getElem?_ne_none m _ _ _ _ (Nat.mod_lt _ hn)
  · rw [GetTestVertices_eq m center radius vertex_count mode h]; rfl
  · rcases Nat.lt_or_ge vertex_count 2 with h | h
    · rw [(hsmall h).1]; rfl
    · rw [GetTestVertices_eq m center radius vertex_count _ h]; rfl

/-- Witness for C25: `vertex_count = 50` in strip mode and `vertex_count = 1` in
fan mode. -/
theorem GetTestVertices_index_safety_witness :
    (2 ≤ 50 ∧ (GetTestVertices (⟨Real.cos, Real.sin, Real.pi⟩ : FloatMath ℝ) ⟨0, 0⟩ 1 50
      VertexMode.kTriangleStrip_VertexMode).isSome = true) ∧
    (1 < 2 ∧ GetTestVertices (⟨Real.cos, Real.sin, Real.pi⟩ : FloatMath ℝ) ⟨0, 0⟩ 1 1
      VertexMode.kTriangleFan_VertexMode = none) :=
  ⟨⟨by decide, ((GetTestVertices_index_safety ⟨Real.cos, Real.sin, Real.pi⟩ ⟨0, 0⟩ 1 50).1
      (by decide)).2.2.2 VertexMode.kTriangleStrip_VertexMode⟩,
    ⟨by decide, ((GetTestVertices_index_safety ⟨Real.cos, Real.sin, Real.pi⟩ ⟨0, 0⟩ 1 1).2.2
      (by decide)).2.2.2.1⟩⟩
/-! ## Horizontal range of the test points -/

theorem testPointsStep_x (w h : Int) (hw : 23 ≤ w) (n : Nat)
    (st : List (SkPoint ℚ) × SkPoint ℚ) (hinv : 0 ≤ st.2.fX ∧ st.2.fX ≤ (w : ℚ)) :
    0 ≤ (testPointsStep ⟨w, h⟩ st n).2.fX ∧ (testPointsStep ⟨w, h⟩ st n).2.fX ≤ (w : ℚ) := by
  obtain ⟨pts, ⟨x, y⟩⟩ := st
  obtain ⟨hx0, hxw⟩ := hinv
  have hw' : (23 : ℚ) ≤ (w : ℚ) := by exact_mod_cast hw
  have hlt : n % 6 < 6 := Nat.mod_lt _ (by decide)
  simp only at hx0 hxw
  simp only [testPointsStep, SkPoint.offset, SkPoint.x, SkPoint.y, SkISize.width,
    SkISize.height, List.length_cons, List.length_nil, Nat.reduceAdd, Int.cast_neg]
  interval_cases hk : n % 6
  all_goals
    simp only [List.getD_cons_zero, List.getD_cons_succ]
    norm_num
    split_ifs <;> simp only <;> refine ⟨?_, ?_⟩ <;> linarith

theorem testPoints_fold_x (w h : Int) (hw : 23 ≤ w) (n : Nat) :
    (∀ p ∈ ((List.range n).foldl (testPointsStep ⟨w, h⟩)
        ([], (SkPoint.Make 0.0 0.0 : SkPoint ℚ))).1, 0 ≤ p.fX ∧ p.fX ≤ (w : ℚ)) ∧
    (0 ≤ ((List.range n).foldl (testPointsStep ⟨w, h⟩)
        ([], (SkPoint.Make 0.0 0.0 : SkPoint ℚ))).2.fX ∧
      ((List.range n).foldl (testPointsStep ⟨w, h⟩)
        ([], (SkPoint.Make 0.0 0.0 : SkPoint ℚ))).2.fX ≤ (w : ℚ)) := by
  have hw' : (23 : ℚ) ≤ (w : ℚ) := by exact_mod_cast hw
  induction n with
  | zero =>
    refine ⟨by simp, ?_⟩
    simp only [List.range_zero, List.foldl_nil, SkPoint.Make]
    norm_num
    linarith
  | succ n ih =>
    rw [testPoints_fold_succ]
    refine ⟨?_, testPointsStep_x w h hw n _ ih.2⟩
    intro p hp
    rw [testPointsStep_fst] at hp
    rcases List.mem_append.1 hp with h1 | h1
    · exact ih.1 p h1
    · rw [List.mem_singleton] at h1
      subst h1
      exact ih.2

/-- C27: for every count and every canvas whose integer width is at least 23
(any height), every point returned by `GetTestPoints` has `0 <= x <= width`,
over exact rational arithmetic: `x` never becomes negative and one wrap brings
it back to at most `width`. -/
theorem GetTestPoints_x_range (count : Nat) (w h : Int) (hw : 23 ≤ w) :
    ∀ p ∈ (GetTestPoints count ⟨w, h⟩ : List (SkPoint ℚ)), 0 ≤ p.fX ∧ p.fX ≤ (w : ℚ) := by
  rw [GetTestPoints_eq_fold]
  exact (testPoints_fold_x w h hw count).1

/-- Witness for C27: point 5 on the 23 x 100 canvas, reached after two wraps of `x`. -/
theorem GetTestPoints_x_range_witness :
    ((23 : Int) ≤ 23 ∧
      (⟨57 / 5, 696 / 10⟩ : SkPoint ℚ) ∈ (GetTestPoints 6 ⟨23, 100⟩ : List (SkPoint ℚ))) ∧
    (0 ≤ (⟨57 / 5, 696 / 10⟩ : SkPoint ℚ).fX ∧
      (⟨57 / 5, 696 / 10⟩ : SkPoint ℚ).fX ≤ ((23 : Int) : ℚ)) :=
  have hmem : (⟨57 / 5, 696 / 10⟩ : SkPoint ℚ) ∈
      (GetTestPoints 6 ⟨23, 100⟩ : List (SkPoint ℚ)) := by
    norm_num [GetTestPoints, forRange, List.range', SkPoint.offset, SkPoint.Make, SkPoint.x,
      SkPoint.y, SkISize.width, SkISize.height]
  ⟨⟨by decide, hmem⟩, GetTestPoints_x_range 6 23 100 (by decide) ⟨57 / 5, 696 / 10⟩ hmem⟩
/-! ## The circle walk of `BM_DrawCircle` -/

theorem foldl_states {α β σ : Type} (step : List α × σ → β → List α × σ) (f : σ → α)
    (Inv : σ → Prop) (hfst : ∀ s b, (step s b).1 = s.1 ++ [f s.2])
    (hinv : ∀ s b, Inv s.2 → Inv (step s b).2) (l : List β) (init : List α × σ)
    (h0 : Inv init.2) :
    ∃ states : List σ, states.length = l.length ∧ (∀ s ∈ states, Inv s) ∧
      (l.foldl step init).1 = init.1 ++ states.map f := by
  induction l generalizing init with
  | nil => exact ⟨[], rfl, by simp, by simp⟩
  | cons b l ih =>
    obtain ⟨states, hl, hi, he⟩ := ih (step init b) (hinv _ _ h0)
    refine ⟨init.2 :: states, by simp [hl], ?_, ?_⟩
    · intro s hs
      rcases List.mem_cons.1 hs with h | h
      · exact h ▸ h0
      · exact hi s h
    · rw [List.foldl_cons, he, hfst]
      simp

theorem BM_DrawCircle_eq {R : Type} [LinearOrderedField R] (range0 k : Nat)
    (backendName : String) :
    (BM_DrawCircle range0 k backendName : Option (List (Call R))) =
      some (((forRange 0 kCirclesToDraw).foldl (drawCircleStep range0)
        ([Call.InitializeSurface (range0 * 2) (range0 * 2)],
          SkPoint.Make ((range0 : R) / 2.0) ((range0 : R) / 2.0))).1 ++ [Call.Build] ++
        timedLoop k ++
        [Call.Snapshot (backendName ++ "-DrawCircle-" ++ toString range0 ++ ".png")]) := rfl

theorem drawCircleStep_inv {R : Type} [LinearOrderedField R] (L : Nat)
    (st : List (Call R) × SkPoint R) (i : Nat)
    (h : st.2.fX = st.2.fY ∧ (L : R) / 2 ≤ st.2.fX ∧ st.2.fX ≤ 2 * (L : R) - (L : R) / 2) :
    (drawCircleStep L st i).2.fX = (drawCircleStep L st i).2.fY ∧
      (L : R) / 2 ≤ (drawCircleStep L st i).2.fX ∧
      (drawCircleStep L st i).2.fX ≤ 2 * (L : R) - (L : R) / 2 := by
  obtain ⟨calls, ⟨x, y⟩⟩ := st
  obtain ⟨hxy, hlo, hhi⟩ := h
  simp only at hxy hlo hhi
  subst hxy
  have h2 : (2.0 : R) = 2 := by norm_num
  have h5 : (0.5 : R) = 1 / 2 := by norm_num
  have hL : (0 : R) ≤ (L : R) := Nat.cast_nonneg L
  simp only [drawCircleStep, SkPoint.offset, SkPoint.x, SkPoint.y, SkPoint.set, h2, h5,
    Nat.cast_mul, Nat.cast_ofNat]
  by_cases hw : x + 1 / 2 + (L : R) / 2 > (L : R) * 2
  · simp only [hw, if_true]
    refine ⟨trivial, le_refl _, by linarith⟩
  · simp only [hw, if_false]
    refine ⟨trivial, by linarith, by linarith⟩

/-- C28: for every side length `length >= 1`, with `r = length / 2` and a canvas of
`2 * length`, `BM_DrawCircle` records exactly 5000 circles of radius `r` between
the surface set-up and `Build`; every recorded center has equal `x` and `y`
coordinates, both in `[r, 2 * length - r]`, so the bounds
`(center - r, center + r)` of every circle lie within
`[0, 2 * length] x [0, 2 * length]`. -/
theorem BM_DrawCircle_centers {R : Type} [LinearOrderedField R] (L k : Nat)
    (backendName : String) (_hL : 1 ≤ L) :
    ∃ centers : List (SkPoint R),
      centers.length = 5000 ∧
      BM_DrawCircle L k backendName =
        some ([Call.InitializeSurface (L * 2) (L * 2)] ++
          centers.map (fun c => Call.record (DrawOp.drawCircle c ((L : R) / 2.0))) ++
          [Call.Build] ++ timedLoop k ++
          [Call.Snapshot (backendName ++ "-DrawCircle-" ++ toString L ++ ".png")]) ∧
      ∀ c ∈ centers,
        c.fX = c.fY ∧
        ((L : R) / 2 ≤ c.fX ∧ c.fX ≤ 2 * (L : R) - (L : R) / 2) ∧
        ((L : R) / 2 ≤ c.fY ∧ c.fY ≤ 2 * (L : R) - (L : R) / 2) ∧
        (0 ≤ c.fX - (L : R) / 2 ∧ c.fX + (L : R) / 2 ≤ 2 * (L : R)) ∧
        (0 ≤ c.fY - (L : R) / 2 ∧ c.fY + (L : R) / 2 ≤ 2 * (L : R)) := by
  have hL : (0 : R) ≤ (L : R) := Nat.cast_nonneg L
  have h2 : (2.0 : R) = 2 := by norm_num
  obtain ⟨centers, hlen, hinv, he⟩ := foldl_states (drawCircleStep L)
    (fun c : SkPoint R => Call.record (DrawOp.drawCircle c ((L : R) / 2.0)))
    (fun c : SkPoint R => c.fX = c.fY ∧ (L : R) / 2 ≤ c.fX ∧ c.fX ≤ 2 * (L : R) - (L : R) / 2)
    (fun _ _ => rfl) (fun s b h => drawCircleStep_inv L s b h) (forRange 0 kCirclesToDraw)
    ([Call.InitializeSurface (L * 2) (L * 2)], SkPoint.Make ((L : R) / 2.0) ((L : R) / 2.0))
    (by
      simp only [SkPoint.Make, h2]
      exact ⟨trivial, le_refl _, by linarith⟩)
  refine ⟨centers, ?_, ?_, ?_⟩
  · rw [hlen, forRange_zero, List.length_range]
    rfl
  · rw [BM_DrawCircle_eq, he]
  · intro c hc
    obtain ⟨hxy, hlo, hhi⟩ := hinv c hc
    refine ⟨hxy, ⟨hlo, hhi⟩, ⟨hxy ▸ hlo, hxy ▸ hhi⟩, ⟨by linarith, by linarith⟩, ?_, ?_⟩
    · rw [← hxy]; linarith
    · rw [← hxy]; linarith

/-- Witness for C28: side length 1. -/
theorem BM_DrawCircle_centers_witness :
    1 ≤ 1 ∧
    ∃ centers : List (SkPoint ℚ),
      centers.length = 5000 ∧
      BM_DrawCircle 1 1 "Software" =
        some ([Call.InitializeSurface (1 * 2) (1 * 2)] ++
          centers.map (fun c => Call.record (DrawOp.drawCircle c (((1 : Nat) : ℚ) / 2.0))) ++
          [Call.Build] ++ timedLoop 1 ++
          [Call.Snapshot ("Software" ++ "-DrawCircle-" ++ toString 1 ++ ".png")]) ∧
      ∀ c ∈ centers,
        c.fX = c.fY ∧
        ((((1 : Nat) : ℚ)) / 2 ≤ c.fX ∧ c.fX ≤ 2 * ((1 : Nat) : ℚ) - ((1 : Nat) : ℚ) / 2) ∧
        (((1 : Nat) : ℚ) / 2 ≤ c.fY ∧ c.fY ≤ 2 * ((1 : Nat) : ℚ) - ((1 : Nat) : ℚ) / 2) ∧
        (0 ≤ c.fX - ((1 : Nat) : ℚ) / 2 ∧ c.fX + ((1 : Nat) : ℚ) / 2 ≤ 2 * ((1 : Nat) : ℚ)) ∧
        (0 ≤ c.fY - ((1 : Nat) : ℚ) / 2 ∧ c.fY + ((1 : Nat) : ℚ) / 2 ≤ 2 * ((1 : Nat) : ℚ)) :=
  ⟨by decide, BM_DrawCircle_centers 1 1 "Software" (by decide)⟩
/-! ## The lines of `BM_DrawLine` -/

theorem BM_DrawLine_eq {R : Type} [LinearOrderedField R] (L k : Nat) (backendName : String)
    (hL : 1 ≤ L) :
    (BM_DrawLine L k backendName : Option (List (Call R))) =
      some ([Call.InitializeSurface L L] ++
        ((List.range kLinesToDraw).map (fun i : Nat =>
          ((SkPoint.Make ((i % L : Nat) : R) 0, SkPoint.Make ((L - i % L : Nat) : R) (L : R)) :
            SkPoint R × SkPoint R))).map
          (fun l => Call.record (DrawOp.drawLine l.1 l.2)) ++
        [Call.Build] ++ timedLoop k ++
        [Call.Snapshot (backendName ++ "-DrawLine-" ++ toString L ++ ".png")]) := by
  have hm : ∀ i, checkedMod i L = some (i % L) := by
    intro i
    simp [checkedMod]
    omega
  unfold BM_DrawLine
  simp only [hm, Option.bind_eq_bind, Option.some_bind, Option.pure_def]
  rw [foldlM_some_eq_foldl, forRange_zero,
    foldl_push_eq_map (fun i : Nat => (Call.record (DrawOp.drawLine
      (SkPoint.Make ((i % L : Nat) : R) 0)
      (SkPoint.Make ((L - i % L : Nat) : R) (L : R))) : Call R)), List.map_map]
  rfl

/-- C29: for every `length >= 1`, `BM_DrawLine` records exactly 10000 lines
between the surface set-up and `Build`; for every `i < 10000` line `i` runs from
`(i mod length, 0)` to `(length - (i mod length), length)`, where
`i mod length < length`, so the unsigned subtraction does not underflow and
equals the exact difference; both end points lie within
`[0, length] x [0, length]`, and the midpoint of the line is
`(length / 2, length / 2)`. -/
theorem BM_DrawLine_lines {R : Type} [LinearOrderedField R] (L k : Nat)
    (backendName : String) (hL : 1 ≤ L) :
    ∃ lines : List (SkPoint R × SkPoint R),
      lines.length = 10000 ∧
      BM_DrawLine L k backendName =
        some ([Call.InitializeSurface L L] ++
          lines.map (fun l => Call.record (DrawOp.drawLine l.1 l.2)) ++
          [Call.Build] ++ timedLoop k ++
          [Call.Snapshot (backendName ++ "-DrawLine-" ++ toString L ++ ".png")]) ∧
      ∀ i : Nat, i < 10000 →
        ∃ p0 p1 : SkPoint R, lines[i]? = some (p0, p1) ∧
          p0 = ⟨((i % L : Nat) : R), 0⟩ ∧
          p1 = ⟨((L - i % L : Nat) : R), (L : R)⟩ ∧
          i % L < L ∧
          ((L - i % L : Nat) : R) = (L : R) - ((i % L : Nat) : R) ∧
          (0 ≤ p0.fX ∧ p0.fX ≤ (L : R) ∧ 0 ≤ p0.fY ∧ p0.fY ≤ (L : R)) ∧
          (0 ≤ p1.fX ∧ p1.fX ≤ (L : R) ∧ 0 ≤ p1.fY ∧ p1.fY ≤ (L : R)) ∧
          (p0.fX + p1.fX) / 2 = (L : R) / 2 ∧ (p0.fY + p1.fY) / 2 = (L : R) / 2 := by
  refine ⟨_, ?_, BM_DrawLine_eq L k backendName hL, ?_⟩
  · rw [List.length_map, List.length_range]
    rfl
  · intro i hi
    have hlt : i % L < L := Nat.mod_lt _ (by omega)
    have hsub : ((L - i % L : Nat) : R) = (L : R) - ((i % L : Nat) : R) :=
      Nat.cast_sub hlt.le
    have h0 : (0 : R) ≤ ((i % L : Nat) : R) := Nat.cast_nonneg _
    have h1 : ((i % L : Nat) : R) ≤ (L : R) := by exact_mod_cast hlt.le
    have hL0 : (0 : R) ≤ (L : R) := Nat.cast_nonneg _
    refine ⟨⟨((i % L : Nat) : R), 0⟩, ⟨((L - i % L : Nat) : R), (L : R)⟩, ?_, rfl, rfl, hlt,
      hsub, ⟨h0, h1, le_refl _, hL0⟩, ⟨?_, ?_, hL0, le_refl _⟩, ?_, ?_⟩
    · rw [List.getElem?_map, List.getElem?_range (show i < kLinesToDraw from hi)]
      rfl
    · show (0 : R) ≤ ((L - i % L : Nat) : R)
      exact Nat.cast_nonneg _
    · show ((L - i % L : Nat) : R) ≤ (L : R)
      rw [hsub]; linarith
    · show (((i % L : Nat) : R) + ((L - i % L : Nat) : R)) / 2 = (L : R) / 2
      rw [hsub]; ring
    · show ((0 : R) + (L : R)) / 2 = (L : R) / 2
      rw [zero_add]

/-- Witness for C29: line 7 on a canvas of side 5 runs from `(2, 0)` to
`(3, 5)`. -/
theorem BM_DrawLine_lines_witness :
    1 ≤ 5 ∧
    ∃ lines : List (SkPoint ℚ × SkPoint ℚ),
      lines.length = 10000 ∧
      BM_DrawLine 5 1 "Software" =
        some ([Call.InitializeSurface 5 5] ++
          lines.map (fun l => Call.record (DrawOp.drawLine l.1 l.2)) ++
          [Call.Build] ++ timedLoop 1 ++
          [Call.Snapshot "Software-DrawLine-5.png"]) ∧
      lines[7]? = some (⟨2, 0⟩, ⟨3, 5⟩) := by
  obtain ⟨lines, hlen, htrace, h⟩ := @BM_DrawLine_lines ℚ _ 5 1 "Software" (by decide)
  obtain ⟨p0, p1, hget, hp0, hp1, -⟩ := h 7 (by decide)
  refine ⟨by decide, lines, hlen, htrace, ?_⟩
  rw [hget, hp0, hp1]
  norm_num

end flutter.testing
